import Mathlib

/-! # play-with-docker: container creation, host routing and session handlers

A shallow embedding of parts of the Go sources

* `config/config.go`  (process-wide configuration, host routing patterns),
* `docker/docker.go`  (`ContainerCreate`, `PullImage`, `copyIfSet`),
* `handlers/session_new.go` (`NewSession`),

followed by theorems about them.

Conventions of the embedding.

* Go `int64` values are integers; arithmetic that can overflow goes through
  `wrapInt64`.
* Go `float64` values are `F64`: NaN, the two infinities, or a finite value
  carried as a rational.  Only comparisons and the conversion to `int` are
  used on them, and both are exact on finite values.
* A non-nil Go `error` is its message; `Option Err` is a Go `error` value and
  `none` is `nil`.
* Calls on the daemon client, on the core and on the network are recorded in a
  trace; what they answer is read from an environment record whose fields see
  the trace so far.
-/

namespace pwd

/-! ## Machine numbers -/

/-- Two-complement wrap-around of an integer into the `int64` range. -/
def wrapInt64 (x : Int) : Int := (x + 2 ^ 63) % 2 ^ 64 - 2 ^ 63

/-- The smallest `int64`. -/
def minInt64 : Int := -(2 ^ 63)

/-- Go `float64`, with finite values carried exactly. -/
inductive F64 where
  | nan
  | negInf
  | fin (q : ℚ)
  | posInf
deriving DecidableEq

namespace F64

/-- Go `a > b` on `float64`: false as soon as one side is NaN. -/
def gt : F64 → F64 → Bool
  | fin a, fin b => decide (b < a)
  | posInf, fin _ => true
  | posInf, negInf => true
  | fin _, negInf => true
  | _, _ => false

/-- Go `a <= b` on `float64`: false as soon as one side is NaN. -/
def le : F64 → F64 → Bool
  | fin a, fin b => decide (a ≤ b)
  | negInf, negInf => true
  | negInf, fin _ => true
  | negInf, posInf => true
  | fin _, posInf => true
  | posInf, posInf => true
  | _, _ => false

/-- Whether the value is NaN. -/
def isNaN : F64 → Bool
  | nan => true
  | _ => false

/-- The literal zero. -/
def zero : F64 := fin 0

/-- Go `int(x)` for a `float64`: truncation toward zero when the value fits in
an `int64`; otherwise (NaN, infinities, out of range) the amd64 result, the
smallest `int64`. -/
def toInt : F64 → Int
  | fin q =>
    let t : Int := Int.tdiv q.num q.den
    if minInt64 ≤ t ∧ t < 2 ^ 63 then t else minInt64
  | _ => minInt64

end F64

/-- Go `%d` of an integer. -/
def fmtD (i : Int) : String :=
  if i < 0 then "-" ++ (-i).toNat.repr else i.toNat.repr

/-- A non-nil Go error, by its message. -/
abbrev Err := String

/-! ## Go `regexp`: leftmost-first matching with submatches

Go documents the match of a pattern as the leftmost one and, among those, the
one a backtracking engine finds first.  `run` is that backtracking engine, on
the parsed and simplified pattern. -/

namespace regexp

/-- A parsed pattern.  Counted repetitions are expanded as `regexp/syntax`
simplifies them (see `counted`); `star` and `quest` are the greedy operators;
a non-capturing group leaves no node. -/
inductive Re where
  | empty
  | char (c : Char)
  | cls (ranges : List (Char × Char))
  | anyNotNL
  | beginText
  | endText
  | cat (a b : Re)
  | star (a : Re)
  | quest (a : Re)
  | group (i : Nat) (a : Re)
deriving DecidableEq

/-- The text of each capture group, by index; `none` when the group did not
take part in the match. -/
abbrev Caps := List (Option (List Char))

/-- What remains to be matched: called with the position reached, the input
left and the captures so far. -/
abbrev Cont := Nat → List Char → Caps → Option Caps

/-- Membership of a character in a class given by inclusive ranges. -/
def inRanges (ranges : List (Char × Char)) (c : Char) : Bool :=
  ranges.any (fun r => decide (r.1 ≤ c) && decide (c ≤ r.2))

/-- Greedy iteration of `step`.  An iteration that consumes nothing is not
repeated, so `fuel`, the length of the input left, is never exhausted before
the input is. -/
def starLoop (step : Nat → List Char → Caps → Cont → Option Caps) :
    Nat → Nat → List Char → Caps → Cont → Option Caps
  | 0, pos, rest, caps, k => k pos rest caps
  | fuel + 1, pos, rest, caps, k =>
    match step pos rest caps
        (fun p r c => if r.length < rest.length then starLoop step fuel p r c k else none) with
    | some res => some res
    | none => k pos rest caps

/-- The backtracking matcher: match `re` at position `pos` against `rest`,
then continue with `k`; alternatives are tried in priority order and the
first success is the result. -/
def run : Re → Nat → List Char → Caps → Cont → Option Caps
  | Re.empty, pos, rest, caps, k => k pos rest caps
  | Re.char c, pos, rest, caps, k =>
    match rest with
    | x :: t => if x = c then k (pos + 1) t caps else none
    | [] => none
  | Re.cls ranges, pos, rest, caps, k =>
    match rest with
    | x :: t => if inRanges ranges x then k (pos + 1) t caps else none
    | [] => none
  | Re.anyNotNL, pos, rest, caps, k =>
    match rest with
    | x :: t => if x ≠ '\n' then k (pos + 1) t caps else none
    | [] => none
  | Re.beginText, pos, rest, caps, k => if pos = 0 then k pos rest caps else none
  | Re.endText, pos, rest, caps, k => if rest = [] then k pos rest caps else none
  | Re.cat a b, pos, rest, caps, k => run a pos rest caps (fun p r c => run b p r c k)
  | Re.star a, pos, rest, caps, k => starLoop (run a) rest.length pos rest caps k
  | Re.quest a, pos, rest, caps, k =>
    match run a pos rest caps k with
    | some res => some res
    | none => k pos rest caps
  | Re.group i a, pos, rest, caps, k =>
    run a pos rest caps (fun p r c => k p r (c.set i (some (rest.take (p - pos)))))

/-- The pattern `x{n}`, simplified: `n` copies of `x`. -/
def times (a : Re) : Nat → Re
  | 0 => Re.empty
  | n + 1 => Re.cat a (times a n)

/-- The pattern `x{0,n}`, simplified: `(x(x(...)?)?)?`. -/
def upTo (a : Re) : Nat → Re
  | 0 => Re.empty
  | n + 1 => Re.quest (Re.cat a (upTo a n))

/-- The pattern `x{min,max}`, simplified. -/
def counted (a : Re) (min max : Nat) : Re := Re.cat (times a min) (upTo a (max - min))

/-- A literal string. -/
def lit : List Char → Re
  | [] => Re.empty
  | c :: cs => Re.cat (Re.char c) (lit cs)

/-- The highest capture group index of a pattern. -/
def numGroups : Re → Nat
  | Re.cat a b => max (numGroups a) (numGroups b)
  | Re.star a => numGroups a
  | Re.quest a => numGroups a
  | Re.group i a => max i (numGroups a)
  | _ => 0

/-- One attempt of an unanchored search: match at `pos`; group 0 is the whole
match. -/
def matchHere (re : Re) (pos : Nat) (rest : List Char) : Option Caps :=
  run re pos rest (List.replicate (numGroups re + 1) none)
    (fun p _ c => some (c.set 0 (some (rest.take (p - pos)))))

/-- The leftmost match: try every start position in turn. -/
def findFrom (re : Re) : Nat → List Char → Option Caps
  | pos, [] => matchHere re pos []
  | pos, x :: t =>
    match matchHere re pos (x :: t) with
    | some res => some res
    | none => findFrom re (pos + 1) t

/-- Go `(*Regexp).FindStringSubmatch`: `none` is the nil slice of no match; a
group that did not take part gives the empty string. -/
def FindStringSubmatch (re : Re) (s : String) : Option (List String) :=
  (findFrom re 0 s.toList).map (fun caps => caps.map (fun g => String.mk (g.getD [])))

/-- Go `(*Regexp).MatchString`. -/
def MatchString (re : Re) (s : String) : Bool := (findFrom re 0 s.toList).isSome

/-- The paths of the backtracking matcher, without their order: `Matches re
pos rest caps pos1 rest1 caps1` says that `re` can consume, from position `pos`
with `rest` left, the input down to `rest1` at position `pos1`, turning the
captures `caps` into `caps1`. -/
inductive Matches : Re → Nat → List Char → Caps → Nat → List Char → Caps → Prop where
  | empty (p r c) : Matches Re.empty p r c p r c
  | char (x p r c) : Matches (Re.char x) p (x :: r) c (p + 1) r c
  | cls (rs x p r c) : inRanges rs x = true → Matches (Re.cls rs) p (x :: r) c (p + 1) r c
  | anyNotNL (x p r c) : x ≠ '\n' → Matches Re.anyNotNL p (x :: r) c (p + 1) r c
  | beginText (r c) : Matches Re.beginText 0 r c 0 r c
  | endText (p c) : Matches Re.endText p [] c p [] c
  | cat {a b p r c p1 r1 c1 p2 r2 c2} : Matches a p r c p1 r1 c1 → Matches b p1 r1 c1 p2 r2 c2 →
      Matches (Re.cat a b) p r c p2 r2 c2
  | starStop (a p r c) : Matches (Re.star a) p r c p r c
  | starStep {a p r c p1 r1 c1 p2 r2 c2} : Matches a p r c p1 r1 c1 →
      Matches (Re.star a) p1 r1 c1 p2 r2 c2 → Matches (Re.star a) p r c p2 r2 c2
  | questSkip (a p r c) : Matches (Re.quest a) p r c p r c
  | questTake {a p r c p1 r1 c1} : Matches a p r c p1 r1 c1 → Matches (Re.quest a) p r c p1 r1 c1
  | group {i a p r c p1 r1 c1} : Matches a p r c p1 r1 c1 →
      Matches (Re.group i a) p r c p1 r1 (c1.set i (some (r.take (p1 - p))))

/-- Whether group `i` occurs in the pattern. -/
def hasGroup (i : Nat) : Re → Bool
  | Re.cat a b => hasGroup i a || hasGroup i b
  | Re.star a => hasGroup i a
  | Re.quest a => hasGroup i a
  | Re.group j a => decide (j = i) || hasGroup i a
  | _ => false

end regexp

/-! ## config/config.go -/

namespace config

open regexp

def PWDPortRegex : String := "[0-9]\x7b1,5\x7d"
def PWDDomainRegex : String := "[0-9]\x7b1,3\x7d-[0-9]\x7b1,3\x7d-[0-9]\x7b1,3\x7d-[0-9]\x7b1,3\x7d"
def AliasNameRegex : String := "[0-9|a-z|A-Z|-]*"
def AliasSessionRegex : String := "[0-9|a-z|A-Z]\x7b8\x7d"
def AliasGroupRegex : String := "(" ++ AliasNameRegex ++ ")-(" ++ AliasSessionRegex ++ ")"
def PWDHostPortGroupRegex : String :=
  "^.*ip(" ++ PWDDomainRegex ++ ")(?:-?(" ++ PWDPortRegex ++ "))?(?:\\..*)?$"
def AliasPortGroupRegex : String :=
  "^.*pwd" ++ AliasGroupRegex ++ "(?:-?(" ++ PWDPortRegex ++ "))?\\..*$"

/-- The class `[0-9]`. -/
def digitClass : Re := Re.cls [('0', '9')]

/-- The parse of `PWDPortRegex`. -/
def portRe : Re := counted digitClass 1 5

/-- The parse of `PWDDomainRegex`. -/
def pwdDomainRe : Re :=
  Re.cat (counted digitClass 1 3) (Re.cat (Re.char '-')
    (Re.cat (counted digitClass 1 3) (Re.cat (Re.char '-')
      (Re.cat (counted digitClass 1 3) (Re.cat (Re.char '-') (counted digitClass 1 3))))))

/-- The ranges of the class `[0-9|a-z|A-Z|-]`: inside a class the bar is a
literal, and so is the hyphen before the closing bracket. -/
def aliasNameRanges : List (Char × Char) :=
  [('0', '9'), ('|', '|'), ('a', 'z'), ('|', '|'), ('A', 'Z'), ('|', '|'), ('-', '-')]

/-- The ranges of the class `[0-9|a-z|A-Z]`. -/
def aliasSessionRanges : List (Char × Char) :=
  [('0', '9'), ('|', '|'), ('a', 'z'), ('|', '|'), ('A', 'Z')]

/-- The parse of `AliasNameRegex`. -/
def aliasNameRe : Re := Re.star (Re.cls aliasNameRanges)

/-- The parse of `AliasSessionRegex`. -/
def aliasSessionRe : Re := counted (Re.cls aliasSessionRanges) 8 8

/-- The optional port, `(?:-?(PORT))?`, capturing into group `i`. -/
def optPortRe (i : Nat) : Re :=
  Re.quest (Re.cat (Re.quest (Re.char '-')) (Re.group i portRe))

/-- The class `[0-9a-z]`. -/
def isDigitOrLower (c : Char) : Bool :=
  (decide ('0' ≤ c) && decide (c ≤ '9')) || (decide ('a' ≤ c) && decide (c ≤ 'z'))

/-- The class `[0-9a-zA-Z]`. -/
def isAlphaNum (c : Char) : Bool :=
  isDigitOrLower c || (decide ('A' ≤ c) && decide (c ≤ 'Z'))

/-- The compiled `PWDHostPortGroupRegex`. -/
def NameFilter : Re :=
  Re.cat Re.beginText (Re.cat (Re.star Re.anyNotNL) (Re.cat (lit ['i', 'p'])
    (Re.cat (Re.group 1 pwdDomainRe) (Re.cat (optPortRe 2)
      (Re.cat (Re.quest (Re.cat (Re.char '.') (Re.star Re.anyNotNL))) Re.endText)))))

/-- The compiled `AliasPortGroupRegex`. -/
def AliasFilter : Re :=
  Re.cat Re.beginText (Re.cat (Re.star Re.anyNotNL) (Re.cat (lit ['p', 'w', 'd'])
    (Re.cat (Re.group 1 aliasNameRe) (Re.cat (Re.char '-') (Re.cat (Re.group 2 aliasSessionRe)
      (Re.cat (optPortRe 3)
        (Re.cat (Re.char '.') (Re.cat (Re.star Re.anyNotNL) Re.endText))))))))

end config

namespace config

/-- The package-level variables of `config` that `docker.ContainerCreate`
reads, gathered in one record. -/
structure Config where
  DINDAppArmor : String
  ExternalDindVolume : Bool
  ExternalDindVolumeSize : String
  DefaultMaxPIDs : Int
  DefaultLimitMemory : Int
  DefaultMaxMemory : Int
  DefaultLimitCPUCore : F64
  DefaultMaxCPUCore : F64
  AlwaysPull : Bool

end config

/-! ## docker/docker.go -/

namespace docker

open config

def Byte : Int := 1
def Kilobyte : Int := 1024 * Byte
def Megabyte : Int := 1024 * Kilobyte

structure CreateContainerOpts where
  Image : String
  SessionId : String
  ContainerName : String
  Hostname : String
  ServerCert : List UInt8
  ServerKey : List UInt8
  CACert : List UInt8
  Privileged : Bool
  HostFQDN : String
  Labels : List (String × String)
  Networks : List String
  NetAliases : List String
  DindVolumeSize : String
  UserVolume : String
  LimitCPU : F64
  LimitMemory : Int
  Envs : List String

/-- The fields of `container.Resources` that `ContainerCreate` sets.
`NanoCPUsOf = some c` stands for `NanoCPUs = int64(c * 1e9)`. -/
structure Resources where
  PidsLimit : Option Int
  Memory : Int
  NanoCPUsOf : Option F64
  CpusetCpus : String
  OomKillDisable : Option Bool
deriving DecidableEq

/-- The fields of `container.HostConfig` that `ContainerCreate` sets. -/
structure HostConfig where
  NetworkMode : String
  Privileged : Bool
  AutoRemove : Bool
  LogConfig : List (String × String)
  SecurityOpt : List String
  StorageOpt : List (String × String)
  Binds : Option (List String)
  Resources : Resources
deriving DecidableEq

/-- The fields of `container.Config` that `ContainerCreate` sets. -/
structure ContainerConfig where
  Hostname : String
  Image : String
  Tty : Bool
  OpenStdin : Bool
  AttachStdin : Bool
  AttachStdout : Bool
  AttachStderr : Bool
  Env : List String
  Labels : List (String × String)
deriving DecidableEq

/-- The type `network.NetworkingConfig`: endpoint name to endpoint aliases. -/
structure NetworkingConfig where
  EndpointsConfig : List (String × List String)
deriving DecidableEq

/-- Lines 293-311 and 372: the environment of the container. -/
def containerEnv (opts : CreateContainerOpts) : List String :=
  let env := opts.Envs ++ ["SESSION_ID=" ++ opts.SessionId]
  let env := if opts.ServerCert.length > 0 then
    env ++ ["DOCKER_TLSCERT=\\/opt\\/pwd\\/certs\\/cert.pem"] else env
  let env := if opts.ServerKey.length > 0 then
    env ++ ["DOCKER_TLSKEY=\\/opt\\/pwd\\/certs\\/key.pem"] else env
  let env := if opts.CACert.length > 0 then
    env ++ ["DOCKER_TLSCACERT=\\/opt\\/pwd\\/certs\\/ca.pem"] else env
  let env :=
    if opts.ServerCert.length > 0 ∨ opts.ServerKey.length > 0 ∨ opts.CACert.length > 0 then
      env ++ ["DOCKER_TLSENABLE=true"]
    else
      env ++ ["DOCKER_TLSENABLE=false"]
  env ++ ["PWD_HOST_FQDN=" ++ opts.HostFQDN]

/-- Lines 331-338: the local `memoryLimit`, in bytes. -/
def memoryLimit (cfg : Config) (opts : CreateContainerOpts) : Int :=
  if opts.LimitMemory > 0 then
    let lim := if opts.LimitMemory > cfg.DefaultMaxMemory then cfg.DefaultMaxMemory
      else opts.LimitMemory
    wrapInt64 (lim * Megabyte)
  else
    wrapInt64 (cfg.DefaultLimitMemory * Megabyte)

/-- Lines 345-352: the local `cpuLimit`. -/
def cpuLimit (cfg : Config) (opts : CreateContainerOpts) : F64 :=
  if F64.gt opts.LimitCPU F64.zero then
    if F64.gt opts.LimitCPU cfg.DefaultMaxCPUCore then cfg.DefaultMaxCPUCore
    else opts.LimitCPU
  else
    cfg.DefaultLimitCPUCore

/-- Lines 357-363: the cpuset string for an effective CPU limit; empty when
none is set. -/
def cpusetFor (c : F64) : String :=
  let numCPUs := F64.toInt c
  if numCPUs > 0 then
    if numCPUs = 1 then "0" else "0-" ++ fmtD (numCPUs - 1)
  else ""

/-- Lines 328-370: `h.Resources` as `ContainerCreate` fills it. -/
def hostResources (cfg : Config) (opts : CreateContainerOpts) : Resources :=
  let m := memoryLimit cfg opts
  let c := cpuLimit cfg opts
  { PidsLimit := some cfg.DefaultMaxPIDs
    Memory := if m > 0 then m else 0
    NanoCPUsOf := if F64.gt c F64.zero then some c else none
    CpusetCpus := if F64.gt c F64.zero then cpusetFor c else ""
    OomKillDisable := some true }

/-- Lines 313-370: the host configuration before any bind is added. -/
def hostConfig (cfg : Config) (opts : CreateContainerOpts) : HostConfig :=
  { NetworkMode := opts.SessionId
    Privileged := opts.Privileged
    AutoRemove := true
    LogConfig := [("max-size", "10m"), ("max-file", "1")]
    SecurityOpt := if cfg.DINDAppArmor ≠ "" then ["apparmor=" ++ cfg.DINDAppArmor] else []
    StorageOpt :=
      if cfg.ExternalDindVolumeSize ≠ "" then [("size", cfg.ExternalDindVolumeSize)] else []
    Binds := none
    Resources := hostResources cfg opts }

/-- Lines 373-383: the container configuration. -/
def containerConfig (opts : CreateContainerOpts) : ContainerConfig :=
  { Hostname := opts.Hostname
    Image := opts.Image
    Tty := true
    OpenStdin := true
    AttachStdin := true
    AttachStdout := true
    AttachStderr := true
    Env := containerEnv opts
    Labels := opts.Labels }

/-- The fields of `types.ContainerState` that the readiness loop reads. -/
structure ContainerState where
  Running : Bool
  Status : String
  Error : String
  ExitCode : Int
deriving DecidableEq

/-- What `ContainerCreate` does to the outside world, in order: calls on the
daemon client `d.c`, invocations of `d.PullImage`, and sleeps. -/
inductive Call where
  | VolumeCreate (driver : String) (driverOpts : List (String × String)) (name : String)
  | VolumeRemove (name : String) (force : Bool)
  | ImageSearch (term : String) (limit : Nat)
  | PullImage (image : String)
  | ImageCreate (image : String)
  | ContainerCreate (cf : ContainerConfig) (h : HostConfig) (net : NetworkingConfig)
      (name : String)
  | NetworkConnect (networkId containerId : String)
  | CopyToContainer (containerName destination fileName : String) (content : List UInt8)
  | ContainerStart (id : String)
  | ContainerInspect (id : String)
  | Sleep (ms : Nat)
deriving DecidableEq

/-- The daemon behind the client `d.c`, with the two library functions
`PullImage` relies on.  Every answer may depend on the trace up to and
including the call it answers. -/
structure Daemon where
  VolumeCreate : List Call → Option Err
  /-- The answer is `len(search)` and the error. -/
  ImageSearch : List Call → Nat × Option Err
  /-- Stands for `reference.Parse`. -/
  referenceParse : String → Option Err
  ImageCreate : List Call → Option Err
  /-- Stands for `io.Copy(ioutil.Discard, responseBody)`. -/
  readBody : List Call → Option Err
  /-- The answer is the id of the created container or the error. -/
  ContainerCreate : List Call → Except Err String
  NetworkConnect : List Call → Option Err
  CopyToContainer : List Call → Option Err
  ContainerStart : List Call → Option Err
  ContainerInspect : List Call → Except Err ContainerState
  /-- Milliseconds an inspect call takes. -/
  inspectMillis : List Call → Nat

/-- How a call of a Go function ends. -/
inductive Outcome where
  | returned (err : Option Err)
  | panicked (msg : String)
  | outOfFuel
deriving DecidableEq

/-- A run: the calls made, in order, and how the function ended. -/
structure Run where
  trace : List Call
  outcome : Outcome
deriving DecidableEq

/-- The deadline of `context.WithTimeout(context.Background(), 10*time.Second)`,
in milliseconds. -/
def readyDeadline : Nat := 10000

/-- The argument of `time.Sleep(100 * time.Millisecond)`, in milliseconds. -/
def readySleep : Nat := 100

/-- Lines 488-527: the readiness loop.  `elapsed` is the time since the
timeout context was made; `ctx.Done()` is ready once it reaches the deadline. -/
def readyWait (d : Daemon) (id : String) : Nat → Nat → List Call → Run
  | 0, _, hist => ⟨hist, Outcome.outOfFuel⟩
  | fuel + 1, elapsed, hist =>
    let hist1 := hist ++ [Call.ContainerInspect id]
    if elapsed ≥ readyDeadline then
      match d.ContainerInspect hist1 with
      | Except.error e => ⟨hist1, Outcome.returned (some ("container failed to start: " ++ e))⟩
      | Except.ok cinfo =>
        ⟨hist1, Outcome.returned
          (some ("container not running after timeout, status: " ++ cinfo.Status))⟩
    else
      match d.ContainerInspect hist1 with
      | Except.error e =>
        ⟨hist1, Outcome.returned (some ("error inspecting container: " ++ e))⟩
      | Except.ok cinfo =>
        if cinfo.Running then ⟨hist1, Outcome.returned none⟩
        else if cinfo.Status = "exited" ∨ cinfo.Status = "dead" then
          ⟨hist1, Outcome.returned (some ("container exited immediately: " ++ cinfo.Error))⟩
        else
          readyWait d id fuel (elapsed + d.inspectMillis hist1 + readySleep)
            (hist1 ++ [Call.Sleep readySleep])

/-- Enough iterations for the readiness loop: every unsuccessful poll sleeps
100 ms of the 10 s, and one more iteration takes the timeout branch. -/
def readyFuel : Nat := readyDeadline / readySleep + 1

/-- Lines 477-527: start the container and wait for it to run. -/
def startAndWait (d : Daemon) (id : String) (hist : List Call) : Run :=
  let hist1 := hist ++ [Call.ContainerStart id]
  match d.ContainerStart hist1 with
  | some e => ⟨hist1, Outcome.returned (some e)⟩
  | none => readyWait d id readyFuel 0 hist1

/-- Lines 562-568, with `CopyToContainer` of lines 222-244 (reading a byte
reader and writing a tar archive into a buffer do not fail). -/
def copyIfSet (d : Daemon) (content : List UInt8) (fileName path containerName : String)
    (hist : List Call) : List Call × Option Err :=
  if content.length > 0 then
    let hist1 := hist ++ [Call.CopyToContainer containerName path fileName content]
    (hist1, d.CopyToContainer hist1)
  else (hist, none)

def containerDir : String := "/opt/pwd"

def containerCertDir : String := containerDir ++ "/certs"

/-- Lines 465-527: copy the TLS material, then start and wait. -/
def copyCertsAndStart (d : Daemon) (opts : CreateContainerOpts) (id : String)
    (hist : List Call) : Run :=
  match copyIfSet d opts.ServerCert "cert.pem" containerCertDir opts.ContainerName hist with
  | (hist1, some e) => ⟨hist1, Outcome.returned (some e)⟩
  | (hist1, none) =>
    match copyIfSet d opts.ServerKey "key.pem" containerCertDir opts.ContainerName hist1 with
    | (hist2, some e) => ⟨hist2, Outcome.returned (some e)⟩
    | (hist2, none) =>
      match copyIfSet d opts.CACert "ca.pem" containerCertDir opts.ContainerName hist2 with
      | (hist3, some e) => ⟨hist3, Outcome.returned (some e)⟩
      | (hist3, none) => startAndWait d id hist3

/-- Lines 457-462: the loop over the networks to connect, stopping at the
first error. -/
def connectNetworks (d : Daemon) (id : String) : List String → List Call →
    List Call × Option Err
  | [], hist => (hist, none)
  | nid :: rest, hist =>
    let hist1 := hist ++ [Call.NetworkConnect nid id]
    match d.NetworkConnect hist1 with
    | some e => (hist1, some e)
    | none => connectNetworks d id rest hist1

/-- Lines 544-560: `PullImage`. -/
def PullImage (d : Daemon) (image : String) (hist : List Call) : List Call × Option Err :=
  let hist0 := hist ++ [Call.PullImage image]
  match d.referenceParse image with
  | some e => (hist0, some e)
  | none =>
    let hist1 := hist0 ++ [Call.ImageCreate image]
    match d.ImageCreate hist1 with
    | some e => (hist1, some e)
    | none => (hist1, d.readBody hist1)

/-- Lines 423-448: search the image and pull it when needed.  The error is
non-nil exactly when `ContainerCreate` returns it from here. -/
def selectImage (cfg : Config) (d : Daemon) (opts : CreateContainerOpts)
    (hist : List Call) : List Call × Option Err :=
  let hist1 := hist ++ [Call.ImageSearch opts.Image 5]
  let search := d.ImageSearch hist1
  let afterSearch : List Call × Option Err :=
    match search.2 with
    | some _ => PullImage d opts.Image hist1
    | none => (hist1, none)
  match afterSearch with
  | (hist2, some e) => (hist2, some e)
  | (hist2, none) =>
    if search.1 = 0 then PullImage d opts.Image hist2
    else if search.1 > 0 ∧ cfg.AlwaysPull = true then PullImage d opts.Image hist2
    else (hist2, none)

/-- Lines 385-391: the networking configuration, for the first network. -/
def networkConf (opts : CreateContainerOpts) (net0 : String) : NetworkingConfig :=
  { EndpointsConfig := [(net0, opts.NetAliases)] }

/-- Lines 415-421: the bind of the user volume. -/
def withUserVolume (opts : CreateContainerOpts) (h : HostConfig) : HostConfig :=
  if opts.UserVolume ≠ "" then
    { h with Binds := some (h.Binds.getD [] ++ [opts.UserVolume ++ ":/data"]) }
  else h

/-- Lines 415-527: everything after the volume step. -/
def createFrom (cfg : Config) (d : Daemon) (opts : CreateContainerOpts) (net0 : String)
    (h : HostConfig) (hist : List Call) : Run :=
  match selectImage cfg d opts hist with
  | (hist1, some e) => ⟨hist1, Outcome.returned (some e)⟩
  | (hist1, none) =>
    let hist2 := hist1 ++ [Call.ContainerCreate (containerConfig opts)
      (withUserVolume opts h) (networkConf opts net0) opts.ContainerName]
    match d.ContainerCreate hist2 with
    | Except.error e => ⟨hist2, Outcome.returned (some e)⟩
    | Except.ok id =>
      let connected : List Call × Option Err :=
        if opts.Networks.length > 1 then connectNetworks d id opts.Networks hist2
        else (hist2, none)
      match connected with
      | (hist3, some e) => ⟨hist3, Outcome.returned (some e)⟩
      | (hist3, none) => copyCertsAndStart d opts id hist3

/-- Lines 408-412: the deferred function registered after the volume was
created, run when the function returns. -/
def deferredVolumeRemove (opts : CreateContainerOpts) (r : Run) : Run :=
  match r.outcome with
  | Outcome.returned (some _) =>
    ⟨r.trace ++ [Call.VolumeRemove opts.SessionId true], r.outcome⟩
  | _ => r

/-- Lines 289-528: `ContainerCreate`. -/
def ContainerCreate (cfg : Config) (d : Daemon) (opts : CreateContainerOpts) : Run :=
  match opts.Networks with
  | [] => ⟨[], Outcome.panicked "runtime error: index out of range [0] with length 0"⟩
  | net0 :: _ =>
    if cfg.ExternalDindVolume then
      let hist1 := [Call.VolumeCreate "xfsvol" [("size", opts.DindVolumeSize)]
        opts.ContainerName]
      match d.VolumeCreate hist1 with
      | some e => ⟨hist1, Outcome.returned (some e)⟩
      | none =>
        deferredVolumeRemove opts
          (createFrom cfg d opts net0
            { hostConfig cfg opts with
              Binds := some [opts.ContainerName ++ ":/var/lib/docker"] } hist1)
    else
      createFrom cfg d opts net0 (hostConfig cfg opts) []

/-! ### Reading a trace -/

/-- The images of the `PullImage` invocations of a trace, in order. -/
def pullsOf (trace : List Call) : List String :=
  trace.filterMap (fun call => match call with
    | Call.PullImage image => some image
    | _ => none)

/-- The names of the volumes a trace creates, in order. -/
def volumesCreated (trace : List Call) : List String :=
  trace.filterMap (fun call => match call with
    | Call.VolumeCreate _ _ name => some name
    | _ => none)

/-- The names of the volumes a trace removes, in order. -/
def volumesRemoved (trace : List Call) : List String :=
  trace.filterMap (fun call => match call with
    | Call.VolumeRemove name _ => some name
    | _ => none)

/-- The networks a trace connects with `NetworkConnect`, in order. -/
def connectsOf (trace : List Call) : List String :=
  trace.filterMap (fun call => match call with
    | Call.NetworkConnect networkId _ => some networkId
    | _ => none)

/-- The host configurations of the containers a trace creates, in order. -/
def hostConfigsOf (trace : List Call) : List HostConfig :=
  trace.filterMap (fun call => match call with
    | Call.ContainerCreate _ h _ _ => some h
    | _ => none)

/-- The container configurations of the containers a trace creates, in
order. -/
def containerConfigsOf (trace : List Call) : List ContainerConfig :=
  trace.filterMap (fun call => match call with
    | Call.ContainerCreate cf _ _ _ => some cf
    | _ => none)

/-- The networking configurations of the containers a trace creates, in
order. -/
def networkConfsOf (trace : List Call) : List NetworkingConfig :=
  trace.filterMap (fun call => match call with
    | Call.ContainerCreate _ _ net _ => some net
    | _ => none)

/-- The trace of `ContainerCreate` when it reaches the image search: the
creation of the volume, when the external volume is enabled. -/
def traceBeforeSearch (cfg : Config) (opts : CreateContainerOpts) : List Call :=
  if cfg.ExternalDindVolume then
    [Call.VolumeCreate "xfsvol" [("size", opts.DindVolumeSize)] opts.ContainerName]
  else []

/-- What the daemon answers to the image search of `ContainerCreate`. -/
def searchAnswer (cfg : Config) (d : Daemon) (opts : CreateContainerOpts) : Nat × Option Err :=
  d.ImageSearch (traceBeforeSearch cfg opts ++ [Call.ImageSearch opts.Image 5])

/-! ### Sample inputs -/

/-- The configuration the flags give by default. -/
def sampleConfig : Config :=
  { DINDAppArmor := "", ExternalDindVolume := false, ExternalDindVolumeSize := "",
    DefaultMaxPIDs := 1000, DefaultLimitMemory := 2048, DefaultMaxMemory := 8192,
    DefaultLimitCPUCore := F64.fin 1, DefaultMaxCPUCore := F64.fin 4, AlwaysPull := false }

/-- A create request as the provisioner makes it for `node1` of session
`abcdefgh`. -/
def sampleOpts : CreateContainerOpts :=
  { Image := "franela/dind", SessionId := "abcdefgh", ContainerName := "node1_abcdefgh",
    Hostname := "node1", ServerCert := [], ServerKey := [], CACert := [],
    Privileged := true, HostFQDN := "localhost", Labels := [], Networks := ["abcdefgh"],
    NetAliases := ["node1"], DindVolumeSize := "5G", UserVolume := "",
    LimitCPU := F64.fin 0, LimitMemory := 0, Envs := [] }

/-- A daemon on which every call succeeds: the image is found and the
container runs at the first inspect. -/
def healthyDaemon : Daemon :=
  { VolumeCreate := fun _ => none
    ImageSearch := fun _ => (1, none)
    referenceParse := fun _ => none
    ImageCreate := fun _ => none
    readBody := fun _ => none
    ContainerCreate := fun _ => Except.ok "c0ffee"
    NetworkConnect := fun _ => none
    CopyToContainer := fun _ => none
    ContainerStart := fun _ => none
    ContainerInspect := fun _ => Except.ok ⟨true, "running", "", 0⟩
    inspectMillis := fun _ => 0 }

end docker

/-! ## pwd/types -/

namespace types

/-- The fields of `types.Playground` that the sources shown set or read; the
fields with a default are those only `main` sets. -/
structure Playground where
  Id : String
  Domain : String
  DefaultDinDInstanceImage : String
  AvailableDinDInstanceImages : List String
  AllowWindowsInstances : Bool
  /-- A `time.Duration`, in nanoseconds. -/
  DefaultSessionDuration : Int
  Privileged : Bool
  Tasks : List String
  /-- A `map[string]interface{}` whose values are strings. -/
  Extras : List (String × String) := []
  DockerClientID : String := ""
  DockerClientSecret : String := ""
  GithubClientID : String := ""
  GithubClientSecret : String := ""
  GoogleClientID : String := ""
  GoogleClientSecret : String := ""
  AzureClientID : String := ""
  AzureClientSecret : String := ""
  AzureTenantID : String := ""
deriving DecidableEq

/-- The fields of `types.SessionConfig` that `NewSession` sets. -/
structure SessionConfig where
  Playground : Playground
  UserId : String
  /-- A `time.Duration`, in nanoseconds. -/
  Duration : Int
  Stack : String
  StackName : String
  ImageName : String
deriving DecidableEq

/-- The field of `types.Session` that `NewSession` reads. -/
structure Session where
  Id : String
deriving DecidableEq

/-- The type `types.InstanceConfig` of `pwd/types/instance.go`; a field left
out of a Go composite literal has its zero value. -/
structure InstanceConfig where
  ImageName : String := ""
  Privileged : Bool := false
  Hostname : String := ""
  ServerCert : List UInt8 := []
  ServerKey : List UInt8 := []
  CACert : List UInt8 := []
  Cert : List UInt8 := []
  Key : List UInt8 := []
  Tls : Bool := false
  PlaygroundFQDN : String := ""
  /-- The Go field `Type`. -/
  Type_ : String := ""
  Networks : List String := []
  DindVolumeSize : String := ""
  LimitCPU : F64 := F64.fin 0
  LimitMemory : Int := 0
  Envs : List String := []
deriving DecidableEq

end types

/-! ## handlers/session_new.go -/

namespace handlers

open types

/-- The parts of an `http.Request` that `NewSession` reads: the host, the
parsed form and the `X-Requested-With` header. -/
structure Request where
  Host : String
  Form : List (String × String)
  XRequestedWith : String
deriving DecidableEq

/-- Go `req.Form.Get(key)`: the first value of the key, or the empty string. -/
def Request.FormGet (req : Request) (key : String) : String :=
  (req.Form.lookup key).getD ""

structure NewSessionResponse where
  SessionId : String
  Hostname : String
deriving DecidableEq

/-- What the handler wrote: the status code, the target handed to
`http.Redirect` (the Location header) and the JSON body, when there is one. -/
structure Response where
  status : Nat
  redirect : Option String
  json : Option NewSessionResponse
deriving DecidableEq

/-- Calls on the core, in order. -/
inductive CoreCall where
  | PlaygroundFindByDomain (host : String)
  | SessionNew (cfg : SessionConfig)
  | InstanceNew (s : Session) (cfg : InstanceConfig)
deriving DecidableEq

/-- What `NewSession` depends on besides the request: the core, the provider
table, the cookie codec, the network and the library functions it calls. -/
structure Env where
  PlaygroundFindByDomain : String → Option Playground
  /-- Stands for `len(config.Providers[id])`. -/
  providerCount : String → Nat
  /-- The id in the cookie of the request, or the error of `ReadCookie`. -/
  ReadCookie : Request → Except Err String
  /-- The answer to `http.Head(stack)`: an error, or whether the status is 200. -/
  httpHeadIs200 : String → Except Err Bool
  /-- Stands for `time.ParseDuration`, in nanoseconds. -/
  ParseDuration : String → Except Err Int
  /-- Stands for `path.Join` on two elements. -/
  pathJoin : String → String → String
  SessionNew : SessionConfig → Except Err Session
  InstanceNew : Session → InstanceConfig → Option Err
  /-- Stands for `provisioner.OutOfCapacity`. -/
  OutOfCapacity : Err → Bool

/-- Go `strings.HasSuffix`. -/
def hasSuffixStr (s suffix : String) : Bool := suffix.toList.isSuffixOf s.toList

/-- Go `strings.HasPrefix`. -/
def hasLeadStr (s lead : String) : Bool := lead.toList.isPrefixOf s.toList

/-- Lines 128-138. -/
def formatStack (env : Env) (stack : String) : String :=
  let stack := if !hasSuffixStr stack ".yml" then env.pathJoin stack "stack.yml" else stack
  if hasLeadStr stack "/" then
    "https://raw.githubusercontent.com/play-with-docker/stacks/master" ++ stack
  else stack

/-- Lines 140-148. -/
def stackExists (env : Env) (stack : String) : Except Err Bool :=
  env.httpHeadIs200 stack

/-- The lines `NewSession` logs, each with the values it prints. -/
inductive LogLine where
  | playgroundNotFound (host : String)
  | stackRetrievalError (err : Err)
  | stackNotFound (stack : String)
  | durationAboveMaximum (d max : Int)
  | sessionNewError (err : Err)
  | creatingDefaultInstance (id : String)
  | defaultInstanceError (id : String) (err : Err)
  | defaultInstanceCreated (id : String)
deriving DecidableEq

/-- The result of a handler run: the response, the calls on the core and the
lines logged. -/
structure Handled where
  resp : Response
  calls : List CoreCall
  logs : List LogLine
deriving DecidableEq

def StatusFound : Nat := 302
def StatusBadRequest : Nat := 400
def StatusForbidden : Nat := 403
def StatusInternalServerError : Nat := 500
def StatusOK : Nat := 200

/-- The response of `rw.WriteHeader(code)`. -/
def writeHeader (code : Nat) : Response := ⟨code, none, none⟩

/-- The response of `http.Redirect(rw, req, url, code)`. -/
def httpRedirect (url : String) (code : Nat) : Response := ⟨code, some url, none⟩

/-- Lines 97-102: the configuration of the default instance. -/
def defaultInstanceConfig (req : Request) (imageName : String) : InstanceConfig :=
  { ImageName := imageName, PlaygroundFQDN := req.Host, Privileged := true,
    DindVolumeSize := "5G" }

/-- Lines 94-124: the session was created. -/
def sessionCreated (env : Env) (req : Request) (stack imageName : String) (s : Session)
    (calls : List CoreCall) : Handled :=
  let instanceConfig : InstanceConfig := defaultInstanceConfig req imageName
  let calls1 := if stack = "" then calls ++ [CoreCall.InstanceNew s instanceConfig] else calls
  let logs :=
    if stack = "" then
      match env.InstanceNew s instanceConfig with
      | some err =>
        [LogLine.creatingDefaultInstance s.Id, LogLine.defaultInstanceError s.Id err]
      | none => [LogLine.creatingDefaultInstance s.Id, LogLine.defaultInstanceCreated s.Id]
    else []
  if req.XRequestedWith = "XMLHttpRequest" then
    ⟨⟨StatusOK, none, some ⟨s.Id, req.Host⟩⟩, calls1, logs⟩
  else
    ⟨httpRedirect ("/p/" ++ s.Id) StatusFound, calls1, logs⟩

/-- Lines 62-79: the duration of the session, or the response that rejects
the request, with the line logged. -/
def sessionDuration (env : Env) (req : Request) (playground : Playground) :
    Except (Response × List LogLine) Int :=
  let reqDur := req.FormGet "session-duration"
  if reqDur ≠ "" then
    match env.ParseDuration reqDur with
    | Except.error _ => Except.error (writeHeader StatusBadRequest, [])
    | Except.ok d =>
      if d > playground.DefaultSessionDuration then
        Except.error (writeHeader StatusBadRequest,
          [LogLine.durationAboveMaximum d playground.DefaultSessionDuration])
      else Except.ok d
  else Except.ok playground.DefaultSessionDuration

/-- Lines 62-125: from the duration check on. -/
def sessionFrom (env : Env) (req : Request) (playground : Playground)
    (userId stack : String) (calls : List CoreCall) : Handled :=
  let stackName := req.FormGet "stack_name"
  let imageName := req.FormGet "image_name"
  match sessionDuration env req playground with
  | Except.error (resp, logs) => ⟨resp, calls, logs⟩
  | Except.ok duration =>
    let sConfig : SessionConfig :=
      { Playground := playground, UserId := userId, Duration := duration, Stack := stack,
        StackName := stackName, ImageName := imageName }
    let calls1 := calls ++ [CoreCall.SessionNew sConfig]
    match env.SessionNew sConfig with
    | Except.error err =>
      if env.OutOfCapacity err then ⟨httpRedirect "/ooc" StatusFound, calls1, []⟩
      else
        ⟨httpRedirect "/500" StatusInternalServerError, calls1, [LogLine.sessionNewError err]⟩
    | Except.ok s => sessionCreated env req stack imageName s calls1

/-- Lines 23-126: `NewSession`. -/
def NewSession (env : Env) (req : Request) : Handled :=
  let calls := [CoreCall.PlaygroundFindByDomain req.Host]
  match env.PlaygroundFindByDomain req.Host with
  | none => ⟨writeHeader StatusBadRequest, calls, [LogLine.playgroundNotFound req.Host]⟩
  | some playground =>
    let user : Except Response String :=
      if env.providerCount playground.Id > 0 then
        match env.ReadCookie req with
        | Except.error _ => Except.error (writeHeader StatusForbidden)
        | Except.ok id => Except.ok id
      else Except.ok ""
    match user with
    | Except.error resp => ⟨resp, calls, []⟩
    | Except.ok userId =>
      let stack := req.FormGet "stack"
      if stack ≠ "" then
        let stack := formatStack env stack
        match stackExists env stack with
        | Except.error err =>
          ⟨writeHeader StatusInternalServerError, calls, [LogLine.stackRetrievalError err]⟩
        | Except.ok false =>
          ⟨writeHeader StatusBadRequest, calls, [LogLine.stackNotFound stack]⟩
        | Except.ok true => sessionFrom env req playground userId stack calls
      else sessionFrom env req playground userId stack calls

/-! ### Sample inputs -/

/-- The default playground of `localhost`, with sessions of four hours. -/
def samplePlayground : Playground :=
  { Id := "pg0", Domain := "localhost", DefaultDinDInstanceImage := "franela/dind:latest",
    AvailableDinDInstanceImages := ["franela/dind:latest"], AllowWindowsInstances := false,
    DefaultSessionDuration := 4 * 3600 * 1000000000, Privileged := true, Tasks := [".*"] }

/-- An environment with that playground only and no login provider, in which
every call succeeds.  Of the durations it parses `8h`, `1h`, `0s` and `-1h`;
the only error it classifies as out of capacity is `out of capacity`. -/
def sampleEnv : Env :=
  { PlaygroundFindByDomain := fun host => if host = "localhost" then some samplePlayground
      else none
    providerCount := fun _ => 0
    ReadCookie := fun _ => Except.error "http: named cookie not present"
    httpHeadIs200 := fun _ => Except.ok true
    ParseDuration := fun str =>
      if str = "8h" then Except.ok (8 * 3600 * 1000000000)
      else if str = "1h" then Except.ok (3600 * 1000000000)
      else if str = "0s" then Except.ok 0
      else if str = "-1h" then Except.ok (-(3600 * 1000000000))
      else Except.error ("time: invalid duration " ++ str)
    pathJoin := fun a b => a ++ "/" ++ b
    SessionNew := fun _ => Except.ok ⟨"abcdefgh"⟩
    InstanceNew := fun _ _ => none
    OutOfCapacity := fun err => err = "out of capacity" }

/-- A form post to `localhost` with the given fields. -/
def sampleRequest (form : List (String × String)) : Request :=
  { Host := "localhost", Form := form, XRequestedWith := "" }

end handlers

/-! ## Go `strings` -/

namespace strings

/-- Whether `substr` occurs in `s`, both as lists of characters. -/
def containsChars (substr : List Char) : List Char → Bool
  | [] => substr.isEmpty
  | x :: t => substr.isPrefixOf (x :: t) || containsChars substr t

/-- Go `strings.Contains`. -/
def Contains (s substr : String) : Bool := containsChars substr.toList s.toList

end strings

namespace docker

/-- The containers a trace inspects, in order. -/
def inspectsOf (trace : List Call) : List String :=
  trace.filterMap (fun call => match call with
    | Call.ContainerInspect id => some id
    | _ => none)

/-- The sleeps of a trace, in milliseconds, in order. -/
def sleepsOf (trace : List Call) : List Nat :=
  trace.filterMap (fun call => match call with
    | Call.Sleep ms => some ms
    | _ => none)

/-- A daemon whose first `polls` inspects report the state `during` and whose
later inspects give `after`; all its other calls succeed. -/
def scriptedDaemon (polls : Nat) (during : ContainerState)
    (after : Except Err ContainerState) : Daemon :=
  { healthyDaemon with
    ContainerInspect := fun hist =>
      if (inspectsOf hist).length ≤ polls then Except.ok during else after }

end docker

namespace docker

/-- The trace ends with an inspect that the daemon answers with
`State.Running = true`, of a container whose start, earlier in the trace, the
daemon answered without error. -/
def StartedAndSeenRunning (d : Daemon) (trace : List Call) : Prop :=
  ∃ id pre mid st,
    trace = pre ++ [Call.ContainerStart id] ++ mid ++ [Call.ContainerInspect id] ∧
    d.ContainerStart (pre ++ [Call.ContainerStart id]) = none ∧
    d.ContainerInspect trace = Except.ok st ∧ st.Running = true

end docker

/-! ## pwd/types/instance.go -/

namespace types

/-- The type `types.Instance`, without its unexported context. -/
structure Instance where
  Name : String
  Image : String
  Hostname : String
  IP : String
  RoutableIP : String
  LimitCPU : F64
  LimitMemory : Int
  ServerCert : List UInt8
  ServerKey : List UInt8
  CACert : List UInt8
  Cert : List UInt8
  Key : List UInt8
  Tls : Bool
  SessionId : String
  ProxyHost : String
  SessionHost : String
  /-- The Go field `Type`. -/
  Type_ : String
  WindowsId : String
deriving DecidableEq

end types

/-! ## scheduler/task: the two cluster probing tasks -/

namespace task

open types

/-- The type `event.EventType`, a string. -/
abbrev EventType := String

/-- Line 20 of `check_k8s_cluster_status_task.go`. -/
def CheckK8sStatusEvent : EventType := "instance k8s status"

/-- Line 22 of `check_k8s_cluster_exposed_ports.go`. -/
def CheckK8sClusterExpoedPortsEvent : EventType := "instance k8s cluster ports"

/-- Modelled from the spec: the variable `CheckSwarmStatusEvent` is declared
with the swarm status task, outside the sources shown; the spec gives the
event that task emits as `instance swarm status`. -/
def CheckSwarmStatusEvent : EventType := "instance swarm status"

/-- Modelled from the spec: the variable `CheckSwarmPortsEvent` is declared
with the swarm ports task, outside the sources shown; the spec gives the
event that task emits as `instance cluster ports`. -/
def CheckSwarmPortsEvent : EventType := "instance cluster ports"

/-- Modelled from the spec: the type `ClusterStatus` is declared with the
swarm status task, outside the sources shown; these are the fields the
status task sets, a field left out of a composite literal being false. -/
structure ClusterStatus where
  IsManager : Bool := false
  IsWorker : Bool := false
  Instance : String
deriving DecidableEq

/-- Modelled from the spec: the type `ClusterPorts` is declared with the
swarm ports task, outside the sources shown; these are the fields the ports
task sets. -/
structure ClusterPorts where
  Manager : String
  Instances : List String
  Ports : List Int
deriving DecidableEq

/-- The argument of an emitted event. -/
inductive Payload where
  | status (s : ClusterStatus)
  | ports (p : ClusterPorts)
deriving DecidableEq

/-- One call `c.event.Emit(type, sessionId, payload)`. -/
structure Emitted where
  type : EventType
  sessionId : String
  payload : Payload
deriving DecidableEq

/-- The calls a task makes on the cluster-backend factory and on the clients
it hands out, in order. -/
inductive TaskCall where
  | GetKubeletForInstance (i : Instance)
  | IsManager
  | GetForInstance (i : Instance)
  | ServicesList
  | NodesList
deriving DecidableEq

/-- A port of a service: the field `NodePort`, an `int32`. -/
structure ServicePort where
  NodePort : Int
deriving DecidableEq

/-- A service of the cluster: its `Spec.Ports`. -/
structure Service where
  Ports : List ServicePort
deriving DecidableEq

/-- A node of the cluster: its name. -/
structure Node where
  Name : String
deriving DecidableEq

/-- A kubelet client, by its answer to `IsManager()`. -/
structure Kubelet where
  IsManager : Except Err Bool

/-- A cluster client, by its answers to the listing of the services and of
the nodes. -/
structure Clientset where
  ServicesList : Except Err (List Service)
  NodesList : Except Err (List Node)

/-- What the tasks depend on: the factory `k8s.FactoryApi` and the library
function `strings.ToLower`. -/
structure Factory where
  /-- Stands for `strings.ToLower`. -/
  ToLower : String → String
  GetKubeletForInstance : Instance → Except Err Kubelet
  GetForInstance : Instance → Except Err Clientset

/-- A run of a task: the error returned, the events emitted, the calls made
and the errors logged, each in order. -/
structure TaskRun where
  result : Option Err
  events : List Emitted
  calls : List TaskCall
  logs : List Err
deriving DecidableEq

/-- The condition of line 34, and of line 36 of the ports task, negated: the
image, lower-cased, contains `k8s` or `kubernetes`. -/
def isClusterImage (f : Factory) (i : Instance) : Bool :=
  !(!strings.Contains (f.ToLower i.Image) "k8s" &&
    !strings.Contains (f.ToLower i.Image) "kubernetes")

/-- Lines 31-59 of `check_k8s_cluster_status_task.go`. -/
def checkK8sClusterStatusTask.Run (f : Factory) (i : Instance) : TaskRun :=
  if !strings.Contains (f.ToLower i.Image) "k8s" &&
      !strings.Contains (f.ToLower i.Image) "kubernetes" then
    ⟨none, [], [], []⟩
  else
    let status : ClusterStatus := { Instance := i.Name }
    match f.GetKubeletForInstance i with
    | Except.error _ => ⟨none, [], [TaskCall.GetKubeletForInstance i], []⟩
    | Except.ok kc =>
      let calls := [TaskCall.GetKubeletForInstance i, TaskCall.IsManager]
      match kc.IsManager with
      | Except.error err =>
        ⟨some err, [⟨CheckSwarmStatusEvent, i.SessionId, Payload.status status⟩], calls, []⟩
      | Except.ok isManager =>
        let status : ClusterStatus :=
          if !isManager then { status with IsWorker := true }
          else { status with IsManager := true }
        ⟨none, [⟨CheckK8sStatusEvent, i.SessionId, Payload.status status⟩], calls, []⟩

/-- Lines 64-72: the positive node ports of the services, in order. -/
def exposedPorts (items : List Service) : List Int :=
  items.flatMap (fun svc =>
    svc.Ports.filterMap (fun p => if p.NodePort > 0 then some p.NodePort else none))

/-- Lines 33-87 of `check_k8s_cluster_exposed_ports.go`. -/
def checkK8sClusterExposedPortsTask.Run (f : Factory) (i : Instance) : TaskRun :=
  if !strings.Contains (f.ToLower i.Image) "k8s" &&
      !strings.Contains (f.ToLower i.Image) "kubernetes" then
    ⟨none, [], [], []⟩
  else
    match f.GetKubeletForInstance i with
    | Except.error _ => ⟨none, [], [TaskCall.GetKubeletForInstance i], []⟩
    | Except.ok kc =>
      let calls := [TaskCall.GetKubeletForInstance i, TaskCall.IsManager]
      match kc.IsManager with
      | Except.error err => ⟨some err, [], calls, [err]⟩
      | Except.ok false => ⟨none, [], calls, []⟩
      | Except.ok true =>
        let calls := calls ++ [TaskCall.GetForInstance i]
        match f.GetForInstance i with
        | Except.error err => ⟨some err, [], calls, [err]⟩
        | Except.ok k8s =>
          let calls := calls ++ [TaskCall.ServicesList]
          match k8s.ServicesList with
          | Except.error err => ⟨some err, [], calls, []⟩
          | Except.ok items =>
            let calls := calls ++ [TaskCall.NodesList]
            match k8s.NodesList with
            | Except.error err => ⟨some err, [], calls, []⟩
            | Except.ok nodes =>
              ⟨none,
                [⟨CheckSwarmPortsEvent, i.SessionId,
                  Payload.ports ⟨i.Name, nodes.map (fun node => node.Name), exposedPorts items⟩⟩],
                calls, []⟩

/-! ### Sample inputs -/

/-- An instance of session `abcdefgh` with the given image. -/
def sampleInstance (image : String) : Instance :=
  { Name := "node1_abcdefgh", Image := image, Hostname := "node1", IP := "10.0.0.3",
    RoutableIP := "10.0.0.3", LimitCPU := F64.fin 1, LimitMemory := 2048, ServerCert := [],
    ServerKey := [], CACert := [], Cert := [], Key := [], Tls := false,
    SessionId := "abcdefgh", ProxyHost := "ip10-0-0-3", SessionHost := "localhost",
    Type_ := "linux", WindowsId := "" }

/-- A factory whose kubelet answers `isManager` and whose cluster has one
service with the node ports 0 and 30080 and the nodes `node1` and `node2`.
Its `ToLower` lower-cases the ASCII letters. -/
def sampleFactory (isManager : Except Err Bool) : Factory :=
  { ToLower := fun s => String.mk (s.toList.map Char.toLower)
    GetKubeletForInstance := fun _ => Except.ok ⟨isManager⟩
    GetForInstance := fun _ =>
      Except.ok ⟨Except.ok [⟨[⟨0⟩, ⟨30080⟩]⟩], Except.ok [⟨"node1"⟩, ⟨"node2"⟩]⟩ }

end task

namespace config

open regexp

/-- The class `[0-9]`. -/
def isDigitChar (c : Char) : Bool := decide ('0' ≤ c) && decide (c ≤ '9')

/-- The class `[0-9a-zA-Z-]`. -/
def isAliasChar (c : Char) : Bool := isAlphaNum c || decide (c = '-')

/-- Whether `w` is made of decimal digits, at least `lo` and at most `hi`. -/
def digitsBetween (lo hi : Nat) (w : List Char) : Bool :=
  decide (lo ≤ w.length) && decide (w.length ≤ hi) && w.all isDigitChar

/-- The part of a host that carries the port: nothing, or a hyphen and the
port. -/
def portPart : Option (List Char) → List Char
  | none => []
  | some port => '-' :: port

/-- The host `pwd<alias>-<sessionId>[-<port>].<domain>`. -/
def aliasHost (aliasName sessionId : List Char) (port : Option (List Char))
    (domain : List Char) : List Char :=
  ['p', 'w', 'd'] ++ aliasName ++ '-' :: sessionId ++ portPart port ++ '.' :: domain

/-- The host `ip<A>-<B>-<C>-<D>[-<port>].<domain>`. -/
def ipHost (a b c d : List Char) (port : Option (List Char)) (domain : List Char) : List Char :=
  ['i', 'p'] ++ (a ++ '-' :: b ++ '-' :: c ++ '-' :: d) ++ portPart port ++ '.' :: domain

/-- The text of a capture group that holds the port: empty when there is no
port. -/
def portText : Option (List Char) → List Char
  | none => []
  | some port => port

/-- What `(?:-?([0-9]{1,5}))?` can consume: nothing, or one to five digits
after at most one hyphen. -/
def IsPortPart (pp : List Char) : Prop :=
  pp = [] ∨ ∃ dg, (pp = dg ∨ pp = '-' :: dg) ∧ 1 ≤ dg.length ∧ dg.length ≤ 5 ∧
    ∀ x ∈ dg, inRanges [('0', '9')] x = true

/-- The part of `AliasFilter` after the alias group. -/
def aliasTailRe : Re :=
  Re.cat (Re.char '-') (Re.cat (Re.group 2 aliasSessionRe)
    (Re.cat (optPortRe 3) (Re.cat (Re.char '.') (Re.cat (Re.star Re.anyNotNL) Re.endText))))

/-- The part of `AliasFilter` after the leading `^.*`. -/
def aliasRestRe : Re :=
  Re.cat (lit ['p', 'w', 'd']) (Re.cat (Re.group 1 aliasNameRe) aliasTailRe)

/-- The part of `NameFilter` after the address group. -/
def nameTailRe : Re :=
  Re.cat (optPortRe 2)
    (Re.cat (Re.quest (Re.cat (Re.char '.') (Re.star Re.anyNotNL))) Re.endText)

/-- The part of `NameFilter` after the leading `^.*`. -/
def nameRestRe : Re :=
  Re.cat (lit ['i', 'p']) (Re.cat (Re.group 1 pwdDomainRe) nameTailRe)

end config

/-! ## storage -/

namespace storage

/-- Modelled from the spec: the error value `storage.NotFoundError`, which is
declared outside the sources shown; the spec calls it the distinguished kind
`NotFound`.  The handlers compare the error of the core with it by `==`. -/
def NotFoundError : Err := "NotFound"

end storage

/-! ## handlers/session_get.go, handlers/session_close.go and handlers/cookies.go -/

namespace handlers

open types

def StatusNotFound : Nat := 404

/-- The parts of an `http.Request` that `GetSession` and `CloseSession` read:
the host and the variables of the route. -/
structure RouteRequest where
  Host : String
  Vars : List (String × String)
deriving DecidableEq

/-- Go `mux.Vars(req)[key]`: the value of the variable, or the empty string. -/
def RouteRequest.Var (req : RouteRequest) (key : String) : String :=
  (req.Vars.lookup key).getD ""

/-- The fields of an `http.Cookie` that `ResetCookie` sets; `SameSite`,
`Secure` and `HttpOnly` are the same in all its cookies. -/
structure Cookie where
  Name : String
  Value : String
  Domain : String
  Path : String
  MaxAge : Int
deriving DecidableEq

/-- The type `SessionInfo`: the session and its instances by name, as an
association list in the order of first insertion. -/
structure SessionInfo where
  Session : Session
  Instances : List (String × Instance)
deriving DecidableEq

/-- Go `m[k] = v` on a map kept as an association list. -/
def mapSet (m : List (String × Instance)) (k : String) (v : Instance) :
    List (String × Instance) :=
  if m.any (fun e => e.1 = k) then m.map (fun e => if e.1 = k then (k, v) else e)
  else m ++ [(k, v)]

/-- What a session handler wrote: the status code (200 when the handler never
calls `WriteHeader`), the content type it set, the cookies it set and the
JSON body. -/
structure SessionResponse where
  status : Nat
  contentType : Option String
  cookies : List Cookie
  body : Option SessionInfo
deriving DecidableEq

/-- What a session handler does to the outside world, in order: calls on the
core and the provisioner, removals from the file system and lines logged. -/
inductive Effect where
  | SessionGet (sessionId : String)
  | InstanceFindBySession (s : Session)
  | SessionClose (s : Session)
  | AbsUserVolumePath (s : Session)
  | RemoveAll (path : String)
  | Log (err : Err)
deriving DecidableEq

/-- What the session handlers depend on besides the request. -/
structure SessionEnv where
  SessionGet : String → Except Err Session
  InstanceFindBySession : Session → Except Err (List Instance)
  SessionClose : Session → Option Err
  /-- Stands for `provisioner.AbsUserVolumePath`. -/
  AbsUserVolumePath : Session → Except Err String
  /-- Stands for `getBaseDomain` of `cookies.go`, which rests on `url.Parse`,
  `net.SplitHostPort`, `net.ParseIP` and `publicsuffix.EffectiveTLDPlusOne`. -/
  getBaseDomain : String → String

/-- The result of a session handler: the response and the effects. -/
structure SessionHandled where
  resp : SessionResponse
  effects : List Effect
deriving DecidableEq

/-- The response of `rw.WriteHeader(code)` with nothing else written. -/
def writeStatus (code : Nat) : SessionResponse := ⟨code, none, [], none⟩

/-- Lines 38-41 of `session_get.go`: the instances by name. -/
def instancesByName (instances : List Instance) : List (String × Instance) :=
  instances.foldl (fun is i => mapSet is i.Name i) []

/-- Lines 18-45 of `session_get.go`: `GetSession`. -/
def GetSession (env : SessionEnv) (req : RouteRequest) : SessionHandled :=
  let sessionId := req.Var "sessionId"
  let effects := [Effect.SessionGet sessionId]
  match env.SessionGet sessionId with
  | Except.error err =>
    if err = storage.NotFoundError then ⟨writeStatus StatusNotFound, effects⟩
    else ⟨writeStatus StatusNotFound, effects⟩
  | Except.ok session =>
    let effects1 := effects ++ [Effect.InstanceFindBySession session]
    match env.InstanceFindBySession session with
    | Except.error err =>
      ⟨writeStatus StatusInternalServerError, effects1 ++ [Effect.Log err]⟩
    | Except.ok instances =>
      ⟨⟨StatusOK, some "application/json", [], some ⟨session, instancesByName instances⟩⟩,
        effects1⟩

/-- Lines 51-90 of `cookies.go`: the cookies `ResetCookie` sets, in order. -/
def ResetCookie (env : SessionEnv) (host : String) : List Cookie :=
  let d := env.getBaseDomain host
  (if d ≠ "" then [⟨"id", "", d, "/", -1⟩, ⟨"id", "", "." ++ d, "/", -1⟩] else [])
    ++ [⟨"id", "", "", "/", -1⟩]

/-- Lines 13-41 of `session_close.go`: `CloseSession`. -/
def CloseSession (env : SessionEnv) (req : RouteRequest) : SessionHandled :=
  let sessionId := req.Var "sessionId"
  let effects := [Effect.SessionGet sessionId]
  match env.SessionGet sessionId with
  | Except.error err =>
    if err = storage.NotFoundError then ⟨writeStatus StatusNotFound, effects⟩
    else ⟨writeStatus StatusInternalServerError, effects⟩
  | Except.ok session =>
    let effects1 := effects ++ [Effect.SessionClose session]
    match env.SessionClose session with
    | some err => ⟨writeStatus StatusInternalServerError, effects1 ++ [Effect.Log err]⟩
    | none =>
      let effects2 := effects1 ++ [Effect.AbsUserVolumePath session]
      match env.AbsUserVolumePath session with
      | Except.error err =>
        ⟨writeStatus StatusInternalServerError, effects2 ++ [Effect.Log err]⟩
      | Except.ok volpath =>
        ⟨⟨StatusOK, none, ResetCookie env req.Host, none⟩,
          effects2 ++ [Effect.RemoveAll volpath]⟩

/-- The paths a handler removes with `os.RemoveAll`, in order. -/
def removedOf (effects : List Effect) : List String :=
  effects.filterMap (fun e => match e with
    | Effect.RemoveAll path => some path
    | _ => none)

/-! ### Sample inputs -/

/-- A core that knows the session `abcdefgh` with one instance and closes it
without error; the user data of a session is under `/pwd/data`. -/
def sampleSessionEnv : SessionEnv :=
  { SessionGet := fun id => if id = "abcdefgh" then Except.ok ⟨"abcdefgh"⟩
      else Except.error storage.NotFoundError
    InstanceFindBySession := fun _ => Except.ok [task.sampleInstance "franela/dind"]
    SessionClose := fun _ => none
    AbsUserVolumePath := fun s => Except.ok ("/pwd/data/" ++ s.Id)
    getBaseDomain := fun host => host }

/-- A request on the route of the session `sessionId`. -/
def sampleRouteRequest (sessionId : String) : RouteRequest :=
  { Host := "localhost", Vars := [("sessionId", sessionId)] }

end handlers

/-! ## config/env_parser.go and the flags of config/config.go -/

namespace config

/-- Go `unicode.IsSpace`: the white space of Latin-1 and the code points with
the property `White_Space` beyond it. -/
def isSpace (c : Char) : Bool :=
  [0x09, 0x0A, 0x0B, 0x0C, 0x0D, 0x20, 0x85, 0xA0, 0x1680, 0x2028, 0x2029, 0x202F, 0x205F,
    0x3000].contains c.toNat || (decide (0x2000 ≤ c.toNat) && decide (c.toNat ≤ 0x200A))

/-- Go `strings.TrimSpace` on a list of characters: the leading and the
trailing white space is removed. -/
def trimChars (s : List Char) : List Char :=
  ((s.dropWhile isSpace).reverse.dropWhile isSpace).reverse

/-- Go `strings.TrimSpace`. -/
def TrimSpace (s : String) : String := String.mk (trimChars s.toList)

/-- Lines 12-23 of `env_parser.go`; `getenv` stands for `os.Getenv`, and
`len` counts the bytes of a string. -/
def SanitizeEnv (getenv : String → String) (envName : String) : Except Err String :=
  if envName.utf8ByteSize = 0 then
    Except.error "Environment Variable Name Should Not Empty"
  else
    let retValue := TrimSpace (getenv envName)
    if retValue.utf8ByteSize = 0 then
      Except.error ("Environment Variable '" ++ envName ++ "' Has an Empty Value")
    else Except.ok retValue

/-- Lines 25-32 of `env_parser.go`. -/
def GetEnvString (getenv : String → String) (envName envDefault : String) : String :=
  match SanitizeEnv getenv envName with
  | Except.error _ => envDefault
  | Except.ok envValue => envValue

/-- Go `strconv.ParseBool`. -/
def ParseBool (str : String) : Except Err Bool :=
  if str = "1" ∨ str = "t" ∨ str = "T" ∨ str = "TRUE" ∨ str = "true" ∨ str = "True" then
    Except.ok true
  else if str = "0" ∨ str = "f" ∨ str = "F" ∨ str = "FALSE" ∨ str = "false" ∨ str = "False" then
    Except.ok false
  else Except.error ("strconv.ParseBool: parsing " ++ str ++ ": invalid syntax")

/-- Lines 34-46 of `env_parser.go`. -/
def GetEnvBool (getenv : String → String) (envName : String) (envDefault : Bool) : Bool :=
  match SanitizeEnv getenv envName with
  | Except.error _ => envDefault
  | Except.ok envValue =>
    match ParseBool envValue with
    | Except.error _ => envDefault
    | Except.ok retValue => retValue

/-- The package-level variables of `config` that `main` copies into the
default playground and that `handlers.ValidateToken` reads. -/
structure Flags where
  PlaygroundDomain : String
  SessionDuration : String
  NoWindows : Bool
  AdminToken : String
  DockerClientID : String
  DockerClientSecret : String
  GithubClientID : String
  GithubClientSecret : String
  GoogleClientID : String
  GoogleClientSecret : String
  AzureClientID : String
  AzureClientSecret : String
  AzureTenantID : String
deriving DecidableEq

/-- Go `flag.StringVar` followed by `flag.Parse`: the text the command line
gives to the flag, or else the default. -/
def stringFlag (args : String → Option String) (name value : String) : String :=
  (args name).getD value

/-- Go `flag.BoolVar` followed by `flag.Parse`: the text the command line gives
to the flag, read by `strconv.ParseBool`, or else the default; a text that is
no boolean ends the process (`none`). -/
def boolFlag (args : String → Option String) (name : String) (value : Bool) : Option Bool :=
  match args name with
  | none => some value
  | some text =>
    match ParseBool text with
    | Except.error _ => none
    | Except.ok b => some b

/-- Lines 54-120 of `config.go`, for the variables of `Flags`: `ParseFlags`.
`getenv` stands for `os.Getenv` and `args name` is the text the command line
gives to the flag `name`, when it sets the flag (a boolean flag set without a
value has the text `true`); the command line is taken to set the flags left
out of `Flags` correctly.  The result is `none` when `flag.Parse` ends the
process. -/
def ParseFlags (getenv : String → String) (args : String → Option String) : Option Flags :=
  match boolFlag args "windows-disable" (GetEnvBool getenv "PWD_WINDOWS_DISABLE" true) with
  | none => none
  | some noWindows =>
    some
      { PlaygroundDomain := stringFlag args "domain" (GetEnvString getenv "PWD_DOMAIN" "localhost")
        SessionDuration :=
          stringFlag args "max-session-duration" (GetEnvString getenv "PWD_MAX_SESSION_DURATION" "4h")
        NoWindows := noWindows
        AdminToken := stringFlag args "admin-token" (GetEnvString getenv "PWD_ADMIN_TOKEN" "")
        DockerClientID :=
          stringFlag args "oauth-docker-client-id" (GetEnvString getenv "PWD_OAUTH_DOCKER_CLIENT_ID" "")
        DockerClientSecret := stringFlag args "oauth-docker-client-secret"
          (GetEnvString getenv "PWD_OAUTH_DOCKER_CLIENT_SECRET" "")
        GithubClientID :=
          stringFlag args "oauth-github-client-id" (GetEnvString getenv "PWD_OAUTH_GITHUB_CLIENT_ID" "")
        GithubClientSecret := stringFlag args "oauth-github-client-secret"
          (GetEnvString getenv "PWD_OAUTH_GITHUB_CLIENT_SECRET" "")
        GoogleClientID :=
          stringFlag args "oauth-google-client-id" (GetEnvString getenv "PWD_OAUTH_GOOGLE_CLIENT_ID" "")
        GoogleClientSecret := stringFlag args "oauth-google-client-secret"
          (GetEnvString getenv "PWD_OAUTH_GOOGLE_CLIENT_SECRET" "")
        AzureClientID :=
          stringFlag args "oauth-azure-client-id" (GetEnvString getenv "PWD_OAUTH_AZURE_CLIENT_ID" "")
        AzureClientSecret := stringFlag args "oauth-azure-client-secret"
          (GetEnvString getenv "PWD_OAUTH_AZURE_CLIENT_SECRET" "")
        AzureTenantID := stringFlag args "oauth-azure-tenant-id"
          (GetEnvString getenv "PWD_OAUTH_AZURE_TENANT_ID" "common") }

/-- An environment in which no variable is set. -/
def noEnv : String → String := fun _ => ""

/-- A command line that sets no flag. -/
def noArgs : String → Option String := fun _ => none

end config

/-! ## api.go -/

namespace main

open config types

/-- Lines 55-58 of `api.go`: the image of the default playground; `getenv`
stands for `os.Getenv`. -/
def dindImage (getenv : String → String) : String :=
  if getenv "DIND_IMAGE" = "" then "franela/dind:latest" else getenv "DIND_IMAGE"

/-- Lines 60-78 of `api.go`: the default playground, for the duration `d` that
`time.ParseDuration` reads from `config.SessionDuration`. -/
def playground (flags : Flags) (dindImage : String) (d : Int) : Playground :=
  { Id := ""
    Domain := flags.PlaygroundDomain
    DefaultDinDInstanceImage := dindImage
    AvailableDinDInstanceImages := [dindImage]
    AllowWindowsInstances := flags.NoWindows
    DefaultSessionDuration := d
    Extras := [("LoginRedirect", "http://localhost:3000")]
    Privileged := true
    Tasks := [".*"]
    DockerClientID := flags.DockerClientID
    DockerClientSecret := flags.DockerClientSecret
    GithubClientID := flags.GithubClientID
    GithubClientSecret := flags.GithubClientSecret
    GoogleClientID := flags.GoogleClientID
    GoogleClientSecret := flags.GoogleClientSecret
    AzureClientID := flags.AzureClientID
    AzureClientSecret := flags.AzureClientSecret
    AzureTenantID := flags.AzureTenantID }

/-- Lines 23 and 50-78 of `api.go`: the default playground that `main` hands
to `core.PlaygroundNew`, or `none` when `main` ends the process before (a
command line that `flag.Parse` rejects, a session duration that
`time.ParseDuration`, here `parseDuration`, rejects); the steps between, which
set up the scheduler, are taken to succeed. -/
def startupPlayground (getenv : String → String) (args : String → Option String)
    (parseDuration : String → Except Err Int) : Option Playground :=
  match ParseFlags getenv args with
  | none => none
  | some flags =>
    match parseDuration flags.SessionDuration with
    | Except.error _ => none
    | Except.ok d => some (playground flags (dindImage getenv) d)

end main

/-! ## handlers/playground.go -/

namespace handlers

open types config

/-- The parts of an `http.Request` that the playground handlers read: the
result of `req.BasicAuth()`, which is the user name and the password of the
`Authorization` header when the header holds Basic credentials (`ok` true) and
`none` otherwise, and the body. -/
structure AdminRequest where
  BasicAuth : Option (String × String)
  Body : String
deriving DecidableEq

/-- Calls of the playground handlers on the core, in order. -/
inductive PlaygroundCall where
  | PlaygroundNew (playground : Playground)
  | PlaygroundList
deriving DecidableEq

/-- What the playground handlers depend on besides the request and the
flags. -/
structure PlaygroundEnv where
  /-- Stands for `json.NewDecoder(req.Body).Decode(&playground)`. -/
  decodePlayground : String → Except Err Playground
  PlaygroundNew : Playground → Except Err Playground
  PlaygroundList : Except Err (List Playground)

/-- What a playground handler writes to the body. -/
inductive PlaygroundBody where
  | empty
  | text (s : String)
  | playground (p : Playground)
  | playgrounds (ps : List Playground)
deriving DecidableEq

/-- The result of a playground handler: the status code (200 when the handler
never calls `WriteHeader`), the content type it set, the body, the calls on
the core and the lines logged. -/
structure PlaygroundHandled where
  status : Nat
  contentType : Option String
  body : PlaygroundBody
  calls : List PlaygroundCall
  logs : List String
deriving DecidableEq

/-- Lines 103-114 of `playground.go`: `ValidateToken`. -/
def ValidateToken (flags : Flags) (req : AdminRequest) : Bool :=
  match req.BasicAuth with
  | none => false
  | some (_, password) => if password ≠ flags.AdminToken then false else true

/-- Lines 14-38 of `playground.go`: `NewPlayground`. -/
def NewPlayground (flags : Flags) (env : PlaygroundEnv) (req : AdminRequest) :
    PlaygroundHandled :=
  if !ValidateToken flags req then ⟨StatusForbidden, none, PlaygroundBody.empty, [], []⟩
  else
    match env.decodePlayground req.Body with
    | Except.error err =>
      ⟨StatusBadRequest, none,
        PlaygroundBody.text ("Error creating playground. Got: " ++ err), [], []⟩
    | Except.ok playground =>
      match env.PlaygroundNew playground with
      | Except.error err =>
        ⟨StatusBadRequest, none,
          PlaygroundBody.text ("Error creating playground. Got: " ++ err),
          [PlaygroundCall.PlaygroundNew playground], []⟩
      | Except.ok newPlayground =>
        ⟨StatusOK, some "application/json", PlaygroundBody.playground newPlayground,
          [PlaygroundCall.PlaygroundNew playground], []⟩

/-- Lines 40-55 of `playground.go`: `ListPlaygrounds`. -/
def ListPlaygrounds (flags : Flags) (env : PlaygroundEnv) (req : AdminRequest) :
    PlaygroundHandled :=
  if !ValidateToken flags req then ⟨StatusForbidden, none, PlaygroundBody.empty, [], []⟩
  else
    match env.PlaygroundList with
    | Except.error err =>
      ⟨StatusInternalServerError, none, PlaygroundBody.empty, [PlaygroundCall.PlaygroundList],
        ["Error listing playgrounds. Got: " ++ err ++ "\n"]⟩
    | Except.ok playgrounds =>
      ⟨StatusOK, some "application/json", PlaygroundBody.playgrounds playgrounds,
        [PlaygroundCall.PlaygroundList], []⟩

/-! ### Sample inputs -/

/-- The flags of a start with no variable set and no flag given but the admin
token. -/
def sampleFlags (adminToken : String) : Flags :=
  { PlaygroundDomain := "localhost", SessionDuration := "4h", NoWindows := true,
    AdminToken := adminToken, DockerClientID := "", DockerClientSecret := "",
    GithubClientID := "", GithubClientSecret := "", GoogleClientID := "",
    GoogleClientSecret := "", AzureClientID := "", AzureClientSecret := "",
    AzureTenantID := "common" }

/-- A core with the default playground only, on which every call succeeds; a
body is decoded to the default playground. -/
def samplePlaygroundEnv : PlaygroundEnv :=
  { decodePlayground := fun _ => Except.ok samplePlayground
    PlaygroundNew := fun p => Except.ok { p with Id := "pg1" }
    PlaygroundList := Except.ok [samplePlayground] }

end handlers

/-! ## docker/docker.go: `GetPorts` -/

namespace docker

/-- The Docker API type `types.Port`; the ports are `uint16` values, which
`GetPorts` copies and never computes with. -/
structure Port where
  IP : String
  PrivatePort : Nat
  PublicPort : Nat
  /-- The Go field `Type`. -/
  Type_ : String
deriving DecidableEq

/-- The fields of the Docker API type `types.Container` that identify a
container, and its ports. -/
structure Container where
  ID : String
  Names : List String
  Image : String
  Ports : List Port
deriving DecidableEq

/-- Lines 187-194: the two loops of `GetPorts`. -/
def openPortsOf (containers : List Container) : List Nat :=
  containers.foldl (fun openPorts c =>
    c.Ports.foldl (fun openPorts p =>
      if p.PublicPort ≠ 0 then openPorts ++ [p.PublicPort] else openPorts) openPorts) []

/-- Lines 177-195: `GetPorts`, for the answer of the daemon to
`ContainerList`. -/
def GetPorts (containerList : Except Err (List Container)) : Except Err (List Nat) :=
  match containerList with
  | Except.error err => Except.error err
  | Except.ok containers => Except.ok (openPortsOf containers)

/-- Two containers: one publishes port 80 as 32768 and keeps 443 unpublished,
the other publishes 8080 as 32769. -/
def sampleContainers : List Container :=
  [⟨"c0ffee", ["/node1_abcdefgh"], "franela/dind",
      [⟨"0.0.0.0", 80, 32768, "tcp"⟩, ⟨"", 443, 0, "tcp"⟩]⟩,
   ⟨"decaf0", ["/node2_abcdefgh"], "franela/dind", [⟨"0.0.0.0", 8080, 32769, "tcp"⟩]⟩]

end docker

/-! ## Go `path`

`path.Clean` and `path.Join` work on the bytes of a string and compare them
with `/` and `.` only; on a string of characters the same steps are taken
character by character. -/

namespace path

/-- The `..` case of `Clean` when it can back up: `out.w--`, then
`for out.w > dotdot && out.index(out.w) != '/' { out.w-- }`.  The buffer is
kept newest character first, so `out.index(out.w)` is the character dropped
last. -/
def backtrack (dotdot : Nat) : List Char → List Char
  | [] => []
  | x :: out => if out.length > dotdot ∧ x ≠ '/' then backtrack dotdot out else out

/-- The loop `for r < n` of `Clean`: `rest` is the path from `r` on, `out` the
buffer written so far, newest character first, and every round takes one unit
of `fuel`. -/
def cleanLoop (rooted : Bool) : Nat → List Char → List Char → Nat → List Char
  | 0, _, out, _ => out
  | _ + 1, [], out, _ => out
  | fuel + 1, x :: t, out, dotdot =>
    if x = '/' then
      -- empty path element
      cleanLoop rooted fuel t out dotdot
    else if x = '.' ∧ (t = [] ∨ t.head? = some '/') then
      -- . element
      cleanLoop rooted fuel t out dotdot
    else if x = '.' ∧ t.head? = some '.' ∧ (t.tail = [] ∨ t.tail.head? = some '/') then
      -- .. element: remove to last /
      if out.length > dotdot then cleanLoop rooted fuel t.tail (backtrack dotdot out) dotdot
      else if !rooted then
        let out1 := '.' :: '.' :: (if out.length > 0 then '/' :: out else out)
        cleanLoop rooted fuel t.tail out1 out1.length
      else cleanLoop rooted fuel t.tail out dotdot
    else
      -- real path element: add slash if needed, copy element
      let out1 :=
        if (rooted && out.length != 1) || (!rooted && out.length != 0) then '/' :: out else out
      cleanLoop rooted fuel ((x :: t).dropWhile (fun y => y != '/'))
        (((x :: t).takeWhile (fun y => y != '/')).reverse ++ out1) dotdot

/-- Go `path.Clean` on a list of characters.  Every round of the loop reads at
least one character, so the length of the path is fuel enough. -/
def cleanChars (p : List Char) : List Char :=
  if p = [] then ['.']
  else
    let out :=
      if p.head? = some '/' then cleanLoop true p.length p.tail ['/'] 1
      else cleanLoop false p.length p [] 0
    if out.length = 0 then ['.'] else out.reverse

/-- Go `path.Clean`. -/
def Clean (p : String) : String := String.mk (cleanChars p.toList)

/-- The buffer that `Join` fills: the elements that are not empty, with a
slash between them. -/
def joinChars (elem : List String) : List Char :=
  elem.foldl (fun buf e =>
    if buf.length > 0 ∨ e ≠ "" then (if buf.length > 0 then buf ++ ['/'] else buf) ++ e.toList
    else buf) []

/-- Go `path.Join`. -/
def Join (elem : List String) : String :=
  if (elem.map String.utf8ByteSize).sum = 0 then ""
  else String.mk (cleanChars (joinChars elem))

end path

namespace docker

/-- The images a trace asks the daemon to pull with `ImageCreate`, in order. -/
def imageCreatesOf (trace : List Call) : List String :=
  trace.filterMap (fun call => match call with
    | Call.ImageCreate image => some image
    | _ => none)

end docker

/-! # Theorems -/

namespace regexp

/-- Every result of the greedy loop comes from a path of the star. -/
theorem starLoop_sound (a : Re) (step : Nat → List Char → Caps → Cont → Option Caps)
    (hstep : ∀ p r c k res, step p r c k = some res →
      ∃ p1 r1 c1, Matches a p r c p1 r1 c1 ∧ k p1 r1 c1 = some res) :
    ∀ fuel p r c k res, starLoop step fuel p r c k = some res →
      ∃ p1 r1 c1, Matches (Re.star a) p r c p1 r1 c1 ∧ k p1 r1 c1 = some res := by
  intro fuel
  induction fuel with
  | zero =>
    intro p r c k res h
    exact ⟨p, r, c, Matches.starStop a p r c, h⟩
  | succ fuel ih =>
    intro p r c k res h
    unfold starLoop at h
    split at h
    · rename_i res1 hres
      cases h
      obtain ⟨p1, r1, c1, hm, hk⟩ := hstep _ _ _ _ _ hres
      split at hk
      · obtain ⟨p2, r2, c2, hm2, hk2⟩ := ih _ _ _ _ _ hk
        exact ⟨p2, r2, c2, Matches.starStep hm hm2, hk2⟩
      · cases hk
    · exact ⟨p, r, c, Matches.starStop a p r c, h⟩

/-- Every result of the matcher comes from a path of the pattern followed by
a success of the continuation. -/
theorem run_sound (re : Re) : ∀ p r c k res, run re p r c k = some res →
    ∃ p1 r1 c1, Matches re p r c p1 r1 c1 ∧ k p1 r1 c1 = some res := by
  induction re with
  | empty =>
    intro p r c k res h
    exact ⟨p, r, c, Matches.empty p r c, h⟩
  | char x =>
    intro p r c k res h
    cases r with
    | nil => simp [run] at h
    | cons y t =>
      simp only [run] at h
      split at h
      · rename_i hxy
        subst hxy
        exact ⟨p + 1, t, c, Matches.char _ p t c, h⟩
      · cases h
  | cls rs =>
    intro p r c k res h
    cases r with
    | nil => simp [run] at h
    | cons y t =>
      simp only [run] at h
      split at h
      · rename_i hy
        exact ⟨p + 1, t, c, Matches.cls rs y p t c hy, h⟩
      · cases h
  | anyNotNL =>
    intro p r c k res h
    cases r with
    | nil => simp [run] at h
    | cons y t =>
      simp only [run] at h
      split at h
      · rename_i hy
        exact ⟨p + 1, t, c, Matches.anyNotNL y p t c hy, h⟩
      · cases h
  | beginText =>
    intro p r c k res h
    simp only [run] at h
    split at h
    · rename_i hp
      subst hp
      exact ⟨0, r, c, Matches.beginText r c, h⟩
    · cases h
  | endText =>
    intro p r c k res h
    simp only [run] at h
    split at h
    · rename_i hr
      subst hr
      exact ⟨p, [], c, Matches.endText p c, h⟩
    · cases h
  | cat a b iha ihb =>
    intro p r c k res h
    simp only [run] at h
    obtain ⟨p1, r1, c1, hm1, hk1⟩ := iha _ _ _ _ _ h
    obtain ⟨p2, r2, c2, hm2, hk2⟩ := ihb _ _ _ _ _ hk1
    exact ⟨p2, r2, c2, Matches.cat hm1 hm2, hk2⟩
  | star a iha =>
    intro p r c k res h
    simp only [run] at h
    exact starLoop_sound a (run a) iha _ _ _ _ _ _ h
  | quest a iha =>
    intro p r c k res h
    simp only [run] at h
    split at h
    · rename_i res1 hres
      cases h
      obtain ⟨p1, r1, c1, hm, hk⟩ := iha _ _ _ _ _ hres
      exact ⟨p1, r1, c1, Matches.questTake hm, hk⟩
    · exact ⟨p, r, c, Matches.questSkip a p r c, h⟩
  | group i a iha =>
    intro p r c k res h
    simp only [run] at h
    obtain ⟨p1, r1, c1, hm, hk⟩ := iha _ _ _ _ _ h
    exact ⟨p1, r1, _, Matches.group hm, hk⟩

/-- A path consumes a word of the input and advances the position by its
length. -/
theorem Matches.consumes {re : Re} {p : Nat} {r : List Char} {c : Caps} {p1 : Nat}
    {r1 : List Char} {c1 : Caps} (h : Matches re p r c p1 r1 c1) :
    ∃ w, r = w ++ r1 ∧ p1 = p + w.length := by
  induction h with
  | empty p r c => exact ⟨[], rfl, rfl⟩
  | char x p r c => exact ⟨[x], rfl, rfl⟩
  | cls rs x p r c _ => exact ⟨[x], rfl, rfl⟩
  | anyNotNL x p r c _ => exact ⟨[x], rfl, rfl⟩
  | beginText r c => exact ⟨[], rfl, rfl⟩
  | endText p c => exact ⟨[], rfl, rfl⟩
  | cat _ _ ih1 ih2 =>
    obtain ⟨w1, hw1, hp1⟩ := ih1
    obtain ⟨w2, hw2, hp2⟩ := ih2
    exact ⟨w1 ++ w2, by rw [hw1, hw2, List.append_assoc], by rw [hp2, hp1, List.length_append]; omega⟩
  | starStop a p r c => exact ⟨[], rfl, rfl⟩
  | starStep _ _ ih1 ih2 =>
    obtain ⟨w1, hw1, hp1⟩ := ih1
    obtain ⟨w2, hw2, hp2⟩ := ih2
    exact ⟨w1 ++ w2, by rw [hw1, hw2, List.append_assoc], by rw [hp2, hp1, List.length_append]; omega⟩
  | questSkip a p r c => exact ⟨[], rfl, rfl⟩
  | questTake _ ih => exact ih
  | group _ ih => exact ih

/-- A path leaves alone every group that does not occur in the pattern. -/
theorem Matches.frame {re : Re} {p : Nat} {r : List Char} {c : Caps} {p1 : Nat}
    {r1 : List Char} {c1 : Caps} (h : Matches re p r c p1 r1 c1) (i : Nat)
    (hi : hasGroup i re = false) : List.get? c1 i = List.get? c i := by
  induction h with
  | empty p r c => rfl
  | char x p r c => rfl
  | cls rs x p r c _ => rfl
  | anyNotNL x p r c _ => rfl
  | beginText r c => rfl
  | endText p c => rfl
  | cat _ _ ih1 ih2 =>
    simp only [hasGroup, Bool.or_eq_false_iff] at hi
    rw [ih2 hi.2, ih1 hi.1]
  | starStop a p r c => rfl
  | starStep _ _ ih1 ih2 =>
    rw [ih2 hi, ih1 (by simpa [hasGroup] using hi)]
  | questSkip a p r c => rfl
  | questTake _ ih => exact ih (by simpa [hasGroup] using hi)
  | group _ ih =>
    simp only [hasGroup, Bool.or_eq_false_iff, decide_eq_false_iff_not] at hi
    rw [← ih hi.2]
    simp only [List.get?_eq_getElem?]
    exact List.getElem?_set_ne hi.1

/-- A path keeps the number of capture slots. -/
theorem Matches.length_caps {re : Re} {p : Nat} {r : List Char} {c : Caps} {p1 : Nat}
    {r1 : List Char} {c1 : Caps} (h : Matches re p r c p1 r1 c1) : c1.length = c.length := by
  induction h with
  | empty p r c => rfl
  | char x p r c => rfl
  | cls rs x p r c _ => rfl
  | anyNotNL x p r c _ => rfl
  | beginText r c => rfl
  | endText p c => rfl
  | cat _ _ ih1 ih2 => rw [ih2, ih1]
  | starStop a p r c => rfl
  | starStep _ _ ih1 ih2 => rw [ih2, ih1]
  | questSkip a p r c => rfl
  | questTake _ ih => exact ih
  | group _ ih => rw [List.length_set, ih]

/-- A path of `n` copies of a class consumes exactly `n` characters of the
class and touches no capture. -/
theorem Matches.times_cls {rs : List (Char × Char)} : ∀ {n : Nat} {p : Nat} {r : List Char}
    {c : Caps} {p1 : Nat} {r1 : List Char} {c1 : Caps},
    Matches (times (Re.cls rs) n) p r c p1 r1 c1 →
    c1 = c ∧ ∃ w, r = w ++ r1 ∧ w.length = n ∧ ∀ x ∈ w, inRanges rs x = true := by
  intro n
  induction n with
  | zero =>
    intro p r c p1 r1 c1 h
    cases h
    exact ⟨rfl, [], rfl, rfl, by simp⟩
  | succ n ih =>
    intro p r c p1 r1 c1 h
    cases h with
    | cat h1 h2 =>
      cases h1 with
      | cls _ x _ t _ hx =>
        obtain ⟨hc, w, hw, hlen, hall⟩ := ih h2
        refine ⟨hc, x :: w, by rw [hw]; rfl, by simp [hlen], ?_⟩
        intro y hy
        rcases List.mem_cons.1 hy with hy | hy
        · rw [hy]; exact hx
        · exact hall y hy

theorem Matches.cat_inv {a b : Re} {p : Nat} {r : List Char} {c : Caps} {p2 : Nat}
    {r2 : List Char} {c2 : Caps} (h : Matches (Re.cat a b) p r c p2 r2 c2) :
    ∃ p1 r1 c1, Matches a p r c p1 r1 c1 ∧ Matches b p1 r1 c1 p2 r2 c2 := by
  cases h with
  | cat h1 h2 => exact ⟨_, _, _, h1, h2⟩

theorem Matches.group_inv {i : Nat} {a : Re} {p : Nat} {r : List Char} {c : Caps} {p1 : Nat}
    {r1 : List Char} {c2 : Caps} (h : Matches (Re.group i a) p r c p1 r1 c2) :
    ∃ c1, Matches a p r c p1 r1 c1 ∧ c2 = c1.set i (some (r.take (p1 - p))) := by
  cases h with
  | group h1 => exact ⟨_, h1, rfl⟩

/-- A result of the search is the result of an attempt at some position. -/
theorem findFrom_sound (re : Re) : ∀ (rest : List Char) (pos : Nat) (caps : Caps),
    findFrom re pos rest = some caps → ∃ pos1 rest1, matchHere re pos1 rest1 = some caps := by
  intro rest
  induction rest with
  | nil =>
    intro pos caps h
    exact ⟨pos, [], h⟩
  | cons x t ih =>
    intro pos caps h
    simp only [findFrom] at h
    split at h
    · rename_i res hres
      cases h
      exact ⟨pos, x :: t, hres⟩
    · exact ih _ _ h

end regexp

namespace config

open regexp

/-- A character of the class `[0-9|a-z|A-Z]` is a letter, a digit or the bar. -/
theorem aliasSessionRanges_spec (x : Char) (h : inRanges aliasSessionRanges x = true) :
    x ≠ '|' → isAlphaNum x = true := by
  intro hx
  simp only [inRanges, aliasSessionRanges, List.any_cons, List.any_nil, Bool.or_false,
    Bool.or_eq_true, Bool.and_eq_true, decide_eq_true_eq] at h
  simp only [isAlphaNum, isDigitOrLower, Bool.or_eq_true, Bool.and_eq_true, decide_eq_true_eq]
  rcases h with h | h | h | h | h
  · exact Or.inl (Or.inl h)
  · exact absurd (le_antisymm h.2 h.1) hx
  · exact Or.inl (Or.inr h)
  · exact absurd (le_antisymm h.2 h.1) hx
  · exact Or.inr h

/-- On every path of `AliasFilter` the second group holds eight characters of
the class `[0-9|a-z|A-Z]`. -/
theorem AliasFilter_group2 {p : Nat} {r : List Char} {c : Caps} {p1 : Nat} {r1 : List Char}
    {c1 : Caps} (hlen : c.length = 4) (h : Matches AliasFilter p r c p1 r1 c1) :
    ∃ w : List Char, List.get? c1 2 = some (some w) ∧ w.length = 8 ∧
      ∀ x ∈ w, inRanges aliasSessionRanges x = true := by
  obtain ⟨_, _, _, h1, h⟩ := Matches.cat_inv h
  obtain ⟨_, _, _, h2, h⟩ := Matches.cat_inv h
  obtain ⟨_, _, _, h3, h⟩ := Matches.cat_inv h
  obtain ⟨_, _, _, h4, h⟩ := Matches.cat_inv h
  obtain ⟨_, _, _, h5, h⟩ := Matches.cat_inv h
  obtain ⟨pa, ra, ca, h6, htail⟩ := Matches.cat_inv h
  obtain ⟨cb, h6, hset⟩ := Matches.group_inv h6
  obtain ⟨_, _, _, h7, h8⟩ := Matches.cat_inv h6
  have h8 : Matches Re.empty _ _ _ pa ra cb := h8
  cases h8
  obtain ⟨hcb, w, hw, hwlen, hall⟩ := Matches.times_cls h7
  obtain ⟨w1, hw1, hp1⟩ := Matches.consumes h7
  have hww : w1 = w := List.append_cancel_right (hw1.symm.trans hw)
  refine ⟨w, ?_, hwlen, hall⟩
  have hl : cb.length = 4 := by
    rw [hcb, Matches.length_caps h5, Matches.length_caps h4, Matches.length_caps h3,
      Matches.length_caps h2, Matches.length_caps h1, hlen]
  rw [Matches.frame htail 2 (by decide), hset, hp1, hww, hw, hwlen]
  simp only [List.get?_eq_getElem?]
  rw [List.getElem?_set_self (by omega)]
  simp [← hwlen]

/-- Claim C3, as stated, fails: the host `pwdnode1-ABCDEFGH.localhost` matches
`AliasFilter` and the session id extracted has upper-case letters. -/
theorem alias_session_id_not_lower :
    ∃ groups sid,
      FindStringSubmatch AliasFilter "pwdnode1-ABCDEFGH.localhost" = some groups ∧
      groups[2]? = some sid ∧
      ¬ (sid.length = 8 ∧ ∀ x ∈ sid.toList, isDigitOrLower x = true) :=
  ⟨["pwdnode1-ABCDEFGH.localhost", "node1", "ABCDEFGH", ""], "ABCDEFGH",
    by decide, by decide, by decide⟩

/-- Claim C3, amended: for every host that matches `AliasFilter`, the second
capture group is present, is exactly 8 characters long, and every character
of it other than the bar is in `[0-9a-zA-Z]`. -/
theorem alias_session_id_shape (host : String) (groups : List String)
    (h : FindStringSubmatch AliasFilter host = some groups) :
    ∃ sid : String, groups[2]? = some sid ∧ sid.length = 8 ∧
      ∀ x ∈ sid.toList, x ≠ '|' → isAlphaNum x = true := by
  unfold FindStringSubmatch at h
  obtain ⟨caps, hfind, hgroups⟩ := Option.map_eq_some'.1 h
  obtain ⟨pos, rest, hm⟩ := findFrom_sound _ _ _ _ hfind
  obtain ⟨p1, r1, c1, hpath, hk⟩ := run_sound _ _ _ _ _ _ hm
  obtain ⟨w, hget, hwlen, hall⟩ := AliasFilter_group2 (by decide) hpath
  refine ⟨String.mk w, ?_, hwlen, fun x hx hbar => aliasSessionRanges_spec x (hall x hx) hbar⟩
  have hcaps : caps = c1.set 0 (some (rest.take (p1 - pos))) := by
    simpa using hk.symm
  have h2 : caps[2]? = some (some w) := by
    rw [hcaps, List.getElem?_set_ne (by decide)]
    simpa [List.get?_eq_getElem?] using hget
  rw [← hgroups, List.getElem?_map, h2]
  rfl

/-- Witness for `alias_session_id_shape`: the host `pwdnode1-abcdefgh.localhost`. -/
theorem alias_session_id_shape_witness :
    ∃ sid : String,
      ["pwdnode1-abcdefgh.localhost", "node1", "abcdefgh", ""][2]? = some sid ∧
      sid.length = 8 ∧ ∀ x ∈ sid.toList, x ≠ '|' → isAlphaNum x = true :=
  alias_session_id_shape "pwdnode1-abcdefgh.localhost" _ (by decide)

end config

namespace docker

open config

/-! ### What each step adds to the trace -/

theorem readyWait_filterMap {β : Type} (f : Call → Option β) (d : Daemon) (id : String)
    (hI : ∀ i, f (Call.ContainerInspect i) = none) (hS : ∀ ms, f (Call.Sleep ms) = none) :
    ∀ fuel elapsed hist,
      (readyWait d id fuel elapsed hist).trace.filterMap f = hist.filterMap f := by
  intro fuel
  induction fuel with
  | zero => intro elapsed hist; rfl
  | succ fuel ih =>
    intro elapsed hist
    simp only [readyWait]
    split
    · split <;> simp [List.filterMap_append, hI]
    · split
      · simp [List.filterMap_append, hI]
      · split
        · simp [List.filterMap_append, hI]
        · split
          · simp [List.filterMap_append, hI]
          · rw [ih]
            simp [List.filterMap_append, hI, hS]

theorem startAndWait_filterMap {β : Type} (f : Call → Option β) (d : Daemon) (id : String)
    (hT : ∀ i, f (Call.ContainerStart i) = none)
    (hI : ∀ i, f (Call.ContainerInspect i) = none) (hS : ∀ ms, f (Call.Sleep ms) = none)
    (hist : List Call) :
    (startAndWait d id hist).trace.filterMap f = hist.filterMap f := by
  simp only [startAndWait]
  split
  · simp [List.filterMap_append, hT]
  · rw [readyWait_filterMap f d id hI hS]
    simp [List.filterMap_append, hT]

theorem copyIfSet_filterMap {β : Type} (f : Call → Option β) (d : Daemon)
    (content : List UInt8) (fileName path containerName : String)
    (hC : ∀ a b c x, f (Call.CopyToContainer a b c x) = none) (hist : List Call) :
    (copyIfSet d content fileName path containerName hist).1.filterMap f
      = hist.filterMap f := by
  simp only [copyIfSet]
  split <;> simp [List.filterMap_append, hC]

theorem copyCertsAndStart_filterMap {β : Type} (f : Call → Option β) (d : Daemon)
    (opts : CreateContainerOpts) (id : String)
    (hC : ∀ a b c x, f (Call.CopyToContainer a b c x) = none)
    (hT : ∀ i, f (Call.ContainerStart i) = none)
    (hI : ∀ i, f (Call.ContainerInspect i) = none) (hS : ∀ ms, f (Call.Sleep ms) = none)
    (hist : List Call) :
    (copyCertsAndStart d opts id hist).trace.filterMap f = hist.filterMap f := by
  have h1 := copyIfSet_filterMap f d opts.ServerCert "cert.pem" containerCertDir
    opts.ContainerName hC hist
  simp only [copyCertsAndStart]
  split
  · rename_i hist1 e heq
    rw [heq] at h1
    exact h1
  · rename_i hist1 heq
    rw [heq] at h1
    have h2 := copyIfSet_filterMap f d opts.ServerKey "key.pem" containerCertDir
      opts.ContainerName hC hist1
    split
    · rename_i hist2 e heq2
      rw [heq2] at h2
      exact h2.trans h1
    · rename_i hist2 heq2
      rw [heq2] at h2
      have h3 := copyIfSet_filterMap f d opts.CACert "ca.pem" containerCertDir
        opts.ContainerName hC hist2
      split
      · rename_i hist3 e heq3
        rw [heq3] at h3
        exact h3.trans (h2.trans h1)
      · rename_i hist3 heq3
        rw [heq3] at h3
        rw [startAndWait_filterMap f d id hT hI hS]
        exact h3.trans (h2.trans h1)

theorem connectNetworks_filterMap {β : Type} (f : Call → Option β) (d : Daemon) (id : String)
    (hN : ∀ a b, f (Call.NetworkConnect a b) = none) :
    ∀ nets hist, (connectNetworks d id nets hist).1.filterMap f = hist.filterMap f := by
  intro nets
  induction nets with
  | nil => intro hist; rfl
  | cons nid rest ih =>
    intro hist
    simp only [connectNetworks]
    split
    · simp [List.filterMap_append, hN]
    · rw [ih]
      simp [List.filterMap_append, hN]

theorem PullImage_filterMap {β : Type} (f : Call → Option β) (d : Daemon) (image : String)
    (hP : ∀ a, f (Call.PullImage a) = none) (hIC : ∀ a, f (Call.ImageCreate a) = none)
    (hist : List Call) :
    (PullImage d image hist).1.filterMap f = hist.filterMap f := by
  simp only [PullImage]
  split
  · simp [List.filterMap_append, hP]
  · split <;> simp [List.filterMap_append, hP, hIC]

theorem selectImage_filterMap {β : Type} (f : Call → Option β) (cfg : Config) (d : Daemon)
    (opts : CreateContainerOpts)
    (hQ : ∀ a n, f (Call.ImageSearch a n) = none)
    (hP : ∀ a, f (Call.PullImage a) = none) (hIC : ∀ a, f (Call.ImageCreate a) = none)
    (hist : List Call) :
    (selectImage cfg d opts hist).1.filterMap f = hist.filterMap f := by
  have hq : (hist ++ [Call.ImageSearch opts.Image 5]).filterMap f = hist.filterMap f := by
    simp [List.filterMap_append, hQ]
  have hp := PullImage_filterMap f d opts.Image hP hIC
  simp only [selectImage]
  split
  · rename_i hist2 e heq
    split at heq
    · rw [← hq, ← hp (hist ++ _), heq]
    · cases heq
  · rename_i hist2 heq
    have h2 : hist2.filterMap f = hist.filterMap f := by
      split at heq
      · rw [← hq, ← hp (hist ++ _), heq]
      · cases heq
        exact hq
    split
    · rw [hp, h2]
    · split
      · rw [hp, h2]
      · exact h2

theorem createFrom_filterMap {β : Type} (f : Call → Option β) (cfg : Config) (d : Daemon)
    (opts : CreateContainerOpts) (net0 : String) (h : HostConfig)
    (hN : ∀ a b, f (Call.NetworkConnect a b) = none)
    (hC : ∀ a b c x, f (Call.CopyToContainer a b c x) = none)
    (hT : ∀ i, f (Call.ContainerStart i) = none)
    (hI : ∀ i, f (Call.ContainerInspect i) = none) (hS : ∀ ms, f (Call.Sleep ms) = none)
    (hist : List Call) :
    (createFrom cfg d opts net0 h hist).trace.filterMap f =
      (selectImage cfg d opts hist).1.filterMap f ++
        (if (selectImage cfg d opts hist).2 = none then
          (f (Call.ContainerCreate (containerConfig opts) (withUserVolume opts h)
            (networkConf opts net0) opts.ContainerName)).toList
        else []) := by
  simp only [createFrom]
  split
  · rename_i hist1 e heq
    simp [heq]
  · rename_i hist1 heq
    have hcc : ∀ l : List Call, l.filterMap f = hist1.filterMap f →
        (l ++ [Call.ContainerCreate (containerConfig opts) (withUserVolume opts h)
          (networkConf opts net0) opts.ContainerName]).filterMap f
        = hist1.filterMap f ++ (f (Call.ContainerCreate (containerConfig opts)
          (withUserVolume opts h) (networkConf opts net0) opts.ContainerName)).toList := by
      intro l hl
      rw [List.filterMap_append, hl]
      congr 1
    simp only [heq, if_true]
    split
    · exact hcc _ rfl
    · rename_i id hid
      split
      · rename_i hist3 e heq3
        split at heq3
        · have := connectNetworks_filterMap f d id hN opts.Networks
            (hist1 ++ [Call.ContainerCreate (containerConfig opts) (withUserVolume opts h)
              (networkConf opts net0) opts.ContainerName])
          rw [heq3] at this
          rw [this]
          exact hcc _ rfl
        · cases heq3
      · rename_i hist3 heq3
        rw [copyCertsAndStart_filterMap f d opts id hC hT hI hS]
        split at heq3
        · have := connectNetworks_filterMap f d id hN opts.Networks
            (hist1 ++ [Call.ContainerCreate (containerConfig opts) (withUserVolume opts h)
              (networkConf opts net0) opts.ContainerName])
          rw [heq3] at this
          rw [this]
          exact hcc _ rfl
        · cases heq3
          exact hcc _ rfl

theorem deferredVolumeRemove_filterMap {β : Type} (f : Call → Option β)
    (opts : CreateContainerOpts) (hR : ∀ a b, f (Call.VolumeRemove a b) = none) (r : Run) :
    (deferredVolumeRemove opts r).trace.filterMap f = r.trace.filterMap f := by
  simp only [deferredVolumeRemove]
  split <;> simp [List.filterMap_append, hR]

/-- With a first network and a volume step that does not fail,
`ContainerCreate` is the rest of the function run after that step. -/
theorem ContainerCreate_reaches_search (cfg : Config) (d : Daemon) (opts : CreateContainerOpts)
    (net0 : String) (rest : List String) (hnet : opts.Networks = net0 :: rest)
    (hvol : cfg.ExternalDindVolume = true → d.VolumeCreate (traceBeforeSearch cfg opts) = none) :
    ContainerCreate cfg d opts =
      if cfg.ExternalDindVolume = true then
        deferredVolumeRemove opts (createFrom cfg d opts net0
          { hostConfig cfg opts with Binds := some [opts.ContainerName ++ ":/var/lib/docker"] }
          (traceBeforeSearch cfg opts))
      else createFrom cfg d opts net0 (hostConfig cfg opts) (traceBeforeSearch cfg opts) := by
  unfold ContainerCreate
  rw [hnet]
  by_cases hv : cfg.ExternalDindVolume = true
  · have h1 := hvol hv
    simp only [traceBeforeSearch, hv, if_true] at h1 ⊢
    rw [h1]
  · simp [traceBeforeSearch, hv]

theorem PullImage_pulls (d : Daemon) (image : String) (hist : List Call) :
    pullsOf (PullImage d image hist).1 = pullsOf hist ++ [image] := by
  simp only [PullImage, pullsOf]
  split
  · simp [List.filterMap_append]
  · split <;> simp [List.filterMap_append]

/-- The pulls of the image selection: some number of pulls of the requested
image, at least one exactly when the search failed, found nothing, or
always-pull is set. -/
theorem selectImage_pulls (cfg : Config) (d : Daemon) (opts : CreateContainerOpts)
    (hist : List Call) :
    ∃ n, pullsOf (selectImage cfg d opts hist).1 = pullsOf hist ++ List.replicate n opts.Image ∧
      (0 < n ↔ ((d.ImageSearch (hist ++ [Call.ImageSearch opts.Image 5])).2 ≠ none ∨
        (d.ImageSearch (hist ++ [Call.ImageSearch opts.Image 5])).1 = 0 ∨
        cfg.AlwaysPull = true)) := by
  have hq : pullsOf (hist ++ [Call.ImageSearch opts.Image 5]) = pullsOf hist := by
    simp [pullsOf, List.filterMap_append]
  simp only [selectImage]
  cases hs : (d.ImageSearch (hist ++ [Call.ImageSearch opts.Image 5])).2 with
  | some e =>
    simp only []
    split
    · rename_i hist2 e2 heq
      refine ⟨1, ?_, by simp⟩
      have := PullImage_pulls d opts.Image (hist ++ [Call.ImageSearch opts.Image 5])
      rw [heq, hq] at this
      simpa using this
    · rename_i hist2 heq
      have h2 : pullsOf hist2 = pullsOf hist ++ [opts.Image] := by
        have := PullImage_pulls d opts.Image (hist ++ [Call.ImageSearch opts.Image 5])
        rw [heq, hq] at this
        exact this
      split
      · refine ⟨2, ?_, by simp⟩
        rw [PullImage_pulls, h2]
        simp [List.replicate]
      · split
        · refine ⟨2, ?_, by simp⟩
          rw [PullImage_pulls, h2]
          simp [List.replicate]
        · refine ⟨1, ?_, by simp⟩
          rw [h2]
          simp
  | none =>
    simp only []
    split
    · rename_i hzero
      refine ⟨1, ?_, by simp [hzero]⟩
      rw [PullImage_pulls, hq]
      simp
    · rename_i hzero
      split
      · rename_i halways
        refine ⟨1, ?_, by simp [halways.2]⟩
        rw [PullImage_pulls, hq]
        simp
      · rename_i halways
        refine ⟨0, by simpa using hq, ?_⟩
        have hpos : 0 < (d.ImageSearch (hist ++ [Call.ImageSearch opts.Image 5])).1 :=
          Nat.pos_of_ne_zero hzero
        simp only [not_and] at halways
        simp [hzero, halways hpos]

theorem wrapInt64_le_self {x : Int} (hx : 0 ≤ x) : wrapInt64 x ≤ x := by
  unfold wrapInt64
  omega

theorem withUserVolume_Resources (opts : CreateContainerOpts) (h : HostConfig) :
    (withUserVolume opts h).Resources = h.Resources := by
  unfold withUserVolume
  split <;> rfl

/-- Every container `ContainerCreate` creates gets the resources of
`hostResources`. -/
theorem hostConfigsOf_ContainerCreate (cfg : Config) (d : Daemon) (opts : CreateContainerOpts) :
    ∀ hc ∈ hostConfigsOf (ContainerCreate cfg d opts).trace,
      hc.Resources = hostResources cfg opts := by
  have key : ∀ (net0 : String) (h : HostConfig) (hist : List Call),
      hostConfigsOf hist = [] → h.Resources = hostResources cfg opts →
      ∀ hc ∈ hostConfigsOf (createFrom cfg d opts net0 h hist).trace,
        hc.Resources = hostResources cfg opts := by
    intro net0 h hist hhist hres hc hmem
    unfold hostConfigsOf at hmem hhist
    rw [createFrom_filterMap _ cfg d opts net0 h (fun _ _ => rfl) (fun _ _ _ _ => rfl)
      (fun _ => rfl) (fun _ => rfl) (fun _ => rfl),
      selectImage_filterMap _ cfg d opts (fun _ _ => rfl) (fun _ => rfl) (fun _ => rfl),
      hhist] at hmem
    split at hmem
    · simp only [Option.toList, List.nil_append, List.mem_singleton] at hmem
      rw [hmem, withUserVolume_Resources, hres]
    · simp at hmem
  intro hc hmem
  unfold ContainerCreate at hmem
  split at hmem
  · simp [hostConfigsOf] at hmem
  · split at hmem
    · dsimp only at hmem
      split at hmem
      · simp [hostConfigsOf] at hmem
      · unfold hostConfigsOf at hmem
        rw [deferredVolumeRemove_filterMap _ opts (fun _ _ => rfl)] at hmem
        exact key _ _ _ (by simp [hostConfigsOf]) rfl hc hmem
    · exact key _ _ _ (by simp [hostConfigsOf]) rfl hc hmem

/-- Claim C1, as stated, fails: with a default limit of 2048 MB, a maximum of
1024 MB and a request of 0 MB the container is created with 2048 MB. -/
theorem memory_default_exceeds_max :
    ∃ hc ∈ hostConfigsOf (ContainerCreate
        { sampleConfig with DefaultLimitMemory := 2048, DefaultMaxMemory := 1024 }
        healthyDaemon { sampleOpts with LimitMemory := 0 }).trace,
      ¬ hc.Resources.Memory ≤ 1024 * Megabyte := by
  decide

/-- Claim C1, amended: when the configured maximum memory is not negative, and
either the request is positive or the default limit lies between zero and the
maximum, the memory limit of every container that `ContainerCreate` creates,
in bytes, is at most the configured maximum, in megabytes.  Only a positive
request is clamped: the limit of a positive request is the smaller of the
request and the maximum, and the limit of a zero or negative request is the
default as it is configured, both in bytes as an `int64` and set when
positive. -/
theorem memory_le_max (cfg : Config) (d : Daemon) (opts : CreateContainerOpts) :
    (0 ≤ cfg.DefaultMaxMemory →
      (0 < opts.LimitMemory ∨
        (0 ≤ cfg.DefaultLimitMemory ∧ cfg.DefaultLimitMemory ≤ cfg.DefaultMaxMemory)) →
      (hostResources cfg opts).Memory ≤ cfg.DefaultMaxMemory * Megabyte ∧
      ∀ hc ∈ hostConfigsOf (ContainerCreate cfg d opts).trace,
        hc.Resources.Memory ≤ cfg.DefaultMaxMemory * Megabyte) ∧
    (0 < opts.LimitMemory →
      ∀ hc ∈ hostConfigsOf (ContainerCreate cfg d opts).trace,
        hc.Resources.Memory =
          max 0 (wrapInt64 (min opts.LimitMemory cfg.DefaultMaxMemory * Megabyte))) ∧
    (opts.LimitMemory ≤ 0 →
      ∀ hc ∈ hostConfigsOf (ContainerCreate cfg d opts).trace,
        hc.Resources.Memory = max 0 (wrapInt64 (cfg.DefaultLimitMemory * Megabyte))) := by
  have hfield : (hostResources cfg opts).Memory = max 0 (memoryLimit cfg opts) := by
    show (if memoryLimit cfg opts > 0 then memoryLimit cfg opts else 0) = _
    rw [max_def]
    split <;> split <;> omega
  refine ⟨?_, ?_, ?_⟩
  · intro hmax h
    have hM : Megabyte = 1048576 := by decide
    have key : memoryLimit cfg opts ≤ cfg.DefaultMaxMemory * Megabyte := by
      unfold memoryLimit
      rw [hM]
      split
      · split
        · exact wrapInt64_le_self (by omega)
        · exact le_trans (wrapInt64_le_self (by omega)) (by omega)
      · rcases h with h | ⟨h0, h1⟩
        · omega
        · exact le_trans (wrapInt64_le_self (by omega)) (by omega)
    have res : (hostResources cfg opts).Memory ≤ cfg.DefaultMaxMemory * Megabyte := by
      show (if memoryLimit cfg opts > 0 then memoryLimit cfg opts else 0) ≤ _
      split
      · exact key
      · rw [hM]; omega
    refine ⟨res, ?_⟩
    intro hc hmem
    rw [hostConfigsOf_ContainerCreate cfg d opts hc hmem]
    exact res
  · intro hpos hc hmem
    rw [hostConfigsOf_ContainerCreate cfg d opts hc hmem]
    show (hostResources cfg opts).Memory = _
    rw [hfield]
    have hlim : memoryLimit cfg opts =
        wrapInt64 (min opts.LimitMemory cfg.DefaultMaxMemory * Megabyte) := by
      unfold memoryLimit
      rw [if_pos hpos, min_def]
      by_cases hgt : opts.LimitMemory > cfg.DefaultMaxMemory
      · have : ¬ opts.LimitMemory ≤ cfg.DefaultMaxMemory := by omega
        simp [hgt, this]
      · have : opts.LimitMemory ≤ cfg.DefaultMaxMemory := by omega
        simp [hgt, this]
    rw [hlim]
  · intro hle hc hmem
    rw [hostConfigsOf_ContainerCreate cfg d opts hc hmem]
    show (hostResources cfg opts).Memory = _
    rw [hfield]
    have hlim : memoryLimit cfg opts = wrapInt64 (cfg.DefaultLimitMemory * Megabyte) := by
      unfold memoryLimit
      rw [if_neg (by omega)]
    rw [hlim]

/-- Witness for `memory_le_max`: a request of 16384 MB against a maximum of
8192 MB creates one container, with 8192 MB. -/
theorem memory_le_max_witness :
    (hostConfigsOf (ContainerCreate sampleConfig healthyDaemon
        { sampleOpts with LimitMemory := 16384 }).trace).map (fun hc => hc.Resources.Memory)
      = [8192 * Megabyte] ∧
    ∀ hc ∈ hostConfigsOf (ContainerCreate sampleConfig healthyDaemon
        { sampleOpts with LimitMemory := 16384 }).trace,
      hc.Resources.Memory ≤ 8192 * Megabyte :=
  ⟨by decide, ((memory_le_max sampleConfig healthyDaemon
    { sampleOpts with LimitMemory := 16384 }).1 (by decide) (Or.inl (by decide))).2⟩

/-- Claim C2, as stated, fails: with a default limit of 8 cores, a maximum of
4 cores and a request of 0 cores the container is created with 8 cores. -/
theorem cpu_default_exceeds_max :
    (hostConfigsOf (ContainerCreate
        { sampleConfig with DefaultLimitCPUCore := F64.fin 8, DefaultMaxCPUCore := F64.fin 4 }
        healthyDaemon { sampleOpts with LimitCPU := F64.fin 0 }).trace).map
        (fun hc => hc.Resources.NanoCPUsOf) = [some (F64.fin 8)] ∧
    F64.le (F64.fin 8) (F64.fin 4) = false := by
  decide

/-- Claim C2, amended: when the configured maximum CPU is not NaN, and either
the request is positive or the default limit is at most the maximum, the
effective CPU limit is at most the configured maximum, and so is the limit
from which NanoCPUs is computed for every container that `ContainerCreate`
creates.  Only a positive request is clamped: the limit of a positive request
is the maximum when the request is above it and the request otherwise, and
the limit of a request that is not positive is the default as it is
configured; NanoCPUs of every container created is computed from that limit
when it is positive. -/
theorem cpu_le_max (cfg : Config) (d : Daemon) (opts : CreateContainerOpts) :
    (cfg.DefaultMaxCPUCore.isNaN = false →
      (F64.gt opts.LimitCPU F64.zero = true ∨
        F64.le cfg.DefaultLimitCPUCore cfg.DefaultMaxCPUCore = true) →
      F64.le (cpuLimit cfg opts) cfg.DefaultMaxCPUCore = true ∧
      ∀ hc ∈ hostConfigsOf (ContainerCreate cfg d opts).trace,
        ∀ c, hc.Resources.NanoCPUsOf = some c → F64.le c cfg.DefaultMaxCPUCore = true) ∧
    (F64.gt opts.LimitCPU F64.zero = true →
      cpuLimit cfg opts = (if F64.gt opts.LimitCPU cfg.DefaultMaxCPUCore = true
        then cfg.DefaultMaxCPUCore else opts.LimitCPU)) ∧
    (F64.gt opts.LimitCPU F64.zero = false → cpuLimit cfg opts = cfg.DefaultLimitCPUCore) ∧
    (∀ hc ∈ hostConfigsOf (ContainerCreate cfg d opts).trace,
      hc.Resources.NanoCPUsOf =
        (if F64.gt (cpuLimit cfg opts) F64.zero = true then some (cpuLimit cfg opts) else none)) := by
  refine ⟨?_, ?_, ?_, ?_⟩
  · intro hmax h
    have key : F64.le (cpuLimit cfg opts) cfg.DefaultMaxCPUCore = true := by
      unfold cpuLimit
      split
      · rename_i hpos
        split
        · revert hmax
          cases cfg.DefaultMaxCPUCore <;> simp [F64.le, F64.isNaN]
        · rename_i hgt
          revert hmax hgt hpos
          cases cfg.DefaultMaxCPUCore <;> cases opts.LimitCPU <;>
            simp [F64.le, F64.gt, F64.isNaN, F64.zero]
      · rename_i hpos
        rcases h with h | h
        · exact absurd h hpos
        · exact h
    refine ⟨key, ?_⟩
    intro hc hmem c hc1
    rw [hostConfigsOf_ContainerCreate cfg d opts hc hmem] at hc1
    have hc2 : (if F64.gt (cpuLimit cfg opts) F64.zero then some (cpuLimit cfg opts) else none)
        = some c := hc1
    split at hc2
    · cases hc2; exact key
    · cases hc2
  · intro hpos
    unfold cpuLimit
    rw [if_pos hpos]
  · intro hnpos
    unfold cpuLimit
    rw [if_neg (by simp [hnpos])]
  · intro hc hmem
    rw [hostConfigsOf_ContainerCreate cfg d opts hc hmem]
    rfl

/-- Witness for `cpu_le_max`: a request of 16 cores against a maximum of 4
creates one container, with 4 cores. -/
theorem cpu_le_max_witness :
    (hostConfigsOf (ContainerCreate sampleConfig healthyDaemon
        { sampleOpts with LimitCPU := F64.fin 16 }).trace).map
        (fun hc => hc.Resources.NanoCPUsOf) = [some (F64.fin 4)] ∧
    F64.le (cpuLimit sampleConfig { sampleOpts with LimitCPU := F64.fin 16 }) (F64.fin 4)
      = true :=
  ⟨by decide, ((cpu_le_max sampleConfig healthyDaemon
    { sampleOpts with LimitCPU := F64.fin 16 }).1 (by decide) (Or.inl (by decide))).1⟩

/-- On every run, the only volume name `ContainerCreate` creates is the
container name, and the only volume name it removes is the session id. -/
theorem volume_names (cfg : Config) (d : Daemon) (opts : CreateContainerOpts) :
    (∀ name ∈ volumesCreated (ContainerCreate cfg d opts).trace, name = opts.ContainerName) ∧
    (∀ name ∈ volumesRemoved (ContainerCreate cfg d opts).trace, name = opts.SessionId) := by
  have hc : ∀ (net0 : String) (h : HostConfig) (hist : List Call),
      volumesCreated (createFrom cfg d opts net0 h hist).trace = volumesCreated hist := by
    intro net0 h hist
    unfold volumesCreated
    rw [createFrom_filterMap _ cfg d opts net0 h (fun _ _ => rfl) (fun _ _ _ _ => rfl)
      (fun _ => rfl) (fun _ => rfl) (fun _ => rfl),
      selectImage_filterMap _ cfg d opts (fun _ _ => rfl) (fun _ => rfl) (fun _ => rfl)]
    split <;> simp
  have hr : ∀ (net0 : String) (h : HostConfig) (hist : List Call),
      volumesRemoved (createFrom cfg d opts net0 h hist).trace = volumesRemoved hist := by
    intro net0 h hist
    unfold volumesRemoved
    rw [createFrom_filterMap _ cfg d opts net0 h (fun _ _ => rfl) (fun _ _ _ _ => rfl)
      (fun _ => rfl) (fun _ => rfl) (fun _ => rfl),
      selectImage_filterMap _ cfg d opts (fun _ _ => rfl) (fun _ => rfl) (fun _ => rfl)]
    split <;> simp
  unfold ContainerCreate
  split
  · simp [volumesCreated, volumesRemoved]
  · split
    · dsimp only
      split
      · simp [volumesCreated, volumesRemoved]
      · constructor
        · intro name hname
          unfold volumesCreated at hname
          rw [deferredVolumeRemove_filterMap _ opts (fun _ _ => rfl)] at hname
          have h0 : name ∈ volumesCreated (createFrom cfg d opts _ _ _).trace := hname
          rw [hc] at h0
          simpa [volumesCreated] using h0
        · intro name hname
          unfold deferredVolumeRemove at hname
          split at hname
          · unfold volumesRemoved at hname
            rw [List.filterMap_append] at hname
            have h0 : name ∈ volumesRemoved (createFrom cfg d opts _ _ _).trace ++
                [opts.SessionId] := hname
            rw [hr] at h0
            simpa [volumesRemoved] using h0
          · rw [hr] at hname
            simp [volumesRemoved] at hname
    · constructor
      · intro name hname
        rw [hc] at hname
        simp [volumesCreated] at hname
      · intro name hname
        rw [hr] at hname
        simp [volumesRemoved] at hname

/-- Claim C4: with the external volume enabled and a container that cannot be
started, `ContainerCreate` fails, having created the volume `node1_abcdefgh`
and removed the volume `abcdefgh`. -/
theorem volume_rollback_other_name :
    (ContainerCreate { sampleConfig with ExternalDindVolume := true }
      { healthyDaemon with ContainerStart := fun _ => some "cannot start container" }
      sampleOpts).outcome = Outcome.returned (some "cannot start container") ∧
    volumesCreated (ContainerCreate { sampleConfig with ExternalDindVolume := true }
      { healthyDaemon with ContainerStart := fun _ => some "cannot start container" }
      sampleOpts).trace = ["node1_abcdefgh"] ∧
    volumesRemoved (ContainerCreate { sampleConfig with ExternalDindVolume := true }
      { healthyDaemon with ContainerStart := fun _ => some "cannot start container" }
      sampleOpts).trace = ["abcdefgh"] := by
  decide

/-- The invocations of `PullImage`: when `ContainerCreate` reaches the image
selection (there is a first network, and the volume step, if any, did not
fail), it invokes `PullImage` if and only if the search failed, or returned no
result, or always-pull is set; it invokes it for no other image than the
requested one; and when the search succeeds with a result and always-pull is
off it invokes it not at all and creates the container from the requested
image. -/
theorem pull_iff (cfg : Config) (d : Daemon) (opts : CreateContainerOpts)
    (hnet : opts.Networks ≠ [])
    (hvol : cfg.ExternalDindVolume = true → d.VolumeCreate (traceBeforeSearch cfg opts) = none) :
    (pullsOf (ContainerCreate cfg d opts).trace ≠ [] ↔
      ((searchAnswer cfg d opts).2 ≠ none ∨ (searchAnswer cfg d opts).1 = 0 ∨
        cfg.AlwaysPull = true)) ∧
    (∀ image ∈ pullsOf (ContainerCreate cfg d opts).trace, image = opts.Image) ∧
    ((searchAnswer cfg d opts).2 = none → 0 < (searchAnswer cfg d opts).1 →
      cfg.AlwaysPull = false →
      pullsOf (ContainerCreate cfg d opts).trace = [] ∧
      (containerConfigsOf (ContainerCreate cfg d opts).trace).map (fun cf => cf.Image)
        = [opts.Image]) := by
  obtain ⟨net0, rest, hnet0⟩ := List.exists_cons_of_ne_nil hnet
  have hrun := ContainerCreate_reaches_search cfg d opts net0 rest hnet0 hvol
  have hpre : pullsOf (traceBeforeSearch cfg opts) = [] := by
    unfold traceBeforeSearch pullsOf
    split <;> rfl
  have hpulls : pullsOf (ContainerCreate cfg d opts).trace
      = pullsOf (selectImage cfg d opts (traceBeforeSearch cfg opts)).1 := by
    rw [hrun]
    unfold pullsOf
    split
    · rw [deferredVolumeRemove_filterMap _ opts (fun _ _ => rfl),
        createFrom_filterMap _ cfg d opts net0 _ (fun _ _ => rfl) (fun _ _ _ _ => rfl)
          (fun _ => rfl) (fun _ => rfl) (fun _ => rfl)]
      split <;> simp
    · rw [createFrom_filterMap _ cfg d opts net0 _ (fun _ _ => rfl) (fun _ _ _ _ => rfl)
          (fun _ => rfl) (fun _ => rfl) (fun _ => rfl)]
      split <;> simp
  obtain ⟨n, hn, hiff⟩ := selectImage_pulls cfg d opts (traceBeforeSearch cfg opts)
  rw [hpre, List.nil_append] at hn
  refine ⟨?_, ?_, ?_⟩
  · rw [hpulls, hn]
    unfold searchAnswer
    rw [← hiff]
    cases n <;> simp [List.replicate]
  · intro image himage
    rw [hpulls, hn] at himage
    exact List.eq_of_mem_replicate himage
  · intro herr hpos halways
    have hzero : n = 0 := by
      by_contra hne
      have := hiff.1 (Nat.pos_of_ne_zero hne)
      unfold searchAnswer at herr hpos
      rcases this with h1 | h1 | h1
      · exact h1 herr
      · omega
      · rw [halways] at h1; cases h1
    refine ⟨by rw [hpulls, hn, hzero]; rfl, ?_⟩
    have hsel : (selectImage cfg d opts (traceBeforeSearch cfg opts)).2 = none := by
      unfold searchAnswer at herr hpos
      simp only [selectImage, herr]
      have hne : (d.ImageSearch (traceBeforeSearch cfg opts ++
          [Call.ImageSearch opts.Image 5])).1 ≠ 0 := by omega
      simp [hne, halways]
    have hcf : containerConfigsOf (traceBeforeSearch cfg opts) = [] := by
      unfold traceBeforeSearch containerConfigsOf
      split <;> rfl
    rw [hrun]
    unfold containerConfigsOf at hcf ⊢
    split
    · rw [deferredVolumeRemove_filterMap _ opts (fun _ _ => rfl),
        createFrom_filterMap _ cfg d opts net0 _ (fun _ _ => rfl) (fun _ _ _ _ => rfl)
          (fun _ => rfl) (fun _ => rfl) (fun _ => rfl),
        selectImage_filterMap _ cfg d opts (fun _ _ => rfl) (fun _ => rfl) (fun _ => rfl),
        hcf, hsel]
      rfl
    · rw [createFrom_filterMap _ cfg d opts net0 _ (fun _ _ => rfl) (fun _ _ _ _ => rfl)
          (fun _ => rfl) (fun _ => rfl) (fun _ => rfl),
        selectImage_filterMap _ cfg d opts (fun _ _ => rfl) (fun _ => rfl) (fun _ => rfl),
        hcf, hsel]
      rfl

/-- The image is found and always-pull is off, so `PullImage` is not
invoked. -/
theorem pull_iff_witness :
    pullsOf (ContainerCreate sampleConfig healthyDaemon sampleOpts).trace = [] ∧
    (containerConfigsOf (ContainerCreate sampleConfig healthyDaemon sampleOpts).trace).map
      (fun cf => cf.Image) = ["franela/dind"] :=
  (pull_iff sampleConfig healthyDaemon sampleOpts (by decide) (by decide)).2.2
    (by decide) (by decide) (by decide)

/-- Claim C10: for the networks `abcdefgh` and `extra`, `ContainerCreate`
attaches the container to `abcdefgh` with the aliases at create time, and
then connects `abcdefgh` again before `extra`. -/
theorem connects_primary_again :
    networkConfsOf (ContainerCreate sampleConfig healthyDaemon
      { sampleOpts with Networks := ["abcdefgh", "extra"] }).trace
      = [{ EndpointsConfig := [("abcdefgh", ["node1"])] }] ∧
    connectsOf (ContainerCreate sampleConfig healthyDaemon
      { sampleOpts with Networks := ["abcdefgh", "extra"] }).trace = ["abcdefgh", "extra"] ∧
    connectsOf (ContainerCreate sampleConfig healthyDaemon
      { sampleOpts with Networks := ["abcdefgh", "extra"] }).trace
      ≠ List.drop 1 ["abcdefgh", "extra"] := by
  decide

end docker

namespace handlers

open types

/-- The calls and the response of `sessionFrom`: either the duration is
rejected and no call is added, or `SessionNew` is called with the checked
duration and the response follows from its answer. -/
theorem sessionFrom_cases (env : Env) (req : Request) (pg : Playground)
    (userId stack : String) (calls : List CoreCall) :
    (∃ resp logs, sessionDuration env req pg = Except.error (resp, logs) ∧
      sessionFrom env req pg userId stack calls = ⟨resp, calls, logs⟩) ∨
    (∃ duration, sessionDuration env req pg = Except.ok duration ∧
      ((∃ err, env.SessionNew ⟨pg, userId, duration, stack, req.FormGet "stack_name",
            req.FormGet "image_name"⟩ = Except.error err ∧
          (sessionFrom env req pg userId stack calls).calls = calls ++
            [CoreCall.SessionNew ⟨pg, userId, duration, stack, req.FormGet "stack_name",
              req.FormGet "image_name"⟩] ∧
          (sessionFrom env req pg userId stack calls).resp =
            if env.OutOfCapacity err then httpRedirect "/ooc" StatusFound
            else httpRedirect "/500" StatusInternalServerError) ∨
       (∃ s, env.SessionNew ⟨pg, userId, duration, stack, req.FormGet "stack_name",
            req.FormGet "image_name"⟩ = Except.ok s ∧
          sessionFrom env req pg userId stack calls =
            sessionCreated env req stack (req.FormGet "image_name") s (calls ++
              [CoreCall.SessionNew ⟨pg, userId, duration, stack, req.FormGet "stack_name",
                req.FormGet "image_name"⟩])))) := by
  unfold sessionFrom
  cases hd : sessionDuration env req pg with
  | error x =>
    obtain ⟨resp, logs⟩ := x
    exact Or.inl ⟨resp, logs, rfl, rfl⟩
  | ok duration =>
    refine Or.inr ⟨duration, rfl, ?_⟩
    dsimp only
    cases hs : env.SessionNew ⟨pg, userId, duration, stack, req.FormGet "stack_name",
        req.FormGet "image_name"⟩ with
    | error err =>
      refine Or.inl ⟨err, rfl, ?_, ?_⟩
      · dsimp only
        split <;> rfl
      · dsimp only
        split <;> simp [*]
    | ok s => exact Or.inr ⟨s, rfl, rfl⟩

/-- The ways `NewSession` ends: before the duration check, with status 400,
403 or 500 and no further call on the core, or as `sessionFrom` says. -/
theorem NewSession_cases (env : Env) (req : Request) :
    (∃ code logs, (code = StatusBadRequest ∨ code = StatusForbidden ∨
        code = StatusInternalServerError) ∧
      NewSession env req =
        ⟨writeHeader code, [CoreCall.PlaygroundFindByDomain req.Host], logs⟩) ∨
    (∃ pg userId stack, env.PlaygroundFindByDomain req.Host = some pg ∧
      NewSession env req =
        sessionFrom env req pg userId stack [CoreCall.PlaygroundFindByDomain req.Host]) := by
  unfold NewSession
  dsimp only
  cases hpg : env.PlaygroundFindByDomain req.Host with
  | none => exact Or.inl ⟨_, _, Or.inl rfl, rfl⟩
  | some pg =>
    dsimp only
    split
    · rename_i resp huser
      split at huser
      · split at huser
        · cases huser
          exact Or.inl ⟨_, _, Or.inr (Or.inl rfl), rfl⟩
        · cases huser
      · cases huser
    · rename_i userId huser
      split
      · split
        · exact Or.inl ⟨_, _, Or.inr (Or.inr rfl), rfl⟩
        · exact Or.inl ⟨_, _, Or.inl rfl, rfl⟩
        · exact Or.inr ⟨pg, userId, _, rfl, rfl⟩
      · exact Or.inr ⟨pg, userId, _, rfl, rfl⟩

theorem sessionDuration_above (env : Env) (req : Request) (pg : Playground) (d : Int)
    (hne : req.FormGet "session-duration" ≠ "")
    (hd : env.ParseDuration (req.FormGet "session-duration") = Except.ok d)
    (hgt : d > pg.DefaultSessionDuration) :
    sessionDuration env req pg = Except.error (writeHeader StatusBadRequest,
      [LogLine.durationAboveMaximum d pg.DefaultSessionDuration]) := by
  unfold sessionDuration
  simp [hne, hd, hgt]

theorem sessionDuration_ok (env : Env) (req : Request) (pg : Playground) (d : Int)
    (h : sessionDuration env req pg = Except.ok d) :
    d ≤ pg.DefaultSessionDuration ∧
    (if req.FormGet "session-duration" = "" then d = pg.DefaultSessionDuration
      else env.ParseDuration (req.FormGet "session-duration") = Except.ok d) := by
  unfold sessionDuration at h
  dsimp only at h
  split at h
  · rename_i hne
    split at h
    · cases h
    · rename_i d1 hd1
      split at h
      · cases h
      · rename_i hle
        cases h
        exact ⟨by omega, by simp [hne, hd1]⟩
  · rename_i hempty
    cases h
    simp only [ne_eq, not_not] at hempty
    exact ⟨le_refl _, by simp [hempty]⟩

theorem sessionCreated_calls (env : Env) (req : Request) (stack imageName : String)
    (s : Session) (calls : List CoreCall) :
    (sessionCreated env req stack imageName s calls).calls =
      if stack = "" then
        calls ++ [CoreCall.InstanceNew s (defaultInstanceConfig req imageName)]
      else calls := by
  unfold sessionCreated
  dsimp only
  split <;> rfl

/-- A request that passes the checks made before the duration check goes on
to the duration check. -/
theorem NewSession_passes_checks (env : Env) (req : Request) (pg : Playground)
    (hpg : env.PlaygroundFindByDomain req.Host = some pg)
    (hcookie : env.providerCount pg.Id = 0 ∨ ∃ id, env.ReadCookie req = Except.ok id)
    (hstack : req.FormGet "stack" = "" ∨
      stackExists env (formatStack env (req.FormGet "stack")) = Except.ok true) :
    ∃ userId stack, NewSession env req =
      sessionFrom env req pg userId stack [CoreCall.PlaygroundFindByDomain req.Host] := by
  unfold NewSession
  simp only [hpg]
  by_cases hprov : env.providerCount pg.Id > 0
  · have hp0 : env.providerCount pg.Id ≠ 0 := by omega
    rcases hcookie with h0 | ⟨id, hid⟩
    · exact absurd h0 hp0
    · rcases hstack with hs | hs
      · exact ⟨id, "", by simp [hprov, hid, hs]⟩
      · by_cases hs0 : req.FormGet "stack" = ""
        · exact ⟨id, "", by simp [hprov, hid, hs0]⟩
        · exact ⟨id, formatStack env (req.FormGet "stack"), by simp [hprov, hid, hs0, hs]⟩
  · rcases hstack with hs | hs
    · exact ⟨"", "", by simp [hprov, hs]⟩
    · by_cases hs0 : req.FormGet "stack" = ""
      · exact ⟨"", "", by simp [hprov, hs0]⟩
      · exact ⟨"", formatStack env (req.FormGet "stack"), by simp [hprov, hs0, hs]⟩

/-- The duration check lets the default and every given duration at most the
default through. -/
theorem sessionDuration_accepts (env : Env) (req : Request) (pg : Playground) (d : Int)
    (hd : if req.FormGet "session-duration" = "" then d = pg.DefaultSessionDuration
      else env.ParseDuration (req.FormGet "session-duration") = Except.ok d ∧
        d ≤ pg.DefaultSessionDuration) :
    sessionDuration env req pg = Except.ok d := by
  unfold sessionDuration
  by_cases hne : req.FormGet "session-duration" = ""
  · rw [if_pos hne] at hd
    simp [hne, hd]
  · rw [if_neg hne] at hd
    have : ¬ d > pg.DefaultSessionDuration := by omega
    simp [hne, hd.1, this]

/-- Once the duration is let through, `SessionNew` is called with it. -/
theorem sessionFrom_calls_SessionNew (env : Env) (req : Request) (pg : Playground)
    (userId stack : String) (calls : List CoreCall) (d : Int)
    (hd : sessionDuration env req pg = Except.ok d) :
    CoreCall.SessionNew ⟨pg, userId, d, stack, req.FormGet "stack_name",
      req.FormGet "image_name"⟩ ∈ (sessionFrom env req pg userId stack calls).calls := by
  rcases sessionFrom_cases env req pg userId stack calls with
    ⟨resp, logs, hrej, _⟩ | ⟨duration, hdur, ⟨err, _, hcalls, _⟩ | ⟨s, _, hfrom⟩⟩
  · rw [hd] at hrej
    cases hrej
  · rw [hd] at hdur
    cases hdur
    rw [hcalls]
    simp
  · rw [hd] at hdur
    cases hdur
    rw [hfrom, sessionCreated_calls]
    split <;> simp

/-- Claim C5, as stated, fails: a post of `session-duration=8h` to a
playground of four hours that requires a login, without a readable cookie, is
answered 403, not 400. -/
theorem duration_above_max_forbidden :
    sampleEnv.ParseDuration "8h" = Except.ok (8 * 3600 * 1000000000) ∧
    (8 * 3600 * 1000000000 : Int) > samplePlayground.DefaultSessionDuration ∧
    (NewSession { sampleEnv with providerCount := fun _ => 1 }
      (sampleRequest [("session-duration", "8h")])).resp.status = 403 :=
  ⟨rfl, by decide, by decide⟩

/-- Claim C5, amended: for every request to a known playground whose
session-duration value is given and parses to a duration strictly greater
than the default of the playground, `NewSession` makes no call on the core
after the lookup of the playground, so `SessionNew` and `InstanceNew` are
never called; the status is 400, 403 or 500; and it is 400 when the request
passes the checks made before the duration check: the login cookie reads when
providers are configured, and the lookup of the stack, when one is named,
does not fail.  It is 403 when providers are configured and the cookie does
not read, and 500 when the cookie check passes and the lookup of the stack
fails. -/
theorem duration_above_max_rejected (env : Env) (req : Request) (pg : Playground) (d : Int)
    (hpg : env.PlaygroundFindByDomain req.Host = some pg)
    (hne : req.FormGet "session-duration" ≠ "")
    (hd : env.ParseDuration (req.FormGet "session-duration") = Except.ok d)
    (hgt : d > pg.DefaultSessionDuration) :
    (NewSession env req).calls = [CoreCall.PlaygroundFindByDomain req.Host] ∧
    ((NewSession env req).resp = writeHeader StatusBadRequest ∨
      (NewSession env req).resp = writeHeader StatusForbidden ∨
      (NewSession env req).resp = writeHeader StatusInternalServerError) ∧
    ((env.providerCount pg.Id = 0 ∨ ∃ id, env.ReadCookie req = Except.ok id) →
      (req.FormGet "stack" = "" ∨
        ∀ err, stackExists env (formatStack env (req.FormGet "stack")) ≠ Except.error err) →
      (NewSession env req).resp = writeHeader StatusBadRequest) ∧
    (0 < env.providerCount pg.Id → ∀ err, env.ReadCookie req = Except.error err →
      (NewSession env req).resp = writeHeader StatusForbidden) ∧
    ((env.providerCount pg.Id = 0 ∨ ∃ id, env.ReadCookie req = Except.ok id) →
      req.FormGet "stack" ≠ "" →
      ∀ err, stackExists env (formatStack env (req.FormGet "stack")) = Except.error err →
      (NewSession env req).resp = writeHeader StatusInternalServerError) := by
  have hrej : ∀ userId stack calls, sessionFrom env req pg userId stack calls =
      ⟨writeHeader StatusBadRequest, calls,
        [LogLine.durationAboveMaximum d pg.DefaultSessionDuration]⟩ := by
    intro userId stack calls
    unfold sessionFrom
    rw [sessionDuration_above env req pg d hne hd hgt]
  unfold NewSession
  simp only [hpg, hrej]
  by_cases hprov : env.providerCount pg.Id > 0
  · have hp0 : env.providerCount pg.Id ≠ 0 := by omega
    cases hcookie : env.ReadCookie req with
    | error e => simp [hprov, hp0]
    | ok id =>
      by_cases hstack : req.FormGet "stack" = ""
      · simp [hprov, hstack]
      · cases hex : stackExists env (formatStack env (req.FormGet "stack")) with
        | error e => simp [hprov, hstack]
        | ok b => cases b <;> simp [hprov, hstack]
  · by_cases hstack : req.FormGet "stack" = ""
    · simp [hprov, hstack]
    · cases hex : stackExists env (formatStack env (req.FormGet "stack")) with
      | error e => simp [hprov, hstack]
      | ok b => cases b <;> simp [hprov, hstack]

/-- Witness for `duration_above_max_rejected`: a post of `session-duration=8h`
to the playground of four hours is answered 400 and only looks the playground
up. -/
theorem duration_above_max_rejected_witness :
    (NewSession sampleEnv (sampleRequest [("session-duration", "8h")])).calls
      = [CoreCall.PlaygroundFindByDomain "localhost"] ∧
    (NewSession sampleEnv (sampleRequest [("session-duration", "8h")])).resp
      = writeHeader StatusBadRequest :=
  have h := duration_above_max_rejected sampleEnv (sampleRequest [("session-duration", "8h")])
    samplePlayground (8 * 3600 * 1000000000) rfl (by decide) rfl (by decide)
  ⟨h.1, h.2.2.1 (Or.inl (by decide)) (Or.inl (by decide))⟩

/-- Claim C6, as stated, fails: a post of `session-duration=-1h` makes
`NewSession` call `SessionNew` with a negative duration. -/
theorem negative_duration_passed :
    ∃ cfg, CoreCall.SessionNew cfg ∈
        (NewSession sampleEnv (sampleRequest [("session-duration", "-1h")])).calls ∧
      ¬ (0 < cfg.Duration) :=
  ⟨⟨samplePlayground, "", -(3600 * 1000000000), "", "", ""⟩, by decide, by decide⟩

/-- Claim C6, amended: every duration that `NewSession` passes to
`SessionNew` is at most the default of the playground found for the host, and
is the requested session-duration as parsed when one is given, and the
default of the playground when none is; so it is strictly positive exactly
when that value is.  And no duration at most the default is rejected: for a
request that passes the checks made before the duration check (the playground
is found, the login cookie reads when providers are configured, the stack,
when one is named, is found), `SessionNew` is called with the given duration
whenever it parses and is at most the default, and with the default when none
is given. -/
theorem duration_passed (env : Env) (req : Request) :
    (∀ cfg, CoreCall.SessionNew cfg ∈ (NewSession env req).calls →
      env.PlaygroundFindByDomain req.Host = some cfg.Playground ∧
      cfg.Duration ≤ cfg.Playground.DefaultSessionDuration ∧
      (if req.FormGet "session-duration" = "" then
        cfg.Duration = cfg.Playground.DefaultSessionDuration
      else env.ParseDuration (req.FormGet "session-duration") = Except.ok cfg.Duration)) ∧
    (∀ pg d, env.PlaygroundFindByDomain req.Host = some pg →
      (env.providerCount pg.Id = 0 ∨ ∃ id, env.ReadCookie req = Except.ok id) →
      (req.FormGet "stack" = "" ∨
        stackExists env (formatStack env (req.FormGet "stack")) = Except.ok true) →
      (if req.FormGet "session-duration" = "" then d = pg.DefaultSessionDuration
        else env.ParseDuration (req.FormGet "session-duration") = Except.ok d ∧
          d ≤ pg.DefaultSessionDuration) →
      ∃ cfg, CoreCall.SessionNew cfg ∈ (NewSession env req).calls ∧ cfg.Playground = pg ∧
        cfg.Duration = d) := by
  constructor
  · intro cfg h
    rcases NewSession_cases env req with ⟨code, logs, _, heq⟩ | ⟨pg, userId, stack, hpg, heq⟩
    · rw [heq] at h
      simp at h
    · rw [heq] at h
      rcases sessionFrom_cases env req pg userId stack
        [CoreCall.PlaygroundFindByDomain req.Host] with
        ⟨resp, logs, _, hfrom⟩ | ⟨duration, hdur, ⟨err, _, hcalls, _⟩ | ⟨s, _, hfrom⟩⟩
      · rw [hfrom] at h
        simp at h
      · rw [hcalls] at h
        simp only [List.singleton_append, List.mem_cons, List.mem_singleton, List.mem_nil_iff,
          or_false, false_or, reduceCtorEq, CoreCall.SessionNew.injEq] at h
        subst h
        exact ⟨hpg, sessionDuration_ok env req pg duration hdur⟩
      · rw [hfrom, sessionCreated_calls] at h
        have h1 : cfg = ⟨pg, userId, duration, stack, req.FormGet "stack_name",
            req.FormGet "image_name"⟩ := by
          split at h <;> simpa using h
        subst h1
        exact ⟨hpg, sessionDuration_ok env req pg duration hdur⟩
  · intro pg d hpg hcookie hstack hd
    obtain ⟨userId, stack, heq⟩ := NewSession_passes_checks env req pg hpg hcookie hstack
    refine ⟨⟨pg, userId, d, stack, req.FormGet "stack_name", req.FormGet "image_name"⟩,
      ?_, rfl, rfl⟩
    rw [heq]
    exact sessionFrom_calls_SessionNew env req pg userId stack _ d
      (sessionDuration_accepts env req pg d hd)

/-- Witness for `duration_passed`: a post of `session-duration=1h` to the
playground of four hours, and a post of `session-duration=-1h`, are passed to
`SessionNew`. -/
theorem duration_passed_witness :
    (sampleEnv.PlaygroundFindByDomain "localhost" = some samplePlayground ∧
      (3600 * 1000000000 : Int) ≤ samplePlayground.DefaultSessionDuration ∧
      sampleEnv.ParseDuration "1h" = Except.ok (3600 * 1000000000)) ∧
    (∃ cfg, CoreCall.SessionNew cfg ∈
        (NewSession sampleEnv (sampleRequest [("session-duration", "-1h")])).calls ∧
      cfg.Playground = samplePlayground ∧ cfg.Duration = -(3600 * 1000000000)) :=
  ⟨(duration_passed sampleEnv (sampleRequest [("session-duration", "1h")])).1
      ⟨samplePlayground, "", 3600 * 1000000000, "", "", ""⟩ (by decide),
    (duration_passed sampleEnv (sampleRequest [("session-duration", "-1h")])).2
      samplePlayground (-(3600 * 1000000000)) rfl (Or.inl (by decide)) (Or.inl (by decide))
      (by rw [if_neg (by decide)]; exact ⟨rfl, by decide⟩)⟩

/-- Claim C7 fails on the code: when the creation of the default instance
fails with an error classified as out of capacity, `NewSession` only logs it
and redirects to the page of the session, not to `/ooc`; the same error from
`SessionNew` is answered with the redirect to `/ooc`. -/
theorem instance_out_of_capacity_not_ooc :
    sampleEnv.OutOfCapacity "out of capacity" = true ∧
    LogLine.defaultInstanceError "abcdefgh" "out of capacity" ∈
      (NewSession { sampleEnv with InstanceNew := fun _ _ => some "out of capacity" }
        (sampleRequest [])).logs ∧
    (NewSession { sampleEnv with InstanceNew := fun _ _ => some "out of capacity" }
      (sampleRequest [])).resp = ⟨302, some "/p/abcdefgh", none⟩ ∧
    (NewSession { sampleEnv with SessionNew := fun _ => Except.error "out of capacity" }
      (sampleRequest [])).resp = ⟨302, some "/ooc", none⟩ := by
  decide

/-- Whenever `NewSession` creates the default instance of a new session,
whatever the outcome of the creation, it answers as for a created session,
with status 302 and Location `/p/` followed by the session id, or with status
200 and the JSON body for an `XMLHttpRequest`; an error of the creation is
only logged. -/
theorem instance_error_ignored (env : Env) (req : Request) (s : Session)
    (icfg : InstanceConfig)
    (h : CoreCall.InstanceNew s icfg ∈ (NewSession env req).calls) :
    (NewSession env req).resp =
      (if req.XRequestedWith = "XMLHttpRequest" then
        ⟨StatusOK, none, some ⟨s.Id, req.Host⟩⟩
      else httpRedirect ("/p/" ++ s.Id) StatusFound) ∧
    ∀ err, env.InstanceNew s icfg = some err →
      LogLine.defaultInstanceError s.Id err ∈ (NewSession env req).logs := by
  rcases NewSession_cases env req with ⟨code, logs, _, heq⟩ | ⟨pg, userId, stack, hpg, heq⟩
  · rw [heq] at h
    simp at h
  · rw [heq] at h ⊢
    rcases sessionFrom_cases env req pg userId stack
      [CoreCall.PlaygroundFindByDomain req.Host] with
      ⟨resp, logs, _, hfrom⟩ | ⟨duration, hdur, ⟨err, _, hcalls, _⟩ | ⟨s1, _, hfrom⟩⟩
    · rw [hfrom] at h
      simp at h
    · rw [hcalls] at h
      simp at h
    · rw [hfrom] at h ⊢
      rw [sessionCreated_calls] at h
      by_cases hstack : stack = ""
      · have h2 : s = s1 ∧ icfg = defaultInstanceConfig req (req.FormGet "image_name") := by
          simpa [hstack] using h
        obtain ⟨hs, hi⟩ := h2
        subst hs hi
        unfold sessionCreated
        dsimp only
        refine ⟨by split <;> rfl, ?_⟩
        intro err herr
        simp only [hstack, if_true, herr]
        split <;> simp
      · simp [hstack] at h

/-- The creation of the default instance fails as out of capacity: the
answer is the page of the session. -/
theorem instance_error_ignored_witness :
    (NewSession { sampleEnv with InstanceNew := fun _ _ => some "out of capacity" }
      (sampleRequest [])).resp = httpRedirect ("/p/" ++ "abcdefgh") StatusFound :=
  (instance_error_ignored { sampleEnv with InstanceNew := fun _ _ => some "out of capacity" }
    (sampleRequest []) ⟨"abcdefgh"⟩ (defaultInstanceConfig (sampleRequest []) "")
    (by decide)).1

/-- Claim C8: whenever `SessionNew`, called by `NewSession`, returns an error
that `OutOfCapacity` classifies as out of capacity, the response is a 302
redirect to `/ooc` and `InstanceNew` is not called. -/
theorem session_out_of_capacity (env : Env) (req : Request) (cfg : SessionConfig) (err : Err)
    (hcall : CoreCall.SessionNew cfg ∈ (NewSession env req).calls)
    (herr : env.SessionNew cfg = Except.error err)
    (hooc : env.OutOfCapacity err = true) :
    (NewSession env req).resp = httpRedirect "/ooc" StatusFound ∧
    (NewSession env req).resp.status = 302 ∧
    ∀ s icfg, CoreCall.InstanceNew s icfg ∉ (NewSession env req).calls := by
  rcases NewSession_cases env req with ⟨code, logs, _, heq⟩ | ⟨pg, userId, stack, hpg, heq⟩
  · rw [heq] at hcall
    simp at hcall
  · rw [heq] at hcall ⊢
    rcases sessionFrom_cases env req pg userId stack
      [CoreCall.PlaygroundFindByDomain req.Host] with
      ⟨resp, logs, _, hfrom⟩ | ⟨duration, hdur, ⟨err1, herr1, hcalls, hresp⟩ | ⟨s1, hs1, hfrom⟩⟩
    · rw [hfrom] at hcall
      simp at hcall
    · rw [hcalls] at hcall
      simp only [List.singleton_append, List.mem_cons, List.mem_singleton, List.mem_nil_iff,
        or_false, false_or, reduceCtorEq, CoreCall.SessionNew.injEq] at hcall
      subst hcall
      rw [herr1] at herr
      cases herr
      rw [hresp, hcalls, hooc]
      refine ⟨rfl, rfl, ?_⟩
      intro s icfg hmem
      simp at hmem
    · rw [hfrom, sessionCreated_calls] at hcall
      have h1 : cfg = ⟨pg, userId, duration, stack, req.FormGet "stack_name",
          req.FormGet "image_name"⟩ := by
        split at hcall <;> simpa using hcall
      subst h1
      rw [hs1] at herr
      cases herr

/-- Witness for `session_out_of_capacity`: the core is out of capacity. -/
theorem session_out_of_capacity_witness :
    (NewSession { sampleEnv with SessionNew := fun _ => Except.error "out of capacity" }
      (sampleRequest [])).resp = httpRedirect "/ooc" StatusFound :=
  (session_out_of_capacity
    { sampleEnv with SessionNew := fun _ => Except.error "out of capacity" }
    (sampleRequest []) ⟨samplePlayground, "", samplePlayground.DefaultSessionDuration, "", "", ""⟩
    "out of capacity" (by decide) rfl (by decide)).1

end handlers

namespace docker

open config

/-- For a positive finite value that fits in an `int64`, Go `int(x)` is the
floor. -/
theorem toInt_eq_floor (q : ℚ) (hq : 0 < q) (hfit : ⌊q⌋ < 2 ^ 63) :
    F64.toInt (F64.fin q) = ⌊q⌋ := by
  have hnum : 0 ≤ q.num := le_of_lt (Rat.num_pos.2 hq)
  have hden : (0 : Int) ≤ (q.den : Int) := Int.natCast_nonneg _
  have hfl : Int.tdiv q.num q.den = ⌊q⌋ := by
    rw [Int.tdiv_eq_ediv hnum hden, Rat.floor_def]
  have h0 : 0 ≤ ⌊q⌋ := Int.floor_nonneg.2 (le_of_lt hq)
  simp only [F64.toInt, hfl, minInt64]
  rw [if_pos]
  constructor
  · omega
  · exact hfit

/-- Claim C11, as stated, fails: with a maximum and a request of `2^63` cores
the limit `2^63` is applied, its floor is above 1, and the container is
created with no cpuset, because `int(cpuLimit)` is out of the range of an
`int64` and is not positive. -/
theorem cpuset_out_of_range :
    (hostResources { sampleConfig with DefaultMaxCPUCore := F64.fin 9223372036854775808 }
        { sampleOpts with LimitCPU := F64.fin 9223372036854775808 }).NanoCPUsOf
        = some (F64.fin 9223372036854775808) ∧
    (1 : Int) < ⌊(9223372036854775808 : ℚ)⌋ ∧
    (hostConfigsOf (ContainerCreate
        { sampleConfig with DefaultMaxCPUCore := F64.fin 9223372036854775808 } healthyDaemon
        { sampleOpts with LimitCPU := F64.fin 9223372036854775808 }).trace).map
        (fun hc => hc.Resources.CpusetCpus) = [""] := by
  have hfl : ⌊(9223372036854775808 : ℚ)⌋ = 9223372036854775808 := by
    exact_mod_cast Int.floor_natCast (α := ℚ) 9223372036854775808
  refine ⟨by decide, ?_, by decide⟩
  rw [hfl]
  norm_num

/-- Claim C11, amended: for every effective CPU limit `c` that
`ContainerCreate` applies and that is finite with `floor(c)` below `2^63`,
the range of an `int64`, the cpuset is empty when `floor(c) = 0`, is `0` when
`floor(c) = 1` and is `0-` followed by `floor(c) - 1` in decimal when
`floor(c) > 1`; and that is the cpuset of every container it creates. -/
theorem cpuset_floor (cfg : Config) (d : Daemon) (opts : CreateContainerOpts) (q : ℚ)
    (happ : (hostResources cfg opts).NanoCPUsOf = some (F64.fin q))
    (hfit : ⌊q⌋ < 2 ^ 63) :
    (hostResources cfg opts).CpusetCpus =
      (if ⌊q⌋ = 0 then "" else if ⌊q⌋ = 1 then "0" else "0-" ++ fmtD (⌊q⌋ - 1)) ∧
    0 ≤ ⌊q⌋ ∧
    ∀ hc ∈ hostConfigsOf (ContainerCreate cfg d opts).trace,
      hc.Resources.CpusetCpus =
        (if ⌊q⌋ = 0 then "" else if ⌊q⌋ = 1 then "0" else "0-" ++ fmtD (⌊q⌋ - 1)) := by
  have happ2 : (if F64.gt (cpuLimit cfg opts) F64.zero then some (cpuLimit cfg opts) else none)
      = some (F64.fin q) := happ
  have hgt : F64.gt (cpuLimit cfg opts) F64.zero = true := by
    by_contra hn
    rw [if_neg hn] at happ2
    cases happ2
  rw [if_pos hgt] at happ2
  have hc : cpuLimit cfg opts = F64.fin q := Option.some.inj happ2
  have hq : 0 < q := by
    rw [hc] at hgt
    simpa [F64.gt, F64.zero] using hgt
  have h0 : 0 ≤ ⌊q⌋ := Int.floor_nonneg.2 (le_of_lt hq)
  have key : (hostResources cfg opts).CpusetCpus =
      (if ⌊q⌋ = 0 then "" else if ⌊q⌋ = 1 then "0" else "0-" ++ fmtD (⌊q⌋ - 1)) := by
    show (if F64.gt (cpuLimit cfg opts) F64.zero then cpusetFor (cpuLimit cfg opts) else "") = _
    rw [if_pos hgt, hc]
    simp only [cpusetFor, toInt_eq_floor q hq hfit]
    by_cases hz : ⌊q⌋ = 0
    · simp [hz]
    · have hpos : ⌊q⌋ > 0 := by omega
      simp [hz, hpos]
  refine ⟨key, h0, ?_⟩
  intro hc1 hmem
  rw [hostConfigsOf_ContainerCreate cfg d opts hc1 hmem]
  exact key

/-- Witness for `cpuset_floor`: a request of two and a half cores gets the
cpuset `0-1`. -/
theorem cpuset_floor_witness :
    (hostConfigsOf (ContainerCreate sampleConfig healthyDaemon
        { sampleOpts with LimitCPU := F64.fin (Rat.divInt 5 2) }).trace).map
        (fun hc => hc.Resources.CpusetCpus) = ["0-1"] ∧
    (hostResources sampleConfig { sampleOpts with LimitCPU := F64.fin (Rat.divInt 5 2) }).CpusetCpus
      = (if ⌊Rat.divInt 5 2⌋ = 0 then "" else if ⌊Rat.divInt 5 2⌋ = 1 then "0"
          else "0-" ++ fmtD (⌊Rat.divInt 5 2⌋ - 1)) :=
  have hfl : ⌊Rat.divInt 5 2⌋ = 2 := by
    rw [Int.floor_eq_iff]
    constructor <;> norm_num [Rat.divInt_eq_div]
  ⟨by decide, (cpuset_floor sampleConfig healthyDaemon
    { sampleOpts with LimitCPU := F64.fin (Rat.divInt 5 2) } (Rat.divInt 5 2) (by decide)
    (by rw [hfl]; norm_num)).1⟩

end docker

namespace docker

open config

/-- Every container `ContainerCreate` creates gets the configuration of
`containerConfig`. -/
theorem containerConfigsOf_ContainerCreate (cfg : Config) (d : Daemon)
    (opts : CreateContainerOpts) :
    ∀ cf ∈ containerConfigsOf (ContainerCreate cfg d opts).trace, cf = containerConfig opts := by
  have key : ∀ (net0 : String) (h : HostConfig) (hist : List Call),
      containerConfigsOf hist = [] →
      ∀ cf ∈ containerConfigsOf (createFrom cfg d opts net0 h hist).trace,
        cf = containerConfig opts := by
    intro net0 h hist hhist cf hmem
    unfold containerConfigsOf at hmem hhist
    rw [createFrom_filterMap _ cfg d opts net0 h (fun _ _ => rfl) (fun _ _ _ _ => rfl)
      (fun _ => rfl) (fun _ => rfl) (fun _ => rfl),
      selectImage_filterMap _ cfg d opts (fun _ _ => rfl) (fun _ => rfl) (fun _ => rfl),
      hhist] at hmem
    split at hmem
    · simpa [Option.toList] using hmem
    · simp at hmem
  intro cf hmem
  unfold ContainerCreate at hmem
  split at hmem
  · simp [containerConfigsOf] at hmem
  · split at hmem
    · dsimp only at hmem
      split at hmem
      · simp [containerConfigsOf] at hmem
      · unfold containerConfigsOf at hmem
        rw [deferredVolumeRemove_filterMap _ opts (fun _ _ => rfl)] at hmem
        exact key _ _ _ (by simp [containerConfigsOf]) cf hmem
    · exact key _ _ _ (by simp [containerConfigsOf]) cf hmem

/-- Claim C12: the environment `ContainerCreate` composes, and gives to every
container it creates, is the caller-supplied `Envs` in their order, then
`SESSION_ID`, then the `DOCKER_TLSCERT`, `DOCKER_TLSKEY` and
`DOCKER_TLSCACERT` entries of exactly those of `ServerCert`, `ServerKey` and
`CACert` that are non-empty, then one `DOCKER_TLSENABLE` entry, `true` exactly
when one of the three is non-empty, then `PWD_HOST_FQDN` as the last entry. -/
theorem container_env (cfg : Config) (d : Daemon) (opts : CreateContainerOpts) :
    containerEnv opts =
      opts.Envs ++ ["SESSION_ID=" ++ opts.SessionId] ++
        (if opts.ServerCert ≠ [] then ["DOCKER_TLSCERT=\\/opt\\/pwd\\/certs\\/cert.pem"] else []) ++
        (if opts.ServerKey ≠ [] then ["DOCKER_TLSKEY=\\/opt\\/pwd\\/certs\\/key.pem"] else []) ++
        (if opts.CACert ≠ [] then ["DOCKER_TLSCACERT=\\/opt\\/pwd\\/certs\\/ca.pem"] else []) ++
        [if opts.ServerCert ≠ [] ∨ opts.ServerKey ≠ [] ∨ opts.CACert ≠ []
          then "DOCKER_TLSENABLE=true" else "DOCKER_TLSENABLE=false"] ++
        ["PWD_HOST_FQDN=" ++ opts.HostFQDN] ∧
    ∀ cf ∈ containerConfigsOf (ContainerCreate cfg d opts).trace, cf.Env = containerEnv opts := by
  constructor
  · unfold containerEnv
    cases h1 : opts.ServerCert <;> cases h2 : opts.ServerKey <;> cases h3 : opts.CACert <;>
      simp
  · intro cf hmem
    rw [containerConfigsOf_ContainerCreate cfg d opts cf hmem]
    rfl

/-- Witness for `container_env`: a request with one caller-supplied variable
and a server certificate only. -/
theorem container_env_witness :
    (containerConfigsOf (ContainerCreate sampleConfig healthyDaemon
        { sampleOpts with Envs := ["FOO=bar"], ServerCert := [1] }).trace).map
        (fun cf => cf.Env) =
      [["FOO=bar", "SESSION_ID=abcdefgh", "DOCKER_TLSCERT=\\/opt\\/pwd\\/certs\\/cert.pem",
        "DOCKER_TLSENABLE=true", "PWD_HOST_FQDN=localhost"]] ∧
    ∀ cf ∈ containerConfigsOf (ContainerCreate sampleConfig healthyDaemon
        { sampleOpts with Envs := ["FOO=bar"], ServerCert := [1] }).trace,
      cf.Env = containerEnv { sampleOpts with Envs := ["FOO=bar"], ServerCert := [1] } :=
  ⟨by decide, (container_env sampleConfig healthyDaemon
    { sampleOpts with Envs := ["FOO=bar"], ServerCert := [1] }).2⟩

end docker

namespace docker

open config

/-! ### The readiness loop -/

/-- With as many iterations left as sleeps fit before the deadline, and one
more, the readiness loop returns. -/
theorem readyWait_returns (d : Daemon) (id : String) :
    ∀ fuel elapsed hist, readyDeadline ≤ elapsed + fuel * readySleep →
      ∃ e, (readyWait d id (fuel + 1) elapsed hist).outcome = Outcome.returned e := by
  intro fuel
  induction fuel with
  | zero =>
    intro elapsed hist h
    have hge : elapsed ≥ readyDeadline := by omega
    simp only [readyWait, hge, if_true]
    split <;> exact ⟨_, rfl⟩
  | succ fuel ih =>
    intro elapsed hist h
    simp only [readyWait]
    split
    · split <;> exact ⟨_, rfl⟩
    · split
      · exact ⟨_, rfl⟩
      · split
        · exact ⟨_, rfl⟩
        · split
          · exact ⟨_, rfl⟩
          · apply ih
            have hs : readySleep = 100 := rfl
            rw [hs] at h ⊢
            omega

/-- More iterations than needed change nothing. -/
theorem readyWait_fuel (d : Daemon) (id : String) :
    ∀ fuel elapsed hist, readyDeadline ≤ elapsed + fuel * readySleep →
      ∀ more, readyWait d id (fuel + 1 + more) elapsed hist
        = readyWait d id (fuel + 1) elapsed hist := by
  intro fuel
  induction fuel with
  | zero =>
    intro elapsed hist h more
    have hge : elapsed ≥ readyDeadline := by omega
    have e1 : 0 + 1 + more = more + 1 := by omega
    rw [e1]
    simp only [readyWait, hge, if_true]
  | succ fuel ih =>
    intro elapsed hist h more
    have e1 : fuel + 1 + 1 + more = (fuel + 1 + more) + 1 := by omega
    rw [e1]
    simp only [readyWait]
    split
    · rfl
    · split
      · rfl
      · split
        · rfl
        · split
          · rfl
          · apply ih
            have hs : readySleep = 100 := rfl
            rw [hs] at h ⊢
            omega

/-- The loop inspects at most once per iteration. -/
theorem readyWait_inspects (d : Daemon) (id : String) :
    ∀ fuel elapsed hist,
      (inspectsOf (readyWait d id fuel elapsed hist).trace).length
        ≤ (inspectsOf hist).length + fuel := by
  intro fuel
  induction fuel with
  | zero => intro elapsed hist; simp [readyWait]
  | succ fuel ih =>
    intro elapsed hist
    simp only [readyWait]
    split
    · split <;> simp [inspectsOf, List.filterMap_append]
    · split
      · simp [inspectsOf, List.filterMap_append]
      · split
        · simp [inspectsOf, List.filterMap_append]
        · split
          · simp [inspectsOf, List.filterMap_append]
          · refine le_trans (ih _ _) ?_
            simp [inspectsOf, List.filterMap_append]
            omega

end docker

namespace docker

open config

/-- A successful readiness loop ends with an inspect answered running. -/
theorem readyWait_success (d : Daemon) (id : String) :
    ∀ fuel elapsed hist,
      (readyWait d id fuel elapsed hist).outcome = Outcome.returned none →
      ∃ mid st, (readyWait d id fuel elapsed hist).trace
          = hist ++ mid ++ [Call.ContainerInspect id] ∧
        d.ContainerInspect (readyWait d id fuel elapsed hist).trace = Except.ok st ∧
        st.Running = true := by
  intro fuel
  induction fuel with
  | zero =>
    intro elapsed hist h
    simp [readyWait] at h
  | succ fuel ih =>
    intro elapsed hist
    simp only [readyWait]
    split
    · split <;> intro h <;> simp at h
    · split
      · intro h
        simp at h
      · rename_i st hst
        split
        · rename_i hrun
          intro _
          exact ⟨[], st, by simp, hst, hrun⟩
        · split
          · intro h
            simp at h
          · intro h
            obtain ⟨mid, st1, htr, hins, hrun⟩ := ih _ _ h
            refine ⟨[Call.ContainerInspect id, Call.Sleep readySleep] ++ mid, st1, ?_, hins, hrun⟩
            rw [htr]
            simp

theorem startAndWait_success (d : Daemon) (id : String) (hist : List Call)
    (h : (startAndWait d id hist).outcome = Outcome.returned none) :
    StartedAndSeenRunning d (startAndWait d id hist).trace := by
  unfold startAndWait at h ⊢
  dsimp only at h ⊢
  split
  · rename_i e he
    rw [he] at h
    simp at h
  · rename_i he
    rw [he] at h
    obtain ⟨mid, st, htr, hins, hrun⟩ := readyWait_success d id _ _ _ h
    exact ⟨id, hist, mid, st, htr, he, hins, hrun⟩

theorem copyCertsAndStart_success (d : Daemon) (opts : CreateContainerOpts) (id : String)
    (hist : List Call)
    (h : (copyCertsAndStart d opts id hist).outcome = Outcome.returned none) :
    StartedAndSeenRunning d (copyCertsAndStart d opts id hist).trace := by
  unfold copyCertsAndStart at h ⊢
  split at h
  · simp at h
  · split at h
    · simp at h
    · split at h
      · simp at h
      · exact startAndWait_success d id _ h

theorem createFrom_success (cfg : Config) (d : Daemon) (opts : CreateContainerOpts)
    (net0 : String) (hc : HostConfig) (hist : List Call)
    (h : (createFrom cfg d opts net0 hc hist).outcome = Outcome.returned none) :
    StartedAndSeenRunning d (createFrom cfg d opts net0 hc hist).trace := by
  unfold createFrom at h ⊢
  split at h
  · simp at h
  · dsimp only at h ⊢
    split at h
    · simp at h
    · split at h
      · simp at h
      · exact copyCertsAndStart_success d opts _ _ h

theorem deferredVolumeRemove_outcome (opts : CreateContainerOpts) (r : Run) :
    (deferredVolumeRemove opts r).outcome = r.outcome := by
  unfold deferredVolumeRemove
  split <;> rfl

theorem deferredVolumeRemove_of_success (opts : CreateContainerOpts) (r : Run)
    (h : r.outcome = Outcome.returned none) : deferredVolumeRemove opts r = r := by
  unfold deferredVolumeRemove
  split
  · rename_i e he
    rw [h] at he
    cases he
  · rfl

/-- A run of `ContainerCreate` that returns nil started the container and
ends with an inspect answered running. -/
theorem ContainerCreate_success (cfg : Config) (d : Daemon) (opts : CreateContainerOpts)
    (h : (ContainerCreate cfg d opts).outcome = Outcome.returned none) :
    StartedAndSeenRunning d (ContainerCreate cfg d opts).trace := by
  cases hnet : opts.Networks with
  | nil => simp [ContainerCreate, hnet] at h
  | cons net0 rest =>
    by_cases hv : cfg.ExternalDindVolume = true
    · cases hvc : d.VolumeCreate
          [Call.VolumeCreate "xfsvol" [("size", opts.DindVolumeSize)] opts.ContainerName] with
      | some e => simp [ContainerCreate, hnet, hv, hvc] at h
      | none =>
        simp only [ContainerCreate, hnet, hv, hvc, if_true] at h ⊢
        rw [deferredVolumeRemove_outcome] at h
        rw [deferredVolumeRemove_of_success opts _ h]
        exact createFrom_success cfg d opts _ _ _ h
    · simp only [ContainerCreate, hnet, hv] at h ⊢
      exact createFrom_success cfg d opts _ _ _ h

end docker

namespace docker

open config

theorem startAndWait_returns (d : Daemon) (id : String) (hist : List Call) :
    ∃ e, (startAndWait d id hist).outcome = Outcome.returned e := by
  unfold startAndWait
  dsimp only
  split
  · exact ⟨_, rfl⟩
  · exact readyWait_returns d id 100 0 _ (by decide)

theorem copyCertsAndStart_returns (d : Daemon) (opts : CreateContainerOpts) (id : String)
    (hist : List Call) :
    ∃ e, (copyCertsAndStart d opts id hist).outcome = Outcome.returned e := by
  unfold copyCertsAndStart
  split
  · exact ⟨_, rfl⟩
  · split
    · exact ⟨_, rfl⟩
    · split
      · exact ⟨_, rfl⟩
      · exact startAndWait_returns d id _

theorem createFrom_returns (cfg : Config) (d : Daemon) (opts : CreateContainerOpts)
    (net0 : String) (hc : HostConfig) (hist : List Call) :
    ∃ e, (createFrom cfg d opts net0 hc hist).outcome = Outcome.returned e := by
  unfold createFrom
  split
  · exact ⟨_, rfl⟩
  · dsimp only
    split
    · exact ⟨_, rfl⟩
    · split
      · exact ⟨_, rfl⟩
      · exact copyCertsAndStart_returns d opts _ _

/-- With a first network, `ContainerCreate` returns: it does not panic and
its readiness loop is not cut short. -/
theorem ContainerCreate_returns (cfg : Config) (d : Daemon) (opts : CreateContainerOpts)
    (hnet : opts.Networks ≠ []) :
    ∃ e, (ContainerCreate cfg d opts).outcome = Outcome.returned e := by
  cases hn : opts.Networks with
  | nil => exact absurd hn hnet
  | cons net0 rest =>
    by_cases hv : cfg.ExternalDindVolume = true
    · cases hvc : d.VolumeCreate
          [Call.VolumeCreate "xfsvol" [("size", opts.DindVolumeSize)] opts.ContainerName] with
      | some e =>
        simp only [ContainerCreate, hn, hv, hvc, if_true]
        exact ⟨_, rfl⟩
      | none =>
        simp only [ContainerCreate, hn, hv, hvc, if_true]
        rw [deferredVolumeRemove_outcome]
        exact createFrom_returns cfg d opts _ _ _
    · simp only [ContainerCreate, hn, hv]
      exact createFrom_returns cfg d opts _ _ _

/-- Claim C13: `ContainerCreate` returns nil only if the container was
started and an inspect of the readiness wait, the last call of the run,
reported `State.Running = true`; and on a daemon on which no inspect ever
reports the container running it never returns nil, and, given a first
network, returns an error. -/
theorem success_only_if_running (cfg : Config) (d : Daemon) (opts : CreateContainerOpts) :
    ((ContainerCreate cfg d opts).outcome = Outcome.returned none →
      StartedAndSeenRunning d (ContainerCreate cfg d opts).trace) ∧
    ((∀ hist st, d.ContainerInspect hist = Except.ok st → st.Running = false) →
      (ContainerCreate cfg d opts).outcome ≠ Outcome.returned none ∧
      (opts.Networks ≠ [] →
        ∃ err, (ContainerCreate cfg d opts).outcome = Outcome.returned (some err))) := by
  refine ⟨ContainerCreate_success cfg d opts, ?_⟩
  intro hnever
  have hne : (ContainerCreate cfg d opts).outcome ≠ Outcome.returned none := by
    intro h
    obtain ⟨id, pre, mid, st, _, _, hins, hrun⟩ := ContainerCreate_success cfg d opts h
    rw [hnever _ st hins] at hrun
    cases hrun
  refine ⟨hne, ?_⟩
  intro hnet
  obtain ⟨e, he⟩ := ContainerCreate_returns cfg d opts hnet
  cases e with
  | none => exact absurd he hne
  | some err => exact ⟨err, he⟩

/-- Witness for `success_only_if_running`: on the daemon where all goes well
the run returns nil after a start and an inspect answered running; on a
daemon whose container stays in the state `created` it returns an error. -/
theorem success_only_if_running_witness :
    StartedAndSeenRunning healthyDaemon (ContainerCreate sampleConfig healthyDaemon sampleOpts).trace ∧
    ∃ err, (ContainerCreate sampleConfig
      (scriptedDaemon 0 ⟨false, "created", "", 0⟩ (Except.ok ⟨false, "created", "", 0⟩))
      sampleOpts).outcome = Outcome.returned (some err) :=
  ⟨(success_only_if_running sampleConfig healthyDaemon sampleOpts).1 (by decide),
   ((success_only_if_running sampleConfig
      (scriptedDaemon 0 ⟨false, "created", "", 0⟩ (Except.ok ⟨false, "created", "", 0⟩))
      sampleOpts).2 (by
        intro hist st h
        simp only [scriptedDaemon] at h
        split at h <;> cases h <;> rfl)).2 (by decide)⟩

end docker

namespace docker

open config

/-- Claim C15: for every daemon, so for every sequence of inspect responses,
the readiness loop as `ContainerCreate` runs it returns, with success or with
an error; it makes at most 101 polls, the 10 s over the sleep of 100 ms and
one more; more iterations allowed would change nothing; and no run of
`ContainerCreate` is cut short in the loop. -/
theorem readyWait_terminates (cfg : Config) (d : Daemon) (opts : CreateContainerOpts)
    (id : String) (hist : List Call) :
    (∃ e, (readyWait d id readyFuel 0 hist).outcome = Outcome.returned e) ∧
    (inspectsOf (readyWait d id readyFuel 0 hist).trace).length
      ≤ (inspectsOf hist).length + 101 ∧
    (∀ more, readyWait d id (readyFuel + more) 0 hist = readyWait d id readyFuel 0 hist) ∧
    (ContainerCreate cfg d opts).outcome ≠ Outcome.outOfFuel := by
  have hf : readyFuel = 100 + 1 := rfl
  refine ⟨?_, ?_, ?_, ?_⟩
  · rw [hf]
    exact readyWait_returns d id 100 0 hist (by decide)
  · exact readyWait_inspects d id readyFuel 0 hist
  · intro more
    rw [hf]
    exact readyWait_fuel d id 100 0 hist (by decide) more
  · by_cases hnet : opts.Networks = []
    · simp [ContainerCreate, hnet]
    · obtain ⟨e, he⟩ := ContainerCreate_returns cfg d opts hnet
      rw [he]
      simp

end docker

namespace docker

open config

/-- Every error of the readiness loop comes from its last inspect: it carries
the failure of that inspect, or the `State.Error` of a container reported
exited or dead, or the status reported at the deadline. -/
theorem readyWait_error (d : Daemon) (id : String) :
    ∀ fuel elapsed hist err,
      (readyWait d id fuel elapsed hist).outcome = Outcome.returned (some err) →
      ∃ pre, (readyWait d id fuel elapsed hist).trace = pre ++ [Call.ContainerInspect id] ∧
        ((∃ e, d.ContainerInspect (pre ++ [Call.ContainerInspect id]) = Except.error e ∧
            (err = "container failed to start: " ++ e ∨
              err = "error inspecting container: " ++ e)) ∨
         (∃ st, d.ContainerInspect (pre ++ [Call.ContainerInspect id]) = Except.ok st ∧
            ((st.Running = false ∧ (st.Status = "exited" ∨ st.Status = "dead") ∧
                err = "container exited immediately: " ++ st.Error) ∨
              err = "container not running after timeout, status: " ++ st.Status))) := by
  intro fuel
  induction fuel with
  | zero =>
    intro elapsed hist err h
    simp [readyWait] at h
  | succ fuel ih =>
    intro elapsed hist err
    simp only [readyWait]
    split
    · split
      · rename_i e he
        intro h
        simp only [Outcome.returned.injEq, Option.some.injEq] at h
        exact ⟨hist, rfl, Or.inl ⟨e, he, Or.inl h.symm⟩⟩
      · rename_i st hst
        intro h
        simp only [Outcome.returned.injEq, Option.some.injEq] at h
        exact ⟨hist, rfl, Or.inr ⟨st, hst, Or.inr h.symm⟩⟩
    · split
      · rename_i e he
        intro h
        simp only [Outcome.returned.injEq, Option.some.injEq] at h
        exact ⟨hist, rfl, Or.inl ⟨e, he, Or.inr h.symm⟩⟩
      · rename_i st hst
        split
        · intro h
          simp at h
        · rename_i hrun
          split
          · rename_i hstatus
            intro h
            simp only [Outcome.returned.injEq, Option.some.injEq] at h
            exact ⟨hist, rfl, Or.inr ⟨st, hst, Or.inl ⟨by simpa using hrun, hstatus, h.symm⟩⟩⟩
          · intro h
            exact ih _ _ _ h

/-- Claim C14, as stated, fails.  A container is reported `created` by the
hundred polls made before the deadline.  When the inspect made at the deadline
fails, the error names no status, not the status `created` inspected last; and
when that inspect is the first to report the container exited, the error
names the status and does not carry its `State.Error`. -/
theorem deadline_inspect_not_as_claimed :
    (ContainerCreate sampleConfig
      (scriptedDaemon 100 ⟨false, "created", "", 0⟩ (Except.error "connection refused"))
      sampleOpts).outcome
        = Outcome.returned (some "container failed to start: connection refused") ∧
    strings.Contains "container failed to start: connection refused" "created" = false ∧
    (ContainerCreate sampleConfig
      (scriptedDaemon 100 ⟨false, "created", "", 0⟩
        (Except.ok ⟨false, "exited", "OOMKilled", 137⟩))
      sampleOpts).outcome
        = Outcome.returned (some "container not running after timeout, status: exited") ∧
    strings.Contains "container not running after timeout, status: exited" "OOMKilled"
      = false := by
  decide

/-- Claim C14, amended: in the readiness wait, an inspect made before the
deadline that reports the container not running with status `exited` or
`dead` makes the call fail at once, without a further poll, with an error
that carries `State.Error`; the inspect made once the deadline has passed
makes the call fail with an error that names the status it reports, or, when
that inspect itself fails, with an error that carries its failure; and the
loop fails in no other way than these and a failed inspect before the
deadline. -/
theorem readyWait_failures (d : Daemon) (id : String) (fuel elapsed : Nat) (hist : List Call) :
    (elapsed < readyDeadline → ∀ st,
      d.ContainerInspect (hist ++ [Call.ContainerInspect id]) = Except.ok st →
      st.Running = false → (st.Status = "exited" ∨ st.Status = "dead") →
      readyWait d id (fuel + 1) elapsed hist =
        ⟨hist ++ [Call.ContainerInspect id],
          Outcome.returned (some ("container exited immediately: " ++ st.Error))⟩) ∧
    (readyDeadline ≤ elapsed → ∀ st,
      d.ContainerInspect (hist ++ [Call.ContainerInspect id]) = Except.ok st →
      readyWait d id (fuel + 1) elapsed hist =
        ⟨hist ++ [Call.ContainerInspect id],
          Outcome.returned (some ("container not running after timeout, status: " ++ st.Status))⟩) ∧
    (readyDeadline ≤ elapsed → ∀ e,
      d.ContainerInspect (hist ++ [Call.ContainerInspect id]) = Except.error e →
      readyWait d id (fuel + 1) elapsed hist =
        ⟨hist ++ [Call.ContainerInspect id],
          Outcome.returned (some ("container failed to start: " ++ e))⟩) ∧
    (∀ err, (readyWait d id fuel elapsed hist).outcome = Outcome.returned (some err) →
      ∃ pre, (readyWait d id fuel elapsed hist).trace = pre ++ [Call.ContainerInspect id] ∧
        ((∃ e, d.ContainerInspect (pre ++ [Call.ContainerInspect id]) = Except.error e ∧
            (err = "container failed to start: " ++ e ∨
              err = "error inspecting container: " ++ e)) ∨
         (∃ st, d.ContainerInspect (pre ++ [Call.ContainerInspect id]) = Except.ok st ∧
            ((st.Running = false ∧ (st.Status = "exited" ∨ st.Status = "dead") ∧
                err = "container exited immediately: " ++ st.Error) ∨
              err = "container not running after timeout, status: " ++ st.Status)))) := by
  refine ⟨?_, ?_, ?_, readyWait_error d id fuel elapsed hist⟩
  · intro hlt st hst hrun hstatus
    have hn : ¬ elapsed ≥ readyDeadline := by omega
    simp [readyWait, hn, hst, hrun, hstatus]
  · intro hge st hst
    have hg : elapsed ≥ readyDeadline := hge
    simp [readyWait, hg, hst]
  · intro hge e he
    have hg : elapsed ≥ readyDeadline := hge
    simp [readyWait, hg, he]

/-- Witness for `readyWait_failures`: a first poll that reports the container
exited with the error `OOMKilled`. -/
theorem readyWait_failures_witness :
    readyWait (scriptedDaemon 5 ⟨false, "exited", "OOMKilled", 137⟩ (Except.error "gone"))
        "c0ffee" (100 + 1) 0 [Call.ContainerStart "c0ffee"] =
      ⟨[Call.ContainerStart "c0ffee"] ++ [Call.ContainerInspect "c0ffee"],
        Outcome.returned (some ("container exited immediately: " ++ "OOMKilled"))⟩ :=
  (readyWait_failures (scriptedDaemon 5 ⟨false, "exited", "OOMKilled", 137⟩ (Except.error "gone"))
    "c0ffee" 100 0 [Call.ContainerStart "c0ffee"]).1 (by decide) ⟨false, "exited", "OOMKilled", 137⟩
    rfl rfl (Or.inl rfl)

end docker

namespace task

open types

/-- Claim C16: for every instance whose image, lower-cased, contains neither
`k8s` nor `kubernetes`, both tasks return nil, emit no event, make no call on
the factory or on a client, and log nothing. -/
theorem not_cluster_image_skipped (f : Factory) (i : Instance)
    (hk8s : strings.Contains (f.ToLower i.Image) "k8s" = false)
    (hkube : strings.Contains (f.ToLower i.Image) "kubernetes" = false) :
    checkK8sClusterStatusTask.Run f i = ⟨none, [], [], []⟩ ∧
    checkK8sClusterExposedPortsTask.Run f i = ⟨none, [], [], []⟩ := by
  simp [checkK8sClusterStatusTask.Run, checkK8sClusterExposedPortsTask.Run, hk8s, hkube]

/-- Witness for `not_cluster_image_skipped`: the image `franela/dind:latest`. -/
theorem not_cluster_image_skipped_witness :
    checkK8sClusterStatusTask.Run (sampleFactory (Except.ok true))
        (sampleInstance "franela/dind:latest") = ⟨none, [], [], []⟩ ∧
    checkK8sClusterExposedPortsTask.Run (sampleFactory (Except.ok true))
        (sampleInstance "franela/dind:latest") = ⟨none, [], [], []⟩ :=
  not_cluster_image_skipped (sampleFactory (Except.ok true))
    (sampleInstance "franela/dind:latest") (by decide) (by decide)

/-- Claim C17: for every instance with a cluster image whose kubelet client is
obtained and whose `IsManager` call succeeds, the status task returns nil and
emits exactly one event, of type `instance k8s status`, keyed by the session
id of the instance, whose payload names the instance and has `IsManager` set
exactly when the kubelet reports a manager and `IsWorker` set exactly when it
does not. -/
theorem status_event_on_success (f : Factory) (i : Instance) (kc : Kubelet)
    (isManager : Bool)
    (himage : isClusterImage f i = true)
    (hkc : f.GetKubeletForInstance i = Except.ok kc)
    (hmanager : kc.IsManager = Except.ok isManager) :
    (checkK8sClusterStatusTask.Run f i).result = none ∧
    (checkK8sClusterStatusTask.Run f i).events =
      [⟨CheckK8sStatusEvent, i.SessionId,
        Payload.status { Instance := i.Name, IsManager := isManager, IsWorker := !isManager }⟩] := by
  have hcond : (!strings.Contains (f.ToLower i.Image) "k8s" &&
      !strings.Contains (f.ToLower i.Image) "kubernetes") = false := by
    unfold isClusterImage at himage
    revert himage
    cases strings.Contains (f.ToLower i.Image) "k8s" <;>
      cases strings.Contains (f.ToLower i.Image) "kubernetes" <;> simp
  simp only [checkK8sClusterStatusTask.Run, hcond, hkc, hmanager]
  cases isManager <;> simp

/-- Witness for `status_event_on_success`: a worker of a `k8s` image. -/
theorem status_event_on_success_witness :
    (checkK8sClusterStatusTask.Run (sampleFactory (Except.ok false))
        (sampleInstance "franela/K8S:latest")).events =
      [⟨"instance k8s status", "abcdefgh",
        Payload.status { Instance := "node1_abcdefgh", IsManager := false, IsWorker := true }⟩] :=
  (status_event_on_success (sampleFactory (Except.ok false))
    (sampleInstance "franela/K8S:latest") ⟨Except.ok false⟩ false (by decide) rfl rfl).2

/-- Claim C18: on a manager of a `k8s` image whose services and nodes are
listed, the ports task emits one event, of the swarm type
`instance cluster ports`, not `instance k8s cluster ports`; and on an
instance whose `IsManager` call fails, the status task emits one event, of
the swarm type `instance swarm status`, not `instance k8s status`. -/
theorem cluster_tasks_emit_swarm_types :
    checkK8sClusterExposedPortsTask.Run (sampleFactory (Except.ok true))
        (sampleInstance "franela/k8s:latest") =
      ⟨none,
        [⟨"instance cluster ports", "abcdefgh",
          Payload.ports ⟨"node1_abcdefgh", ["node1", "node2"], [30080]⟩⟩],
        [TaskCall.GetKubeletForInstance (sampleInstance "franela/k8s:latest"),
          TaskCall.IsManager, TaskCall.GetForInstance (sampleInstance "franela/k8s:latest"),
          TaskCall.ServicesList, TaskCall.NodesList],
        []⟩ ∧
    ("instance cluster ports" : EventType) ≠ CheckK8sClusterExpoedPortsEvent ∧
    (checkK8sClusterStatusTask.Run (sampleFactory (Except.error "kubelet unreachable"))
        (sampleInstance "franela/k8s:latest")).events =
      [⟨"instance swarm status", "abcdefgh",
        Payload.status { Instance := "node1_abcdefgh" }⟩] ∧
    ("instance swarm status" : EventType) ≠ CheckK8sStatusEvent := by
  decide

end task

namespace regexp

/-! ### Evaluating the matcher along a path -/

theorem run_cls_nil (rs : List (Char × Char)) (p : Nat) (c : Caps) (k : Cont) :
    run (Re.cls rs) p [] c k = none := rfl

theorem run_cls_cons (rs : List (Char × Char)) (p : Nat) (x : Char) (t : List Char) (c : Caps)
    (k : Cont) :
    run (Re.cls rs) p (x :: t) c k = if inRanges rs x = true then k (p + 1) t c else none := rfl

theorem run_any_nil (p : Nat) (c : Caps) (k : Cont) : run Re.anyNotNL p [] c k = none := rfl

theorem run_any_cons (p : Nat) (x : Char) (t : List Char) (c : Caps) (k : Cont) :
    run Re.anyNotNL p (x :: t) c k = if decide (x ≠ '\n') = true then k (p + 1) t c else none := by
  simp [run]

/-- A literal that is there is consumed. -/
theorem run_lit (w : List Char) : ∀ (p : Nat) (t : List Char) (c : Caps) (k : Cont),
    run (lit w) p (w ++ t) c k = k (p + w.length) t c := by
  induction w with
  | nil => intro p t c k; rfl
  | cons x w ih =>
    intro p t c k
    simp only [lit, run, List.cons_append, if_true, ih, List.length_cons]
    congr 1
    omega

/-- Exactly `n` characters of a class that are there are consumed. -/
theorem run_times_cls (rs : List (Char × Char)) (w : List Char) :
    ∀ (p : Nat) (t : List Char) (c : Caps) (k : Cont), (∀ x ∈ w, inRanges rs x = true) →
    run (times (Re.cls rs) w.length) p (w ++ t) c k = k (p + w.length) t c := by
  induction w with
  | nil => intro p t c k _; rfl
  | cons x w ih =>
    intro p t c k hw
    have hx : inRanges rs x = true := hw x (List.mem_cons_self _ _)
    have hw1 : ∀ y ∈ w, inRanges rs y = true := fun y hy => hw y (List.mem_cons_of_mem _ hy)
    simp only [List.length_cons, times, run, List.cons_append, hx, if_true, ih _ _ _ _ hw1]
    congr 1
    omega

/-- The greedy bounded repetition of a class takes a run of the class that
cannot be extended, provided what follows then succeeds. -/
theorem run_upTo_cls (rs : List (Char × Char)) : ∀ (n : Nat) (w : List Char) (p : Nat)
    (t : List Char) (c : Caps) (k : Cont) (res : Caps),
    (∀ x ∈ w, inRanges rs x = true) → w.length ≤ n →
    (w.length = n ∨ t = [] ∨ ∃ y t1, t = y :: t1 ∧ inRanges rs y = false) →
    k (p + w.length) t c = some res →
    run (upTo (Re.cls rs) n) p (w ++ t) c k = some res := by
  intro n
  induction n with
  | zero =>
    intro w p t c k res _ hlen _ hk
    have hw0 : w = [] := List.length_eq_zero.1 (by omega)
    subst hw0
    simpa [upTo, run] using hk
  | succ n ih =>
    intro w p t c k res hw hlen hmax hk
    cases w with
    | nil =>
      simp only [List.length_nil, Nat.add_zero, List.nil_append] at hk hmax ⊢
      rcases hmax with h | h | ⟨y, t1, h, hy⟩
      · omega
      · subst h
        simp [upTo, run, hk]
      · subst h
        simp [upTo, run, hy, hk]
    | cons x w =>
      have hx : inRanges rs x = true := hw x (List.mem_cons_self _ _)
      have hw1 : ∀ y ∈ w, inRanges rs y = true := fun y hy => hw y (List.mem_cons_of_mem _ hy)
      have hrec : run (upTo (Re.cls rs) n) (p + 1) (w ++ t) c k = some res := by
        apply ih w (p + 1) t c k res hw1 (by simpa using hlen)
        · rcases hmax with h | h | h
          · exact Or.inl (by simpa using h)
          · exact Or.inr (Or.inl h)
          · exact Or.inr (Or.inr h)
        · rw [← hk]
          congr 1
          simp only [List.length_cons]
          omega
      simp [upTo, run, hx, hrec]

/-- The greedy repetition `x{1,n}` of a class takes a non-empty run of the
class that cannot be extended, provided what follows then succeeds. -/
theorem run_counted_one (rs : List (Char × Char)) (n : Nat) (w : List Char) (p : Nat)
    (t : List Char) (c : Caps) (k : Cont) (res : Caps)
    (hw : ∀ x ∈ w, inRanges rs x = true) (hpos : 1 ≤ w.length) (hlen : w.length ≤ n)
    (hmax : w.length = n ∨ t = [] ∨ ∃ y t1, t = y :: t1 ∧ inRanges rs y = false)
    (hk : k (p + w.length) t c = some res) :
    run (counted (Re.cls rs) 1 n) p (w ++ t) c k = some res := by
  cases w with
  | nil => simp at hpos
  | cons x w =>
    have hx : inRanges rs x = true := hw x (List.mem_cons_self _ _)
    have hw1 : ∀ y ∈ w, inRanges rs y = true := fun y hy => hw y (List.mem_cons_of_mem _ hy)
    have hrec : run (upTo (Re.cls rs) (n - 1)) (p + 1) (w ++ t) c k = some res := by
      apply run_upTo_cls rs (n - 1) w (p + 1) t c k res hw1
      · simp only [List.length_cons] at hlen
        omega
      · rcases hmax with h | h | h
        · simp only [List.length_cons] at h
          exact Or.inl (by omega)
        · exact Or.inr (Or.inl h)
        · exact Or.inr (Or.inr h)
      · rw [← hk]
        congr 1
        simp only [List.length_cons]
        omega
    simp [counted, times, run, hx, hrec]

/-- A greedy loop over one-character steps stops where what follows succeeds,
when it fails after every longer run. -/
theorem starLoop_stops (step : Nat → List Char → Caps → Cont → Option Caps) (P : Char → Bool)
    (hnil : ∀ p c k, step p [] c k = none)
    (hcons : ∀ p x t c k, step p (x :: t) c k = if P x = true then k (p + 1) t c else none)
    (k : Cont) (c : Caps) :
    ∀ (fuel p : Nat) (t : List Char),
      (∀ u v, u ≠ [] → t = u ++ v → (∀ x ∈ u, P x = true) → k (p + u.length) v c = none) →
      starLoop step fuel p t c k = k p t c := by
  intro fuel
  induction fuel with
  | zero => intro p t _; rfl
  | succ fuel ih =>
    intro p t hfail
    cases t with
    | nil => simp [starLoop, hnil]
    | cons y t =>
      simp only [starLoop, hcons]
      by_cases hy : P y = true
      · have hrec : starLoop step fuel (p + 1) t c k = k (p + 1) t c := by
          apply ih
          intro u v hu ht hall
          have := hfail (y :: u) v (by simp) (by rw [ht]; rfl) (by
            intro x hx
            rcases List.mem_cons.1 hx with h | h
            · rw [h]; exact hy
            · exact hall x h)
          rw [← this]
          congr 1
          simp only [List.length_cons]
          omega
        have hone : k (p + 1) t c = none := by
          have := hfail [y] t (by simp) rfl (by simp [hy])
          simpa using this
        simp [hy, hrec, hone]
      · simp [hy]

/-- A greedy loop over one-character steps that consumes the run `w` gives
the result of what follows, when that succeeds and fails after every longer
run. -/
theorem starLoop_takes (step : Nat → List Char → Caps → Cont → Option Caps) (P : Char → Bool)
    (hnil : ∀ p c k, step p [] c k = none)
    (hcons : ∀ p x t c k, step p (x :: t) c k = if P x = true then k (p + 1) t c else none)
    (k : Cont) (c : Caps) (res : Caps) :
    ∀ (w : List Char) (fuel p : Nat) (t : List Char),
      (∀ x ∈ w, P x = true) → (w ++ t).length ≤ fuel →
      (∀ u v, u ≠ [] → t = u ++ v → (∀ x ∈ u, P x = true) →
        k (p + w.length + u.length) v c = none) →
      k (p + w.length) t c = some res →
      starLoop step fuel p (w ++ t) c k = some res := by
  intro w
  induction w with
  | nil =>
    intro fuel p t _ _ hfail hk
    rw [List.nil_append, starLoop_stops step P hnil hcons k c fuel p t]
    · simpa using hk
    · simpa using hfail
  | cons x w ih =>
    intro fuel p t hw hfuel hfail hk
    have hx : P x = true := hw x (List.mem_cons_self _ _)
    have hw1 : ∀ y ∈ w, P y = true := fun y hy => hw y (List.mem_cons_of_mem _ hy)
    cases fuel with
    | zero => simp at hfuel
    | succ fuel =>
      have hrec : starLoop step fuel (p + 1) (w ++ t) c k = some res := by
        apply ih fuel (p + 1) t hw1
        · simp only [List.cons_append, List.length_cons] at hfuel
          omega
        · intro u v hu ht hall
          rw [← hfail u v hu ht hall]
          congr 1
          simp only [List.length_cons]
          omega
        · rw [← hk]
          congr 1
          simp only [List.length_cons]
          omega
      simp [starLoop, hcons, hx, hrec]

end regexp

namespace strings

/-! ### Occurrences in lists of characters -/

theorem isPrefixOf_append_self (w v : List Char) : w.isPrefixOf (w ++ v) = true := by
  induction w with
  | nil => simp
  | cons x w ih => simp [List.isPrefixOf, ih]

/-- A list that has `w` somewhere inside contains it. -/
theorem containsChars_of_occurs (w : List Char) : ∀ (u v : List Char),
    containsChars w (u ++ w ++ v) = true := by
  intro u
  induction u with
  | nil =>
    intro v
    show containsChars w (w ++ v) = true
    generalize hw : w ++ v = s
    cases s with
    | nil =>
      have : w = [] := (List.append_eq_nil.1 hw).1
      simp [containsChars, this]
    | cons x t =>
      simp only [containsChars, Bool.or_eq_true]
      exact Or.inl (by rw [← hw]; exact isPrefixOf_append_self w v)
  | cons y u ih =>
    intro v
    simp only [List.cons_append, containsChars, Bool.or_eq_true]
    exact Or.inr (by simpa using ih v)

/-- A list that does not contain `w` has it nowhere inside. -/
theorem not_occurs (w s : List Char) (h : containsChars w s = false) (u v : List Char) :
    s ≠ u ++ w ++ v := by
  intro hs
  rw [hs, containsChars_of_occurs] at h
  cases h

/-- Two ways of cutting a list at a character `x`, the second at the first
`x`: the cuts are the same, or the first is at a later `x`. -/
theorem cut_at_first {x : Char} {l1 r1 l2 r2 : List Char} (h : l1 ++ x :: r1 = l2 ++ x :: r2)
    (hx : x ∉ l2) :
    (l1 = l2 ∧ r1 = r2) ∨ ∃ m, l1 = l2 ++ x :: m ∧ r2 = m ++ x :: r1 := by
  rcases List.append_eq_append_iff.1 h with ⟨a, ha, hb⟩ | ⟨a, ha, hb⟩
  · cases a with
    | nil =>
      simp only [List.append_nil, List.nil_append, List.cons.injEq, true_and] at ha hb
      exact Or.inl ⟨ha.symm, hb⟩
    | cons y a =>
      simp only [List.cons_append, List.cons.injEq] at hb
      exact absurd (by rw [ha, hb.1]; simp) hx
  · cases a with
    | nil =>
      simp only [List.append_nil, List.nil_append, List.cons.injEq, true_and] at ha hb
      exact Or.inl ⟨ha, hb.symm⟩
    | cons y a =>
      simp only [List.cons_append, List.cons.injEq] at hb
      refine Or.inr ⟨a, ?_, hb.2⟩
      rw [ha, hb.1]

end strings

namespace regexp

/-! ### What a path of a sub-pattern consumes -/

theorem Matches.char_inv {x : Char} {p : Nat} {r : List Char} {c : Caps} {p1 : Nat}
    {r1 : List Char} {c1 : Caps} (h : Matches (Re.char x) p r c p1 r1 c1) :
    r = x :: r1 := by
  cases h
  rfl

theorem Matches.endText_inv {p : Nat} {r : List Char} {c : Caps} {p1 : Nat}
    {r1 : List Char} {c1 : Caps} (h : Matches Re.endText p r c p1 r1 c1) :
    r = [] ∧ r1 = [] := by
  cases h
  exact ⟨rfl, rfl⟩

theorem Matches.lit_inv : ∀ (w : List Char) {p : Nat} {r : List Char} {c : Caps} {p1 : Nat}
    {r1 : List Char} {c1 : Caps}, Matches (lit w) p r c p1 r1 c1 → r = w ++ r1 := by
  intro w
  induction w with
  | nil =>
    intro p r c p1 r1 c1 h
    cases h
    rfl
  | cons x w ih =>
    intro p r c p1 r1 c1 h
    obtain ⟨_, _, _, h1, h2⟩ := Matches.cat_inv h
    rw [Matches.char_inv h1, ih h2]
    rfl

/-- A path of a starred class consumes characters of the class. -/
theorem Matches.star_cls_aux {rs : List (Char × Char)} {re : Re} {p : Nat} {r : List Char}
    {c : Caps} {p1 : Nat} {r1 : List Char} {c1 : Caps} (h : Matches re p r c p1 r1 c1)
    (hre : re = Re.star (Re.cls rs)) :
    ∃ w, r = w ++ r1 ∧ ∀ x ∈ w, inRanges rs x = true := by
  induction h with
  | empty p r c => cases hre
  | char x p r c => cases hre
  | cls rs1 x p r c _ => cases hre
  | anyNotNL x p r c _ => cases hre
  | beginText r c => cases hre
  | endText p c => cases hre
  | cat _ _ _ _ => cases hre
  | starStop a p r c => exact ⟨[], rfl, by simp⟩
  | starStep h1 _ _ ih2 =>
    obtain ⟨w2, hw2, hall2⟩ := ih2 hre
    cases hre
    cases h1 with
    | cls _ x _ t _ hx =>
      refine ⟨x :: w2, by rw [hw2]; rfl, ?_⟩
      intro y hy
      rcases List.mem_cons.1 hy with h | h
      · rw [h]; exact hx
      · exact hall2 y h
  | questSkip a p r c => cases hre
  | questTake _ _ => cases hre
  | group _ _ => cases hre

theorem Matches.star_cls {rs : List (Char × Char)} {p : Nat} {r : List Char}
    {c : Caps} {p1 : Nat} {r1 : List Char} {c1 : Caps}
    (h : Matches (Re.star (Re.cls rs)) p r c p1 r1 c1) :
    ∃ w, r = w ++ r1 ∧ ∀ x ∈ w, inRanges rs x = true :=
  Matches.star_cls_aux h rfl

/-- A path of `x{0,n}` over a class consumes at most `n` characters of the
class. -/
theorem Matches.upTo_cls {rs : List (Char × Char)} : ∀ {n : Nat} {p : Nat} {r : List Char}
    {c : Caps} {p1 : Nat} {r1 : List Char} {c1 : Caps},
    Matches (upTo (Re.cls rs) n) p r c p1 r1 c1 →
    ∃ w, r = w ++ r1 ∧ w.length ≤ n ∧ ∀ x ∈ w, inRanges rs x = true := by
  intro n
  induction n with
  | zero =>
    intro p r c p1 r1 c1 h
    cases h
    exact ⟨[], rfl, by simp, by simp⟩
  | succ n ih =>
    intro p r c p1 r1 c1 h
    cases h with
    | questSkip _ _ _ _ => exact ⟨[], rfl, by simp, by simp⟩
    | questTake h1 =>
      obtain ⟨_, _, _, h2, h3⟩ := Matches.cat_inv h1
      obtain ⟨w, hw, hlen, hall⟩ := ih h3
      cases h2 with
      | cls _ x _ t _ hx =>
        refine ⟨x :: w, by rw [hw]; rfl, by simp [hlen], ?_⟩
        intro y hy
        rcases List.mem_cons.1 hy with h | h
        · rw [h]; exact hx
        · exact hall y h

/-- A path of `x{m,n}` over a class consumes between `m` and `n` characters
of the class. -/
theorem Matches.counted_cls {rs : List (Char × Char)} {m n : Nat} (hmn : m ≤ n) {p : Nat}
    {r : List Char} {c : Caps} {p1 : Nat} {r1 : List Char} {c1 : Caps}
    (h : Matches (counted (Re.cls rs) m n) p r c p1 r1 c1) :
    ∃ w, r = w ++ r1 ∧ m ≤ w.length ∧ w.length ≤ n ∧ ∀ x ∈ w, inRanges rs x = true := by
  obtain ⟨_, _, _, h1, h2⟩ := Matches.cat_inv h
  obtain ⟨_, w1, hw1, hlen1, hall1⟩ := Matches.times_cls h1
  obtain ⟨w2, hw2, hlen2, hall2⟩ := Matches.upTo_cls h2
  refine ⟨w1 ++ w2, by rw [hw1, hw2, List.append_assoc], by simp [hlen1],
    by simp only [List.length_append]; omega, ?_⟩
  intro x hx
  rcases List.mem_append.1 hx with h | h
  · exact hall1 x h
  · exact hall2 x h

end regexp

namespace config

open regexp

/-- What a path of the optional port consumes. -/
theorem optPortRe_inv {i : Nat} {p : Nat} {r : List Char} {c : Caps} {p1 : Nat}
    {r1 : List Char} {c1 : Caps} (h : Matches (optPortRe i) p r c p1 r1 c1) :
    ∃ pp, r = pp ++ r1 ∧ IsPortPart pp := by
  cases h with
  | questSkip _ _ _ _ => exact ⟨[], rfl, Or.inl rfl⟩
  | questTake h1 =>
    obtain ⟨_, _, _, h2, h3⟩ := Matches.cat_inv h1
    obtain ⟨_, h4, _⟩ := Matches.group_inv h3
    obtain ⟨dg, hdg, hlo, hhi, hall⟩ := Matches.counted_cls (by decide) h4
    cases h2 with
    | questSkip _ _ _ _ => exact ⟨dg, hdg, Or.inr ⟨dg, Or.inl rfl, hlo, hhi, hall⟩⟩
    | questTake h5 =>
      rw [Matches.char_inv h5, hdg]
      exact ⟨'-' :: dg, rfl, Or.inr ⟨dg, Or.inr rfl, hlo, hhi, hall⟩⟩

/-- What a path of the part of `AliasFilter` after the alias consumes. -/
theorem aliasTailRe_inv {p : Nat} {r : List Char} {c : Caps} {p1 : Nat}
    {r1 : List Char} {c1 : Caps} (h : Matches aliasTailRe p r c p1 r1 c1) :
    ∃ s pp tl, r = '-' :: s ++ pp ++ '.' :: tl ∧ s.length = 8 ∧
      (∀ x ∈ s, inRanges aliasSessionRanges x = true) ∧ IsPortPart pp := by
  obtain ⟨_, _, _, h1, h⟩ := Matches.cat_inv h
  obtain ⟨_, _, _, h2, h⟩ := Matches.cat_inv h
  obtain ⟨_, _, _, h3, h⟩ := Matches.cat_inv h
  obtain ⟨_, _, _, h4, h⟩ := Matches.cat_inv h
  obtain ⟨tl, htl, _⟩ := Matches.consumes h
  obtain ⟨_, h2, _⟩ := Matches.group_inv h2
  obtain ⟨s, hs, hlo, hhi, hall⟩ := Matches.counted_cls (le_refl 8) h2
  obtain ⟨pp, hpp, hshape⟩ := optPortRe_inv h3
  refine ⟨s, pp, tl ++ r1, ?_, by omega, hall, hshape⟩
  rw [Matches.char_inv h1, hs, hpp, Matches.char_inv h4, htl]
  simp

/-- What a path of the part of `AliasFilter` after the leading `^.*`
consumes. -/
theorem aliasRestRe_inv {p : Nat} {r : List Char} {c : Caps} {p1 : Nat}
    {r1 : List Char} {c1 : Caps} (h : Matches aliasRestRe p r c p1 r1 c1) :
    ∃ a s pp tl, r = ['p', 'w', 'd'] ++ a ++ '-' :: s ++ pp ++ '.' :: tl ∧
      (∀ x ∈ a, inRanges aliasNameRanges x = true) ∧ s.length = 8 ∧
      (∀ x ∈ s, inRanges aliasSessionRanges x = true) ∧ IsPortPart pp := by
  obtain ⟨_, _, _, h1, h⟩ := Matches.cat_inv h
  obtain ⟨_, _, _, h2, h⟩ := Matches.cat_inv h
  obtain ⟨_, h2, _⟩ := Matches.group_inv h2
  obtain ⟨a, ha, hall⟩ := Matches.star_cls h2
  obtain ⟨s, pp, tl, hr, hlen, hs, hpp⟩ := aliasTailRe_inv h
  refine ⟨a, s, pp, tl, ?_, hall, hlen, hs, hpp⟩
  rw [Matches.lit_inv _ h1, ha, hr]
  simp

end config

namespace config

open regexp

/-! ### Characters of the classes -/

theorem sessionRange_ne (x : Char) (h : inRanges aliasSessionRanges x = true) :
    x ≠ '-' ∧ x ≠ '.' := by
  constructor <;> (intro hx; subst hx; revert h; decide)

theorem nameRange_ne_dot (x : Char) (h : inRanges aliasNameRanges x = true) : x ≠ '.' := by
  intro hx; subst hx; revert h; decide

theorem digitRange_ne (x : Char) (h : inRanges [('0', '9')] x = true) :
    x ≠ '-' ∧ x ≠ '.' ∧ x ≠ 'i' := by
  refine ⟨?_, ?_, ?_⟩ <;> (intro hx; subst hx; revert h; decide)

theorem isDigitChar_iff (x : Char) : isDigitChar x = inRanges [('0', '9')] x := by
  simp [isDigitChar, inRanges]

theorem isDigitOrLower_session (x : Char) (h : isDigitOrLower x = true) :
    inRanges aliasSessionRanges x = true := by
  simp only [isDigitOrLower, Bool.or_eq_true, Bool.and_eq_true, decide_eq_true_eq] at h
  simp only [inRanges, aliasSessionRanges, List.any_cons, List.any_nil, Bool.or_false,
    Bool.or_eq_true, Bool.and_eq_true, decide_eq_true_eq]
  rcases h with h | h
  · exact Or.inl h
  · exact Or.inr (Or.inr (Or.inl h))

theorem isAliasChar_name (x : Char) (h : isAliasChar x = true) :
    inRanges aliasNameRanges x = true := by
  simp only [isAliasChar, isAlphaNum, isDigitOrLower, Bool.or_eq_true, Bool.and_eq_true,
    decide_eq_true_eq] at h
  simp only [inRanges, aliasNameRanges, List.any_cons, List.any_nil, Bool.or_false,
    Bool.or_eq_true, Bool.and_eq_true, decide_eq_true_eq]
  rcases h with ((h | h) | h) | h
  · exact Or.inl h
  · exact Or.inr (Or.inr (Or.inl h))
  · exact Or.inr (Or.inr (Or.inr (Or.inr (Or.inl h))))
  · subst h
    decide

theorem digitsBetween_spec {lo hi : Nat} {w : List Char} (h : digitsBetween lo hi w = true) :
    lo ≤ w.length ∧ w.length ≤ hi ∧ ∀ x ∈ w, inRanges [('0', '9')] x = true := by
  simp only [digitsBetween, Bool.and_eq_true, decide_eq_true_eq, List.all_eq_true] at h
  refine ⟨h.1.1, h.1.2, ?_⟩
  intro x hx
  rw [← isDigitChar_iff]
  exact h.2 x hx

theorem IsPortPart.no_dot {pp : List Char} (h : IsPortPart pp) : '.' ∉ pp := by
  rcases h with h | ⟨dg, h, _, _, hall⟩
  · simp [h]
  · intro hmem
    rcases h with h | h
    · rw [h] at hmem
      exact (digitRange_ne _ (hall _ hmem)).2.1 rfl
    · rw [h] at hmem
      rcases List.mem_cons.1 hmem with h1 | h1
      · revert h1; decide
      · exact (digitRange_ne _ (hall _ h1)).2.1 rfl

theorem portPart_no_dot {port : Option (List Char)}
    (hport : ∀ q, port = some q → digitsBetween 1 5 q = true) : '.' ∉ portPart port := by
  cases port with
  | none => simp [portPart]
  | some q =>
    intro hmem
    rcases List.mem_cons.1 hmem with h1 | h1
    · revert h1; decide
    · exact (digitRange_ne _ ((digitsBetween_spec (hport q rfl)).2.2 _ h1)).2.1 rfl

end config

namespace config

open regexp

/-- The end of an alias host reads in one way only: a hyphen, eight
characters of the session class and a port part can be cut off the right of
`<name>-<sessionId><port part>` only as the session id and the port part
themselves. -/
theorem alias_tail_unique {x a s pp nm sid : List Char} {port : Option (List Char)}
    (heq : x ++ ('-' :: s ++ pp) = a ++ ('-' :: sid ++ portPart port))
    (hslen : s.length = 8) (hs : ∀ y ∈ s, inRanges aliasSessionRanges y = true)
    (hpp : IsPortPart pp)
    (hsidlen : sid.length = 8) (hsid : ∀ y ∈ sid, inRanges aliasSessionRanges y = true)
    (hport : ∀ q, port = some q → digitsBetween 1 5 q = true) (_hnm : nm = a) :
    x = a ∧ s = sid ∧ pp = portPart port := by
  have hs_hy : '-' ∉ s := fun h => (sessionRange_ne _ (hs _ h)).1 rfl
  have hsid_hy : '-' ∉ sid := fun h => (sessionRange_ne _ (hsid _ h)).1 rfl
  have hfin : x = a → ('-' :: s ++ pp) = ('-' :: sid ++ portPart port) →
      x = a ∧ s = sid ∧ pp = portPart port := by
    intro h1 h2
    have h3 : s ++ pp = sid ++ portPart port := by simpa using h2
    obtain ⟨h4, h5⟩ := List.append_inj h3 (by rw [hslen, hsidlen])
    exact ⟨h1, h4, h5⟩
  rcases List.append_eq_append_iff.1 heq with ⟨u, hu1, hu2⟩ | ⟨u, hu1, hu2⟩
  · -- the candidate tail starts inside the name
    cases u with
    | nil =>
      simp only [List.append_nil, List.nil_append] at hu1 hu2
      exact hfin hu1.symm hu2
    | cons y u =>
      exfalso
      simp only [List.cons_append, List.cons.injEq] at hu2
      have h3 : u ++ '-' :: (sid ++ portPart port) = s ++ pp := by
        rw [hu2.2]
      rcases hpp with hpp | ⟨dg, hpp, _, hdg5, hdg⟩
      · rw [hpp, List.append_nil] at h3
        exact hs_hy (by rw [← h3]; simp)
      · have hdg_hy : '-' ∉ dg := fun h => (digitRange_ne _ (hdg _ h)).1 rfl
        rcases hpp with hpp | hpp
        · rw [hpp] at h3
          have : '-' ∈ s ++ dg := by rw [← h3]; simp
          rcases List.mem_append.1 this with h | h
          · exact hs_hy h
          · exact hdg_hy h
        · rw [hpp] at h3
          rcases strings.cut_at_first h3 hs_hy with ⟨_, h5⟩ | ⟨m, _, h5⟩
          · have : (sid ++ portPart port).length = dg.length := by rw [h5]
            simp only [List.length_append] at this
            omega
          · exact hdg_hy (by rw [h5]; simp)
  · -- the candidate tail starts inside the session id or the port
    cases u with
    | nil =>
      simp only [List.append_nil, List.nil_append] at hu1 hu2
      exact hfin hu1 hu2.symm
    | cons y u =>
      exfalso
      simp only [List.cons_append, List.cons.injEq] at hu2
      have h3 : u ++ '-' :: (s ++ pp) = sid ++ portPart port := by
        rw [hu2.2]
      cases port with
      | none =>
        simp only [portPart, List.append_nil] at h3
        exact hsid_hy (by rw [← h3]; simp)
      | some q =>
        obtain ⟨_, hq5, hq⟩ := digitsBetween_spec (hport q rfl)
        have hq_hy : '-' ∉ q := fun h => (digitRange_ne _ (hq _ h)).1 rfl
        simp only [portPart] at h3
        rcases strings.cut_at_first h3 hsid_hy with ⟨_, h5⟩ | ⟨m, _, h5⟩
        · have : (s ++ pp).length = q.length := by rw [h5]
          simp only [List.length_append] at this
          omega
        · exact hq_hy (by rw [h5]; simp)

/-- In a name that does not contain `pwd`, the text `pwd` before the name
occurs at the start only. -/
theorem pwd_at_start {pre a nm : List Char}
    (heq : pre ++ (['p', 'w', 'd'] ++ a) = ['p', 'w', 'd'] ++ nm)
    (hnm : strings.containsChars ['p', 'w', 'd'] nm = false) : pre = [] ∧ a = nm := by
  match pre, heq with
  | [], heq => exact ⟨rfl, by simpa using heq⟩
  | [x], heq =>
    exfalso
    simp only [List.cons_append, List.nil_append, List.cons.injEq] at heq
    have := heq.2.1
    revert this; decide
  | [x, y], heq =>
    exfalso
    simp only [List.cons_append, List.nil_append, List.cons.injEq] at heq
    have := heq.2.2.1
    revert this; decide
  | x :: y :: z :: pre3, heq =>
    exfalso
    simp only [List.cons_append, List.nil_append, List.cons.injEq] at heq
    exact strings.not_occurs _ _ hnm pre3 a (by rw [← heq.2.2.2]; simp)

/-- An alias host reads as a path of `AliasFilter` in one way only. -/
theorem alias_host_unique {pre a s pp tl nm sid domain : List Char} {port : Option (List Char)}
    (heq : pre ++ (['p', 'w', 'd'] ++ a ++ '-' :: s ++ pp ++ '.' :: tl)
      = aliasHost nm sid port domain)
    (ha : ∀ y ∈ a, inRanges aliasNameRanges y = true)
    (hslen : s.length = 8) (hs : ∀ y ∈ s, inRanges aliasSessionRanges y = true)
    (hpp : IsPortPart pp)
    (hnm : ∀ y ∈ nm, isAliasChar y = true)
    (hsidlen : sid.length = 8) (hsid : ∀ y ∈ sid, isDigitOrLower y = true)
    (hport : ∀ q, port = some q → digitsBetween 1 5 q = true)
    (hnm_pwd : strings.containsChars ['p', 'w', 'd'] nm = false)
    (hdom_pwd : strings.containsChars ['p', 'w', 'd'] domain = false) :
    pre = [] ∧ a = nm ∧ s = sid ∧ pp = portPart port ∧ tl = domain := by
  have hsid2 : ∀ y ∈ sid, inRanges aliasSessionRanges y = true :=
    fun y hy => isDigitOrLower_session y (hsid y hy)
  -- the part before the first dot
  have hG : '.' ∉ ['p', 'w', 'd'] ++ a ++ '-' :: s ++ pp := by
    intro h
    simp only [List.mem_append, List.mem_cons, List.mem_singleton, List.mem_nil_iff] at h
    rcases h with ((h | h) | h) | h
    · revert h; decide
    · exact nameRange_ne_dot _ (ha _ h) rfl
    · rcases h with h | h
      · revert h; decide
      · exact (sessionRange_ne _ (hs _ h)).2 rfl
    · exact hpp.no_dot h
  have hY : '.' ∉ ['p', 'w', 'd'] ++ nm ++ '-' :: sid ++ portPart port := by
    intro h
    simp only [List.mem_append, List.mem_cons, List.mem_singleton, List.mem_nil_iff] at h
    rcases h with ((h | h) | h) | h
    · revert h; decide
    · exact nameRange_ne_dot _ (isAliasChar_name _ (hnm _ h)) rfl
    · rcases h with h | h
      · revert h; decide
      · exact (sessionRange_ne _ (hsid2 _ h)).2 rfl
    · exact portPart_no_dot hport h
  have h1 : (pre ++ (['p', 'w', 'd'] ++ a ++ '-' :: s ++ pp)) ++ '.' :: tl
      = (['p', 'w', 'd'] ++ nm ++ '-' :: sid ++ portPart port) ++ '.' :: domain := by
    rw [aliasHost] at heq
    simpa [List.append_assoc] using heq
  rcases strings.cut_at_first h1 hY with ⟨h2, h3⟩ | ⟨m, h2, h3⟩
  · -- both cut at the same dot
    have h4 : (pre ++ (['p', 'w', 'd'] ++ a)) ++ ('-' :: s ++ pp)
        = (['p', 'w', 'd'] ++ nm) ++ ('-' :: sid ++ portPart port) := by
      simpa [List.append_assoc] using h2
    obtain ⟨h5, h6, h7⟩ := alias_tail_unique h4 hslen hs hpp hsidlen hsid2 hport rfl
    obtain ⟨h8, h9⟩ := pwd_at_start h5 hnm_pwd
    exact ⟨h8, h9, h6, h7, h3⟩
  · -- the path would start in the domain
    exfalso
    have h4 : pre ++ (['p', 'w', 'd'] ++ a ++ '-' :: s ++ pp)
        = ((['p', 'w', 'd'] ++ nm ++ '-' :: sid ++ portPart port) ++ ['.']) ++ m := by
      rw [h2]; simp
    rcases List.append_eq_append_iff.1 h4 with ⟨u, hu1, hu2⟩ | ⟨u, hu1, hu2⟩
    · rcases List.eq_nil_or_concat u with hu | ⟨v, z, hu⟩
      · rw [hu, List.nil_append] at hu2
        apply strings.not_occurs _ _ hdom_pwd [] (a ++ '-' :: s ++ pp ++ '.' :: tl)
        rw [h3, ← hu2]
        simp
      · have h5 : (['p', 'w', 'd'] ++ nm ++ '-' :: sid ++ portPart port) ++ ['.']
            = (pre ++ v) ++ [z] := by
          rw [hu1, hu]; simp
        have hz : z = '.' := by
          have := (List.append_inj' h5 rfl).2
          simpa using this.symm
        apply hG
        rw [hu2, hu, hz]
        simp
    · apply strings.not_occurs _ _ hdom_pwd u (a ++ '-' :: s ++ pp ++ '.' :: tl)
      rw [h3, hu2]
      simp

end config

namespace regexp

/-! ### One step of the matcher -/

theorem run_cat (a b : Re) (p : Nat) (r : List Char) (c : Caps) (k : Cont) :
    run (Re.cat a b) p r c k = run a p r c (fun p1 r1 c1 => run b p1 r1 c1 k) := rfl

theorem run_char_cons (x : Char) (p : Nat) (t : List Char) (c : Caps) (k : Cont) :
    run (Re.char x) p (x :: t) c k = k (p + 1) t c := by
  simp [run]

theorem run_char_ne (x y : Char) (p : Nat) (t : List Char) (c : Caps) (k : Cont) (h : y ≠ x) :
    run (Re.char x) p (y :: t) c k = none := by
  simp [run, h]

theorem run_star (a : Re) (p : Nat) (r : List Char) (c : Caps) (k : Cont) :
    run (Re.star a) p r c k = starLoop (run a) r.length p r c k := rfl

theorem run_group (i : Nat) (a : Re) (p : Nat) (r : List Char) (c : Caps) (k : Cont) :
    run (Re.group i a) p r c k =
      run a p r c (fun p1 r1 c1 => k p1 r1 (c1.set i (some (r.take (p1 - p))))) := rfl

theorem run_quest_some (a : Re) (p : Nat) (r : List Char) (c : Caps) (k : Cont) (res : Caps)
    (h : run a p r c k = some res) : run (Re.quest a) p r c k = some res := by
  simp [run, h]

theorem run_quest_none (a : Re) (p : Nat) (r : List Char) (c : Caps) (k : Cont)
    (h : run a p r c k = none) : run (Re.quest a) p r c k = k p r c := by
  simp [run, h]

theorem run_endText_nil (p : Nat) (c : Caps) (k : Cont) :
    run Re.endText p [] c k = k p [] c := by
  simp [run]

theorem run_beginText (r : List Char) (c : Caps) (k : Cont) :
    run Re.beginText 0 r c k = k 0 r c := by
  simp [run]

/-- The greedy `.*` before the end of the text takes a rest of one line. -/
theorem run_rest_of_line (p : Nat) (w : List Char) (c : Caps) (k : Cont) (res : Caps)
    (hnl : '\n' ∉ w) (hk : k (p + w.length) [] c = some res) :
    run (Re.cat (Re.star Re.anyNotNL) Re.endText) p w c k = some res := by
  have hstar : starLoop (run Re.anyNotNL) w.length p (w ++ []) c
      (fun p1 r1 c1 => run Re.endText p1 r1 c1 k) = some res := by
    apply starLoop_takes (run Re.anyNotNL) (fun x => decide (x ≠ '\n')) run_any_nil run_any_cons
    · intro x hx
      simpa using fun h : x = '\n' => hnl (h ▸ hx)
    · simp
    · intro u v hu huv
      exact absurd (List.append_eq_nil.1 huv.symm).1 hu
    · rw [run_endText_nil]
      exact hk
  rw [List.append_nil] at hstar
  rw [run_cat, run_star]
  exact hstar

end regexp

namespace config

open regexp

/-! ### Evaluating the parts of the two patterns -/

/-- Before a dot the optional port consumes nothing. -/
theorem optPortRe_skips (i : Nat) (p : Nat) (tl : List Char) (c : Caps) (k : Cont) (res : Caps)
    (hk : k p ('.' :: tl) c = some res) :
    run (optPortRe i) p ('.' :: tl) c k = some res := by
  have hdot : inRanges [('0', '9')] '.' = false := by decide
  simp [optPortRe, portRe, counted, times, digitClass, run, hdot, hk]

/-- A hyphen and a port before a dot are consumed by the optional port, and
the port is captured. -/
theorem optPortRe_takes (i : Nat) (p : Nat) (q tl : List Char) (c : Caps) (k : Cont) (res : Caps)
    (hq : digitsBetween 1 5 q = true)
    (hk : k (p + 1 + q.length) ('.' :: tl) (c.set i (some q)) = some res) :
    run (optPortRe i) p ('-' :: (q ++ '.' :: tl)) c k = some res := by
  obtain ⟨hlo, hhi, hall⟩ := digitsBetween_spec hq
  have hport : run portRe (p + 1) (q ++ '.' :: tl) c
      (fun p1 r1 c1 => k p1 r1 (c1.set i (some ((q ++ '.' :: tl).take (p1 - (p + 1)))))) =
        some res := by
    apply run_counted_one [('0', '9')] 5 q (p + 1) ('.' :: tl) c _ res hall hlo hhi
      (Or.inr (Or.inr ⟨'.', tl, rfl, by decide⟩))
    simpa using hk
  apply run_quest_some
  rw [run_cat, run_quest_some _ _ _ _ _ res]
  rw [run_char_cons, run_group]
  exact hport

/-- The end of `AliasFilter`: a dot and a domain of one line. -/
theorem aliasEnd_takes (p : Nat) (domain : List Char) (c : Caps) (k : Cont) (res : Caps)
    (hnl : '\n' ∉ domain) (hk : k (p + 1 + domain.length) [] c = some res) :
    run (Re.cat (Re.char '.') (Re.cat (Re.star Re.anyNotNL) Re.endText)) p ('.' :: domain) c k =
      some res := by
  rw [run_cat, run_char_cons]
  exact run_rest_of_line (p + 1) domain c k res hnl hk

/-- The end of `NameFilter`: a dot and a domain of one line. -/
theorem nameEnd_takes (p : Nat) (domain : List Char) (c : Caps) (k : Cont) (res : Caps)
    (hnl : '\n' ∉ domain) (hk : k (p + 1 + domain.length) [] c = some res) :
    run (Re.cat (Re.quest (Re.cat (Re.char '.') (Re.star Re.anyNotNL))) Re.endText) p
      ('.' :: domain) c k = some res := by
  rw [run_cat]
  apply run_quest_some
  rw [run_cat, run_char_cons]
  exact run_rest_of_line (p + 1) domain c k res hnl hk

end config

namespace regexp

/-- Exactly `n` characters of a class that are there are consumed by `x{n}`. -/
theorem run_counted_exact (rs : List (Char × Char)) (w : List Char) (n : Nat) (p : Nat)
    (t : List Char) (c : Caps) (k : Cont) (hn : w.length = n)
    (hw : ∀ x ∈ w, inRanges rs x = true) :
    run (counted (Re.cls rs) n n) p (w ++ t) c k = k (p + n) t c := by
  subst hn
  rw [counted, run_cat, run_times_cls rs w p t c _ hw, Nat.sub_self]
  rfl

end regexp

namespace config

open regexp

theorem aliasHost_eq (nm sid domain : List Char) (port : Option (List Char)) :
    aliasHost nm sid port domain =
      ['p', 'w', 'd'] ++ (nm ++ '-' :: (sid ++ (portPart port ++ '.' :: domain))) := by
  simp [aliasHost]

/-- On an alias host, the rest of `AliasFilter` fails wherever the leading
`.*` has consumed anything. -/
theorem aliasRestRe_fails_later {nm sid domain : List Char} {port : Option (List Char)}
    (hnm : ∀ y ∈ nm, isAliasChar y = true)
    (hsidlen : sid.length = 8) (hsid : ∀ y ∈ sid, isDigitOrLower y = true)
    (hport : ∀ q, port = some q → digitsBetween 1 5 q = true)
    (hnm_pwd : strings.containsChars ['p', 'w', 'd'] nm = false)
    (hdom_pwd : strings.containsChars ['p', 'w', 'd'] domain = false)
    (u v : List Char) (hu : u ≠ []) (huv : aliasHost nm sid port domain = u ++ v)
    (p : Nat) (c : Caps) (k : Cont) : run aliasRestRe p v c k = none := by
  cases h : run aliasRestRe p v c k with
  | none => rfl
  | some res =>
    exfalso
    obtain ⟨p1, r1, c1, hpath, _⟩ := run_sound _ _ _ _ _ _ h
    obtain ⟨a, s, pp, tl, hv, ha, hslen, hs, hpp⟩ := aliasRestRe_inv hpath
    rw [hv] at huv
    exact hu (alias_host_unique huv.symm ha hslen hs hpp hnm hsidlen hsid hport hnm_pwd
      hdom_pwd).1

/-- On an alias host, the part of `AliasFilter` after the alias fails wherever
the alias group has consumed more than the alias. -/
theorem aliasTailRe_fails_later {nm sid domain : List Char} {port : Option (List Char)}
    (hnm : ∀ y ∈ nm, isAliasChar y = true)
    (hsidlen : sid.length = 8) (hsid : ∀ y ∈ sid, isDigitOrLower y = true)
    (hport : ∀ q, port = some q → digitsBetween 1 5 q = true)
    (hnm_pwd : strings.containsChars ['p', 'w', 'd'] nm = false)
    (hdom_pwd : strings.containsChars ['p', 'w', 'd'] domain = false)
    (u v : List Char) (hu : u ≠ [])
    (huv : '-' :: (sid ++ (portPart port ++ '.' :: domain)) = u ++ v)
    (hall : ∀ x ∈ u, inRanges aliasNameRanges x = true)
    (p : Nat) (c : Caps) (k : Cont) : run aliasTailRe p v c k = none := by
  cases h : run aliasTailRe p v c k with
  | none => rfl
  | some res =>
    exfalso
    obtain ⟨p1, r1, c1, hpath, _⟩ := run_sound _ _ _ _ _ _ h
    obtain ⟨s, pp, tl, hv, hslen, hs, hpp⟩ := aliasTailRe_inv hpath
    have heq : [] ++ (['p', 'w', 'd'] ++ (nm ++ u) ++ '-' :: s ++ pp ++ '.' :: tl)
        = aliasHost nm sid port domain := by
      rw [aliasHost_eq, huv, hv]
      simp
    have ha : ∀ x ∈ nm ++ u, inRanges aliasNameRanges x = true := by
      intro x hx
      rcases List.mem_append.1 hx with h1 | h1
      · exact isAliasChar_name x (hnm x h1)
      · exact hall x h1
    have := (alias_host_unique heq ha hslen hs hpp hnm hsidlen hsid hport hnm_pwd hdom_pwd).2.1
    exact hu (by simpa using this)

/-- The part of `AliasFilter` after the alias, on the rest of an alias host:
the session id and the port are captured. -/
theorem aliasTailRe_takes {sid domain : List Char} {port : Option (List Char)}
    (hsidlen : sid.length = 8) (hsid : ∀ y ∈ sid, isDigitOrLower y = true)
    (hport : ∀ q, port = some q → digitsBetween 1 5 q = true)
    (hnl : '\n' ∉ domain) (p : Nat) (g0 g1 g2 : Option (List Char)) (k : Cont) (res : Caps)
    (hk : k (p + 1 + 8 + (portPart port).length + 1 + domain.length) []
      [g0, g1, some sid, port] = some res) :
    run aliasTailRe p ('-' :: (sid ++ (portPart port ++ '.' :: domain))) [g0, g1, g2, none] k
      = some res := by
  have hs : ∀ y ∈ sid, inRanges aliasSessionRanges y = true :=
    fun y hy => isDigitOrLower_session y (hsid y hy)
  rw [aliasTailRe, run_cat, run_char_cons, run_cat, run_group, aliasSessionRe,
    run_counted_exact _ sid 8 _ _ _ _ hsidlen hs, run_cat]
  have htake : List.take (p + 1 + 8 - (p + 1)) (sid ++ (portPart port ++ '.' :: domain)) = sid := by
    rw [show p + 1 + 8 - (p + 1) = 8 by omega]
    exact List.take_left' hsidlen
  cases port with
  | none =>
    apply optPortRe_skips
    apply aliasEnd_takes _ _ _ _ _ hnl
    rw [htake]
    simpa [portPart] using hk
  | some q =>
    apply optPortRe_takes _ _ _ _ _ _ _ (hport q rfl)
    apply aliasEnd_takes _ _ _ _ _ hnl
    rw [htake]
    simpa [portPart, Nat.add_assoc, Nat.add_comm] using hk

end config

namespace config

open regexp

theorem aliasHost_length (nm sid domain : List Char) (port : Option (List Char)) :
    (aliasHost nm sid port domain).length =
      3 + nm.length + 1 + sid.length + (portPart port).length + 1 + domain.length := by
  rw [aliasHost_eq]
  simp only [List.length_append, List.length_cons, List.length_nil]
  omega

/-- The part of `AliasFilter` after the leading `^.*`, at the start of an
alias host: the alias, the session id and the port are captured. -/
theorem aliasRestRe_takes {nm sid domain : List Char} {port : Option (List Char)}
    (hnm : ∀ y ∈ nm, isAliasChar y = true)
    (hsidlen : sid.length = 8) (hsid : ∀ y ∈ sid, isDigitOrLower y = true)
    (hport : ∀ q, port = some q → digitsBetween 1 5 q = true)
    (hnm_pwd : strings.containsChars ['p', 'w', 'd'] nm = false)
    (hdom_pwd : strings.containsChars ['p', 'w', 'd'] domain = false)
    (hnl : '\n' ∉ domain) (k : Cont) (res : Caps)
    (hk : k (aliasHost nm sid port domain).length [] [none, some nm, some sid, port] = some res) :
    run aliasRestRe 0 (aliasHost nm sid port domain) [none, none, none, none] k = some res := by
  rw [aliasHost_length, hsidlen] at hk
  rw [aliasHost_eq, aliasRestRe, run_cat, run_lit, run_cat, run_group, aliasNameRe, run_star]
  apply starLoop_takes (run (Re.cls aliasNameRanges)) (fun x => inRanges aliasNameRanges x)
    (run_cls_nil _) (run_cls_cons _)
  · exact fun x hx => isAliasChar_name x (hnm x hx)
  · exact le_refl _
  · intro u v hu huv hall
    exact aliasTailRe_fails_later hnm hsidlen hsid hport hnm_pwd hdom_pwd u v hu huv hall _ _ _
  · have htake : List.take (0 + ['p', 'w', 'd'].length + nm.length - (0 + ['p', 'w', 'd'].length))
        (nm ++ '-' :: (sid ++ (portPart port ++ '.' :: domain))) = nm := by
      apply List.take_left'
      simp
    show run aliasTailRe _ _ (List.set [none, none, none, none] 1 _) k = some res
    rw [htake]
    apply aliasTailRe_takes hsidlen hsid hport hnl
    rw [← hk]
    congr 1

/-- The one attempt of `AliasFilter` at the start of an alias host. -/
theorem matchHere_aliasHost {nm sid domain : List Char} {port : Option (List Char)}
    (hnm : ∀ y ∈ nm, isAliasChar y = true)
    (hsidlen : sid.length = 8) (hsid : ∀ y ∈ sid, isDigitOrLower y = true)
    (hport : ∀ q, port = some q → digitsBetween 1 5 q = true)
    (hnm_pwd : strings.containsChars ['p', 'w', 'd'] nm = false)
    (hdom_pwd : strings.containsChars ['p', 'w', 'd'] domain = false)
    (hnl : '\n' ∉ domain) :
    matchHere AliasFilter 0 (aliasHost nm sid port domain) =
      some [some (aliasHost nm sid port domain), some nm, some sid, port] := by
  have hre : AliasFilter = Re.cat Re.beginText (Re.cat (Re.star Re.anyNotNL) aliasRestRe) := rfl
  have hcaps : List.replicate (numGroups AliasFilter + 1) (none : Option (List Char)) =
      [none, none, none, none] := by decide
  rw [matchHere, hcaps, hre, run_cat, run_beginText, run_cat, run_star,
    starLoop_stops (run Re.anyNotNL) (fun x => decide (x ≠ '\n')) run_any_nil run_any_cons]
  · apply aliasRestRe_takes hnm hsidlen hsid hport hnm_pwd hdom_pwd hnl
    simp
  · intro u v hu huv _
    exact aliasRestRe_fails_later hnm hsidlen hsid hport hnm_pwd hdom_pwd u v hu huv _ _ _

/-- The leftmost match of `AliasFilter` on an alias host. -/
theorem findFrom_aliasHost {nm sid domain : List Char} {port : Option (List Char)}
    (hnm : ∀ y ∈ nm, isAliasChar y = true)
    (hsidlen : sid.length = 8) (hsid : ∀ y ∈ sid, isDigitOrLower y = true)
    (hport : ∀ q, port = some q → digitsBetween 1 5 q = true)
    (hnm_pwd : strings.containsChars ['p', 'w', 'd'] nm = false)
    (hdom_pwd : strings.containsChars ['p', 'w', 'd'] domain = false)
    (hnl : '\n' ∉ domain) :
    findFrom AliasFilter 0 (aliasHost nm sid port domain) =
      some [some (aliasHost nm sid port domain), some nm, some sid, port] := by
  have h := matchHere_aliasHost hnm hsidlen hsid hport hnm_pwd hdom_pwd hnl
  generalize aliasHost nm sid port domain = host at h ⊢
  cases host with
  | nil => exact h
  | cons x t => simp [findFrom, h]

end config

namespace config

open regexp

/-! ### Claim C19: the alias host round trip -/

/-- Claim C19, as stated, fails.  The claim puts no condition on the domain
and lets the alias hold `pwd`, but the leading `.*` of `AliasFilter` is greedy,
so the groups are read after the last `pwd` that starts a match, and `.` does
not match a line break.  With alias `a` and session id `abcdefgh`, the domain
`pwdb-12345678.x` gives the groups `b` and `12345678`; with the alias `a-pwdb`
the first group is `b`; with a domain of two lines there is no match. -/
theorem alias_round_trip_not_as_claimed :
    ((∀ x ∈ ['a'], isAliasChar x = true) ∧ (∀ x ∈ "a-pwdb".toList, isAliasChar x = true) ∧
      "abcdefgh".toList.length = 8 ∧ ∀ x ∈ "abcdefgh".toList, isDigitOrLower x = true) ∧
    FindStringSubmatch AliasFilter
      (String.mk (aliasHost ['a'] "abcdefgh".toList none "pwdb-12345678.x".toList)) =
        some ["pwda-abcdefgh.pwdb-12345678.x", "b", "12345678", ""] ∧
    FindStringSubmatch AliasFilter
      (String.mk (aliasHost "a-pwdb".toList "abcdefgh".toList none ['x'])) =
        some ["pwda-pwdb-abcdefgh.x", "b", "abcdefgh", ""] ∧
    FindStringSubmatch AliasFilter
      (String.mk (aliasHost ['a'] "abcdefgh".toList none ['x', '\n', 'y'])) = none := by
  decide

/-- Claim C19, amended: for every alias over `[0-9a-zA-Z-]` that does not
contain `pwd`, every 8-character session id over `[0-9a-z]`, every optional
port of 1 to 5 digits and every domain that has no line break and does not
contain `pwd`, `AliasFilter` matches the host
`pwd<alias>-<sessionId>[-<port>].<domain>`, and its capture groups are the
alias, the session id and the port (empty when absent) the host was built
from. -/
theorem alias_round_trip (aliasName sessionId domain : List Char) (port : Option (List Char))
    (halias : ∀ x ∈ aliasName, isAliasChar x = true)
    (hlen : sessionId.length = 8) (hsid : ∀ x ∈ sessionId, isDigitOrLower x = true)
    (hport : ∀ q, port = some q → digitsBetween 1 5 q = true)
    (halias_pwd : strings.containsChars ['p', 'w', 'd'] aliasName = false)
    (hdomain_pwd : strings.containsChars ['p', 'w', 'd'] domain = false)
    (hdomain_nl : '\n' ∉ domain) :
    FindStringSubmatch AliasFilter (String.mk (aliasHost aliasName sessionId port domain)) =
      some [String.mk (aliasHost aliasName sessionId port domain), String.mk aliasName,
        String.mk sessionId, String.mk (portText port)] := by
  have h := findFrom_aliasHost halias hlen hsid hport halias_pwd hdomain_pwd hdomain_nl
  unfold FindStringSubmatch
  show Option.map _ (findFrom AliasFilter 0 (aliasHost aliasName sessionId port domain)) = _
  rw [h]
  cases port <;> rfl

/-- Witness for `alias_round_trip`: the alias `node1`, the session id
`abcdefgh`, the port `8080` and the domain `localhost`. -/
theorem alias_round_trip_witness :
    FindStringSubmatch AliasFilter
      (String.mk (aliasHost "node1".toList "abcdefgh".toList (some "8080".toList)
        "localhost".toList)) =
      some ["pwdnode1-abcdefgh-8080.localhost", "node1", "abcdefgh", "8080"] :=
  alias_round_trip "node1".toList "abcdefgh".toList "localhost".toList (some "8080".toList)
    (by decide) (by decide) (by decide) (fun q h => by cases h; decide) (by decide) (by decide)
    (by decide)

end config

namespace config

open regexp

/-! ### The address host -/

theorem ipHost_eq (o1 o2 o3 o4 domain : List Char) (port : Option (List Char)) :
    ipHost o1 o2 o3 o4 port domain =
      ['i', 'p'] ++ (o1 ++ '-' :: (o2 ++ '-' :: (o3 ++ '-' :: (o4 ++
        (portPart port ++ '.' :: domain))))) := by
  simp [ipHost]

theorem ipAddr_eq (o1 o2 o3 o4 : List Char) :
    o1 ++ '-' :: o2 ++ '-' :: o3 ++ '-' :: o4 = o1 ++ '-' :: (o2 ++ '-' :: (o3 ++ '-' :: o4)) := by
  simp

theorem ipHost_length (o1 o2 o3 o4 domain : List Char) (port : Option (List Char)) :
    (ipHost o1 o2 o3 o4 port domain).length =
      2 + (o1 ++ '-' :: o2 ++ '-' :: o3 ++ '-' :: o4).length + (portPart port).length + 1
        + domain.length := by
  rw [ipHost_eq]
  simp only [List.length_append, List.length_cons, List.length_nil]
  omega

/-- No character of an address host before its domain is an `i`, the first
one apart. -/
theorem ipHost_no_i {o1 o2 o3 o4 : List Char} {port : Option (List Char)}
    (h1 : digitsBetween 1 3 o1 = true) (h2 : digitsBetween 1 3 o2 = true)
    (h3 : digitsBetween 1 3 o3 = true) (h4 : digitsBetween 1 3 o4 = true)
    (hport : ∀ q, port = some q → digitsBetween 1 5 q = true) :
    'i' ∉ 'p' :: (o1 ++ '-' :: (o2 ++ '-' :: (o3 ++ '-' :: (o4 ++ (portPart port ++ ['.']))))) := by
  have hd : ∀ {w : List Char} {lo hi : Nat}, digitsBetween lo hi w = true → 'i' ∉ w :=
    fun hw hi => (digitRange_ne _ ((digitsBetween_spec hw).2.2 _ hi)).2.2 rfl
  have hp : 'i' ∉ portPart port := by
    cases port with
    | none => simp [portPart]
    | some q =>
      intro hi
      rcases List.mem_cons.1 hi with h | h
      · revert h; decide
      · exact hd (hport q rfl) h
  intro hi
  simp only [List.mem_cons, List.mem_append, List.mem_singleton, List.mem_nil_iff] at hi
  rcases hi with h | h | h | h | h | h | h | h | h | h
  · revert h; decide
  · exact hd h1 h
  · revert h; decide
  · exact hd h2 h
  · revert h; decide
  · exact hd h3 h
  · revert h; decide
  · exact hd h4 h
  · exact hp h
  · revert h; decide

/-- In an address host whose domain does not contain `ip`, the text `ip`
occurs at the start only. -/
theorem ip_host_unique {u w o1 o2 o3 o4 domain : List Char} {port : Option (List Char)}
    (heq : ipHost o1 o2 o3 o4 port domain = u ++ (['i', 'p'] ++ w))
    (h1 : digitsBetween 1 3 o1 = true) (h2 : digitsBetween 1 3 o2 = true)
    (h3 : digitsBetween 1 3 o3 = true) (h4 : digitsBetween 1 3 o4 = true)
    (hport : ∀ q, port = some q → digitsBetween 1 5 q = true)
    (hdom : strings.containsChars ['i', 'p'] domain = false) : u = [] := by
  cases u with
  | nil => rfl
  | cons x u =>
    exfalso
    have hY := ipHost_no_i h1 h2 h3 h4 hport
    have h5 : u ++ 'i' :: 'p' :: w =
        ('p' :: (o1 ++ '-' :: (o2 ++ '-' :: (o3 ++ '-' :: (o4 ++ (portPart port ++ ['.']))))))
          ++ domain := by
      rw [ipHost_eq] at heq
      simp only [List.cons_append, List.nil_append, List.cons.injEq] at heq
      rw [← heq.2]
      simp
    rcases List.append_eq_append_iff.1 h5 with ⟨z, hz1, hz2⟩ | ⟨z, hz1, hz2⟩
    · cases z with
      | nil =>
        exact strings.not_occurs _ _ hdom [] w (by simpa using hz2.symm)
      | cons y z =>
        simp only [List.cons_append, List.cons.injEq] at hz2
        apply hY
        rw [hz1, ← hz2.1]
        simp
    · exact strings.not_occurs _ _ hdom z w (by rw [hz2]; simp)

/-- On an address host, the rest of `NameFilter` fails wherever the leading
`.*` has consumed anything. -/
theorem nameRestRe_fails_later {o1 o2 o3 o4 domain : List Char} {port : Option (List Char)}
    (h1 : digitsBetween 1 3 o1 = true) (h2 : digitsBetween 1 3 o2 = true)
    (h3 : digitsBetween 1 3 o3 = true) (h4 : digitsBetween 1 3 o4 = true)
    (hport : ∀ q, port = some q → digitsBetween 1 5 q = true)
    (hdom : strings.containsChars ['i', 'p'] domain = false)
    (u v : List Char) (hu : u ≠ []) (huv : ipHost o1 o2 o3 o4 port domain = u ++ v)
    (p : Nat) (c : Caps) (k : Cont) : run nameRestRe p v c k = none := by
  cases h : run nameRestRe p v c k with
  | none => rfl
  | some res =>
    exfalso
    obtain ⟨p1, r1, c1, hpath, _⟩ := run_sound _ _ _ _ _ _ h
    obtain ⟨_, r2, _, hlit, _⟩ := Matches.cat_inv hpath
    rw [Matches.lit_inv _ hlit] at huv
    exact hu (ip_host_unique huv h1 h2 h3 h4 hport hdom)

end config

namespace config

open regexp

/-! ### Evaluating `NameFilter` on an address host -/

/-- An octet before a character that is no digit is consumed whole. -/
theorem octet_takes (o : List Char) (p : Nat) (y : Char) (t : List Char) (c : Caps) (k : Cont)
    (res : Caps) (ho : digitsBetween 1 3 o = true) (hy : inRanges [('0', '9')] y = false)
    (hk : k (p + o.length) (y :: t) c = some res) :
    run (counted digitClass 1 3) p (o ++ y :: t) c k = some res := by
  obtain ⟨hlo, hhi, hall⟩ := digitsBetween_spec ho
  exact run_counted_one [('0', '9')] 3 o p (y :: t) c k res hall hlo hhi
    (Or.inr (Or.inr ⟨y, t, rfl, hy⟩)) hk

/-- The address pattern consumes four octets joined by hyphens, before a
character that is no digit. -/
theorem pwdDomainRe_takes (o1 o2 o3 o4 : List Char) (p : Nat) (y : Char) (t : List Char)
    (c : Caps) (k : Cont) (res : Caps)
    (h1 : digitsBetween 1 3 o1 = true) (h2 : digitsBetween 1 3 o2 = true)
    (h3 : digitsBetween 1 3 o3 = true) (h4 : digitsBetween 1 3 o4 = true)
    (hy : inRanges [('0', '9')] y = false)
    (hk : k (p + o1.length + 1 + o2.length + 1 + o3.length + 1 + o4.length) (y :: t) c
      = some res) :
    run pwdDomainRe p (o1 ++ '-' :: (o2 ++ '-' :: (o3 ++ '-' :: (o4 ++ y :: t)))) c k
      = some res := by
  have hhy : inRanges [('0', '9')] '-' = false := by decide
  rw [pwdDomainRe, run_cat]
  apply octet_takes o1 _ _ _ _ _ _ h1 hhy
  show run _ _ _ _ _ = some res
  rw [run_cat, run_char_cons, run_cat]
  apply octet_takes o2 _ _ _ _ _ _ h2 hhy
  show run _ _ _ _ _ = some res
  rw [run_cat, run_char_cons, run_cat]
  apply octet_takes o3 _ _ _ _ _ _ h3 hhy
  show run _ _ _ _ _ = some res
  rw [run_cat, run_char_cons]
  exact octet_takes o4 _ _ _ _ _ _ h4 hy hk

/-- The part of `NameFilter` after the address, on the rest of an address
host: the port is captured. -/
theorem nameTailRe_takes {domain : List Char} {port : Option (List Char)}
    (hport : ∀ q, port = some q → digitsBetween 1 5 q = true)
    (hnl : '\n' ∉ domain) (p : Nat) (g0 g1 : Option (List Char)) (k : Cont) (res : Caps)
    (hk : k (p + (portPart port).length + 1 + domain.length) [] [g0, g1, port] = some res) :
    run nameTailRe p (portPart port ++ '.' :: domain) [g0, g1, none] k = some res := by
  rw [nameTailRe, run_cat]
  cases port with
  | none =>
    apply optPortRe_skips
    apply nameEnd_takes _ _ _ _ _ hnl
    simpa [portPart] using hk
  | some q =>
    apply optPortRe_takes _ _ _ _ _ _ _ (hport q rfl)
    apply nameEnd_takes _ _ _ _ _ hnl
    rw [← hk]
    congr 1
    simp only [portPart, List.length_cons]
    omega

/-- What follows the address in an address host starts with a character that
is no digit. -/
theorem portPart_dot_head (port : Option (List Char)) (domain : List Char) :
    ∃ y t, portPart port ++ '.' :: domain = y :: t ∧ inRanges [('0', '9')] y = false := by
  cases port with
  | none => exact ⟨'.', domain, rfl, by decide⟩
  | some q => exact ⟨'-', q ++ '.' :: domain, rfl, by decide⟩

/-- The part of `NameFilter` after the leading `^.*`, at the start of an
address host: the address and the port are captured. -/
theorem nameRestRe_takes {o1 o2 o3 o4 domain : List Char} {port : Option (List Char)}
    (h1 : digitsBetween 1 3 o1 = true) (h2 : digitsBetween 1 3 o2 = true)
    (h3 : digitsBetween 1 3 o3 = true) (h4 : digitsBetween 1 3 o4 = true)
    (hport : ∀ q, port = some q → digitsBetween 1 5 q = true)
    (hnl : '\n' ∉ domain) (k : Cont) (res : Caps)
    (hk : k (ipHost o1 o2 o3 o4 port domain).length []
      [none, some (o1 ++ '-' :: o2 ++ '-' :: o3 ++ '-' :: o4), port] = some res) :
    run nameRestRe 0 (ipHost o1 o2 o3 o4 port domain) [none, none, none] k = some res := by
  rw [ipHost_length] at hk
  rw [ipHost_eq, nameRestRe, run_cat, run_lit, run_cat, run_group]
  obtain ⟨y, t, hyt, hy⟩ := portPart_dot_head port domain
  have htake : List.take
      (0 + ['i', 'p'].length + o1.length + 1 + o2.length + 1 + o3.length + 1 + o4.length
        - (0 + ['i', 'p'].length))
      (o1 ++ '-' :: (o2 ++ '-' :: (o3 ++ '-' :: (o4 ++ (portPart port ++ '.' :: domain))))) =
      o1 ++ '-' :: o2 ++ '-' :: o3 ++ '-' :: o4 := by
    have hsplit : o1 ++ '-' :: (o2 ++ '-' :: (o3 ++ '-' :: (o4 ++ (portPart port ++ '.' :: domain))))
        = (o1 ++ '-' :: o2 ++ '-' :: o3 ++ '-' :: o4) ++ (portPart port ++ '.' :: domain) := by
      simp
    rw [hsplit]
    apply List.take_left'
    simp only [List.length_append, List.length_cons, List.length_nil]
    omega
  rw [hyt] at htake ⊢
  apply pwdDomainRe_takes o1 o2 o3 o4 _ y t _ _ _ h1 h2 h3 h4 hy
  show run nameTailRe _ _ (List.set [none, none, none] 1 _) k = some res
  rw [htake, ← hyt]
  apply nameTailRe_takes hport hnl
  rw [← hk]
  congr 1
  simp only [List.length_append, List.length_cons, List.length_nil]
  omega

/-- The one attempt of `NameFilter` at the start of an address host. -/
theorem matchHere_ipHost {o1 o2 o3 o4 domain : List Char} {port : Option (List Char)}
    (h1 : digitsBetween 1 3 o1 = true) (h2 : digitsBetween 1 3 o2 = true)
    (h3 : digitsBetween 1 3 o3 = true) (h4 : digitsBetween 1 3 o4 = true)
    (hport : ∀ q, port = some q → digitsBetween 1 5 q = true)
    (hdom : strings.containsChars ['i', 'p'] domain = false)
    (hnl : '\n' ∉ domain) :
    matchHere NameFilter 0 (ipHost o1 o2 o3 o4 port domain) =
      some [some (ipHost o1 o2 o3 o4 port domain),
        some (o1 ++ '-' :: o2 ++ '-' :: o3 ++ '-' :: o4), port] := by
  have hre : NameFilter = Re.cat Re.beginText (Re.cat (Re.star Re.anyNotNL) nameRestRe) := rfl
  have hcaps : List.replicate (numGroups NameFilter + 1) (none : Option (List Char)) =
      [none, none, none] := by decide
  rw [matchHere, hcaps, hre, run_cat, run_beginText, run_cat, run_star,
    starLoop_stops (run Re.anyNotNL) (fun x => decide (x ≠ '\n')) run_any_nil run_any_cons]
  · apply nameRestRe_takes h1 h2 h3 h4 hport hnl
    simp
  · intro u v hu huv _
    exact nameRestRe_fails_later h1 h2 h3 h4 hport hdom u v hu huv _ _ _

/-- The leftmost match of `NameFilter` on an address host. -/
theorem findFrom_ipHost {o1 o2 o3 o4 domain : List Char} {port : Option (List Char)}
    (h1 : digitsBetween 1 3 o1 = true) (h2 : digitsBetween 1 3 o2 = true)
    (h3 : digitsBetween 1 3 o3 = true) (h4 : digitsBetween 1 3 o4 = true)
    (hport : ∀ q, port = some q → digitsBetween 1 5 q = true)
    (hdom : strings.containsChars ['i', 'p'] domain = false)
    (hnl : '\n' ∉ domain) :
    findFrom NameFilter 0 (ipHost o1 o2 o3 o4 port domain) =
      some [some (ipHost o1 o2 o3 o4 port domain),
        some (o1 ++ '-' :: o2 ++ '-' :: o3 ++ '-' :: o4), port] := by
  have h := matchHere_ipHost h1 h2 h3 h4 hport hdom hnl
  generalize ipHost o1 o2 o3 o4 port domain = host at h ⊢
  cases host with
  | nil => exact h
  | cons x t => simp [findFrom, h]

/-! ### Claim C20: the address host round trip -/

/-- Claim C20: for every four octet strings `A`, `B`, `C`, `D` of 1 to 3
decimal digits, every optional port of 1 to 5 digits, and every domain that
has no line break and no occurrence of `ip`, `NameFilter` matches the host
`ip<A>-<B>-<C>-<D>[-<port>].<domain>`, its first capture group is `A-B-C-D`
and its second capture group is the port (empty when absent). -/
theorem ip_round_trip (o1 o2 o3 o4 domain : List Char) (port : Option (List Char))
    (h1 : digitsBetween 1 3 o1 = true) (h2 : digitsBetween 1 3 o2 = true)
    (h3 : digitsBetween 1 3 o3 = true) (h4 : digitsBetween 1 3 o4 = true)
    (hport : ∀ q, port = some q → digitsBetween 1 5 q = true)
    (hdomain_ip : strings.containsChars ['i', 'p'] domain = false)
    (hdomain_nl : '\n' ∉ domain) :
    FindStringSubmatch NameFilter (String.mk (ipHost o1 o2 o3 o4 port domain)) =
      some [String.mk (ipHost o1 o2 o3 o4 port domain),
        String.mk (o1 ++ '-' :: o2 ++ '-' :: o3 ++ '-' :: o4), String.mk (portText port)] := by
  have h := findFrom_ipHost h1 h2 h3 h4 hport hdomain_ip hdomain_nl
  unfold FindStringSubmatch
  show Option.map _ (findFrom NameFilter 0 (ipHost o1 o2 o3 o4 port domain)) = _
  rw [h]
  cases port <;> rfl

/-- Witness for `ip_round_trip`: the address `10.0.0.1`, the port `8080` and
the domain `localhost`. -/
theorem ip_round_trip_witness :
    FindStringSubmatch NameFilter
      (String.mk (ipHost "10".toList ['0'] ['0'] ['1'] (some "8080".toList)
        "localhost".toList)) =
      some ["ip10-0-0-1-8080.localhost", "10-0-0-1", "8080"] :=
  ip_round_trip "10".toList ['0'] ['0'] ['1'] "localhost".toList (some "8080".toList)
    (by decide) (by decide) (by decide) (by decide) (fun q h => by cases h; decide) (by decide)
    (by decide)

end config

namespace handlers

open types

/-! ### Claims C21 and C22: getting and closing a session -/

/-- Claim C21 fails on the code: `GetSession` answers 404 whatever error
`core.SessionGet` reports, the distinguished `NotFoundError` or any other, so
another error is not surfaced as a server error.  On a core whose `SessionGet`
fails with `unexpected EOF` the answer is 404 and nothing else is done.  The
rest of the claim holds: an error of `InstanceFindBySession` is answered with
500. -/
theorem get_session_other_error_is_404 (env : SessionEnv) (req : RouteRequest) (err : Err) :
    (GetSession { env with SessionGet := fun _ => Except.error err } req).resp.status
      = StatusNotFound ∧
    ("unexpected EOF" ≠ storage.NotFoundError ∧
      GetSession { sampleSessionEnv with SessionGet := fun _ => Except.error "unexpected EOF" }
        (sampleRouteRequest "abcdefgh")
        = ⟨writeStatus 404, [Effect.SessionGet "abcdefgh"]⟩) ∧
    (GetSession { sampleSessionEnv with InstanceFindBySession := fun _ => Except.error err }
      (sampleRouteRequest "abcdefgh")).resp.status = StatusInternalServerError := by
  refine ⟨?_, ⟨by decide, by decide⟩, ?_⟩
  · simp only [GetSession]
    split <;> rfl
  · rfl

/-- What `CloseSession` does in each case of its calls. -/
theorem CloseSession_cases (env : SessionEnv) (req : RouteRequest) :
    (∃ err, env.SessionGet (req.Var "sessionId") = Except.error err ∧
      removedOf (CloseSession env req).effects = [] ∧
      (CloseSession env req).resp.status
        = if err = storage.NotFoundError then StatusNotFound else StatusInternalServerError) ∨
    (∃ s err, env.SessionGet (req.Var "sessionId") = Except.ok s ∧
      env.SessionClose s = some err ∧ removedOf (CloseSession env req).effects = [] ∧
      (CloseSession env req).resp.status = StatusInternalServerError) ∨
    (∃ s err, env.SessionGet (req.Var "sessionId") = Except.ok s ∧
      env.SessionClose s = none ∧ env.AbsUserVolumePath s = Except.error err ∧
      removedOf (CloseSession env req).effects = [] ∧
      (CloseSession env req).resp.status = StatusInternalServerError) ∨
    (∃ s volpath, env.SessionGet (req.Var "sessionId") = Except.ok s ∧
      env.SessionClose s = none ∧ env.AbsUserVolumePath s = Except.ok volpath ∧
      removedOf (CloseSession env req).effects = [volpath] ∧
      (CloseSession env req).resp.status = StatusOK) := by
  cases hget : env.SessionGet (req.Var "sessionId") with
  | error err =>
    refine Or.inl ⟨err, rfl, ?_, ?_⟩
    · simp only [CloseSession, hget]
      split <;> rfl
    · simp only [CloseSession, hget]
      split <;> rfl
  | ok s =>
    refine Or.inr ?_
    cases hclose : env.SessionClose s with
    | some err =>
      refine Or.inl ⟨s, err, rfl, hclose, ?_, ?_⟩ <;> simp only [CloseSession, hget, hclose] <;> rfl
    | none =>
      refine Or.inr ?_
      cases hvol : env.AbsUserVolumePath s with
      | error err =>
        refine Or.inl ⟨s, err, rfl, hclose, hvol, ?_, ?_⟩ <;>
          simp only [CloseSession, hget, hclose, hvol] <;> rfl
      | ok volpath =>
        refine Or.inr ⟨s, volpath, rfl, hclose, hvol, ?_, ?_⟩
        · simp only [CloseSession, hget, hclose, hvol]
          rfl
        · simp only [CloseSession, hget, hclose, hvol]

/-- Claim C22: when `CloseSession` finds the session, `core.SessionClose`
succeeds and `provisioner.AbsUserVolumePath` returns the path of the user
data of the session, `CloseSession` removes that path and no other; when the
session is not found it answers 404 and when `SessionClose` fails it answers
500, removing nothing in either case; and whatever happens, a path it removes
is the path `AbsUserVolumePath` returned for the session found and closed. -/
theorem close_session_removes (env : SessionEnv) (req : RouteRequest) :
    (∀ s volpath, env.SessionGet (req.Var "sessionId") = Except.ok s →
      env.SessionClose s = none → env.AbsUserVolumePath s = Except.ok volpath →
      removedOf (CloseSession env req).effects = [volpath]) ∧
    (env.SessionGet (req.Var "sessionId") = Except.error storage.NotFoundError →
      (CloseSession env req).resp.status = StatusNotFound ∧
      removedOf (CloseSession env req).effects = []) ∧
    (∀ s err, env.SessionGet (req.Var "sessionId") = Except.ok s →
      env.SessionClose s = some err →
      (CloseSession env req).resp.status = StatusInternalServerError ∧
      removedOf (CloseSession env req).effects = []) ∧
    (∀ path ∈ removedOf (CloseSession env req).effects,
      ∃ s, env.SessionGet (req.Var "sessionId") = Except.ok s ∧ env.SessionClose s = none ∧
        env.AbsUserVolumePath s = Except.ok path) := by
  refine ⟨?_, ?_, ?_, ?_⟩
  · intro s volpath hget hclose hvol
    simp only [CloseSession, hget, hclose, hvol]
    rfl
  · intro hget
    simp only [CloseSession, hget]
    exact ⟨rfl, rfl⟩
  · intro s err hget hclose
    simp only [CloseSession, hget, hclose]
    exact ⟨rfl, rfl⟩
  · intro path hpath
    rcases CloseSession_cases env req with ⟨_, _, h, _⟩ | ⟨_, _, _, _, h, _⟩ |
      ⟨_, _, _, _, _, h, _⟩ | ⟨s, volpath, hget, hclose, hvol, h, _⟩
    · rw [h] at hpath; cases hpath
    · rw [h] at hpath; cases hpath
    · rw [h] at hpath; cases hpath
    · rw [h, List.mem_singleton] at hpath
      exact ⟨s, hget, hclose, hpath ▸ hvol⟩

/-- Witness for `close_session_removes`: closing the session `abcdefgh` removes
`/pwd/data/abcdefgh`. -/
theorem close_session_removes_witness :
    removedOf (CloseSession sampleSessionEnv (sampleRouteRequest "abcdefgh")).effects
      = ["/pwd/data/abcdefgh"] :=
  (close_session_removes sampleSessionEnv (sampleRouteRequest "abcdefgh")).1
    ⟨"abcdefgh"⟩ "/pwd/data/abcdefgh" rfl (by decide) rfl

end handlers

namespace config

/-! ### Claim C26: reading a variable of the environment -/

theorem utf8ByteSize_go_pos (cs : List Char) (h : cs ≠ []) : 0 < String.utf8ByteSize.go cs := by
  cases cs with
  | nil => exact absurd rfl h
  | cons c cs =>
    have := Char.utf8Size_pos c
    simp only [String.utf8ByteSize.go]
    omega

/-- Go `len(s) == 0` holds of the empty string only. -/
theorem utf8ByteSize_eq_zero (s : String) : s.utf8ByteSize = 0 ↔ s = "" := by
  constructor
  · intro h
    cases s with
    | mk cs =>
      cases cs with
      | nil => rfl
      | cons c cs =>
        have := utf8ByteSize_go_pos (c :: cs) (by simp)
        simp only [String.utf8ByteSize] at h
        omega
  · intro h
    rw [h]
    rfl

/-- The leading white space, the trimmed text and the trailing white space
make up the text; the trimmed text neither starts nor ends with white space. -/
theorem trimChars_spec (s : List Char) :
    ∃ l r, s = l ++ trimChars s ++ r ∧ (∀ c ∈ l, isSpace c = true) ∧
      (∀ c ∈ r, isSpace c = true) ∧
      (∀ c, (trimChars s).head? = some c → isSpace c = false) ∧
      (∀ c, (trimChars s).getLast? = some c → isSpace c = false) := by
  have hsplit := List.takeWhile_append_dropWhile isSpace s
  have hsplit2 := List.takeWhile_append_dropWhile isSpace (s.dropWhile isSpace).reverse
  have hm : s.dropWhile isSpace =
      trimChars s ++ ((s.dropWhile isSpace).reverse.takeWhile isSpace).reverse := by
    have := congrArg List.reverse hsplit2
    rw [List.reverse_append, List.reverse_reverse] at this
    exact this.symm
  have hlast : ∀ c, (trimChars s).getLast? = some c → isSpace c = false := by
    intro c hc
    unfold trimChars at hc
    rw [List.getLast?_reverse] at hc
    cases hd : (s.dropWhile isSpace).reverse.dropWhile isSpace with
    | nil => rw [hd] at hc; cases hc
    | cons x t =>
      rw [hd] at hc
      have hx : x = c := by simpa using hc
      have := List.head_dropWhile_not isSpace (s.dropWhile isSpace).reverse (by rw [hd]; simp)
      simp only [hd, List.head_cons] at this
      rw [← hx]
      simpa using this
  refine ⟨s.takeWhile isSpace, ((s.dropWhile isSpace).reverse.takeWhile isSpace).reverse,
    ?_, ?_, ?_, ?_, hlast⟩
  · rw [List.append_assoc, ← hm, hsplit]
  · intro c hc
    exact (List.mem_takeWhile_imp hc)
  · intro c hc
    exact List.mem_takeWhile_imp (List.mem_reverse.1 hc)
  · intro c hc
    cases ht : trimChars s with
    | nil => rw [ht] at hc; cases hc
    | cons x t =>
      rw [ht] at hc hm
      have hx : x = c := by simpa using hc
      have h := List.head?_dropWhile_not isSpace s
      have hh : (s.dropWhile isSpace).head? = some x := by rw [hm]; rfl
      rw [hh] at h
      rw [← hx]
      exact h

/-- Claim C26: for every variable name and default, `GetEnvString` returns the
trimmed value of the variable when the name is not empty and the trimmed value
is not empty, and the default otherwise; `SanitizeEnv` fails exactly when the
name is empty or the trimmed value is empty, and succeeds with the trimmed
value; the trimmed value is the value less its leading and trailing white
space. -/
theorem get_env_string (getenv : String → String) (envName envDefault : String) :
    GetEnvString getenv envName envDefault =
      (if envName ≠ "" ∧ TrimSpace (getenv envName) ≠ "" then TrimSpace (getenv envName)
        else envDefault) ∧
    ((∃ e, SanitizeEnv getenv envName = Except.error e) ↔
      (envName = "" ∨ TrimSpace (getenv envName) = "")) ∧
    (∀ v, SanitizeEnv getenv envName = Except.ok v → v = TrimSpace (getenv envName)) ∧
    (∃ l r, (getenv envName).toList = l ++ (TrimSpace (getenv envName)).toList ++ r ∧
      (∀ c ∈ l, isSpace c = true) ∧ (∀ c ∈ r, isSpace c = true) ∧
      (∀ c, (TrimSpace (getenv envName)).toList.head? = some c → isSpace c = false) ∧
      (∀ c, (TrimSpace (getenv envName)).toList.getLast? = some c → isSpace c = false)) := by
  refine ⟨?_, ?_, ?_, trimChars_spec (getenv envName).toList⟩
  · unfold GetEnvString SanitizeEnv
    by_cases h1 : envName = ""
    · simp [h1, (utf8ByteSize_eq_zero _).2 rfl]
    · have h1b : envName.utf8ByteSize ≠ 0 := fun h => h1 ((utf8ByteSize_eq_zero _).1 h)
      by_cases h2 : TrimSpace (getenv envName) = ""
      · simp [h1, h1b, h2, (utf8ByteSize_eq_zero _).2 rfl]
      · have h2b : (TrimSpace (getenv envName)).utf8ByteSize ≠ 0 :=
          fun h => h2 ((utf8ByteSize_eq_zero _).1 h)
        simp [h1, h1b, h2, h2b]
  · unfold SanitizeEnv
    by_cases h1 : envName = ""
    · simp [h1, (utf8ByteSize_eq_zero _).2 rfl]
    · have h1b : envName.utf8ByteSize ≠ 0 := fun h => h1 ((utf8ByteSize_eq_zero _).1 h)
      by_cases h2 : TrimSpace (getenv envName) = ""
      · simp [h1, h1b, h2, (utf8ByteSize_eq_zero _).2 rfl]
      · have h2b : (TrimSpace (getenv envName)).utf8ByteSize ≠ 0 :=
          fun h => h2 ((utf8ByteSize_eq_zero _).1 h)
        simp [h1, h1b, h2, h2b]
  · intro v hv
    unfold SanitizeEnv at hv
    split at hv
    · cases hv
    · dsimp only at hv
      split at hv
      · cases hv
      · cases hv
        rfl

/-- Witness for `get_env_string`: a domain set with white space around it is
returned trimmed, and an unset variable gives the default. -/
theorem get_env_string_witness :
    GetEnvString (fun name => if name = "PWD_DOMAIN" then "  play.example.com\n" else "")
      "PWD_DOMAIN" "localhost" = "play.example.com" ∧
    GetEnvString (fun name => if name = "PWD_DOMAIN" then "  play.example.com\n" else "")
      "PWD_PORT" "3000" = "3000" :=
  ⟨(get_env_string (fun name => if name = "PWD_DOMAIN" then "  play.example.com\n" else "")
      "PWD_DOMAIN" "localhost").1.trans (by decide),
    (get_env_string (fun name => if name = "PWD_DOMAIN" then "  play.example.com\n" else "")
      "PWD_PORT" "3000").1.trans (by decide)⟩

end config

namespace handlers

open types config

/-! ### Claims C23 and C29: the admin token -/

/-- Claim C23: `NewPlayground` and `ListPlaygrounds` answer 403 and make no
call on the core when `ValidateToken` rejects the request, and do not answer
403 when it accepts it; `ValidateToken` accepts a request if and only if the
request carries credentials whose password is `config.AdminToken`. -/
theorem admin_requires_token (flags : Flags) (env : PlaygroundEnv) (req : AdminRequest) :
    (ValidateToken flags req = false →
      (NewPlayground flags env req).status = StatusForbidden ∧
      (NewPlayground flags env req).calls = [] ∧
      (ListPlaygrounds flags env req).status = StatusForbidden ∧
      (ListPlaygrounds flags env req).calls = []) ∧
    (ValidateToken flags req = true →
      (NewPlayground flags env req).status ≠ StatusForbidden ∧
      (ListPlaygrounds flags env req).status ≠ StatusForbidden) ∧
    (ValidateToken flags req = true ↔ ∃ user, req.BasicAuth = some (user, flags.AdminToken)) := by
  refine ⟨?_, ?_, ?_⟩
  · intro h
    simp [NewPlayground, ListPlaygrounds, h]
  · intro h
    constructor
    · cases hd : env.decodePlayground req.Body with
      | error err => simp [NewPlayground, h, hd, StatusBadRequest, StatusForbidden]
      | ok playground =>
        cases hn : env.PlaygroundNew playground with
        | error err => simp [NewPlayground, h, hd, hn, StatusBadRequest, StatusForbidden]
        | ok newPlayground => simp [NewPlayground, h, hd, hn, StatusOK, StatusForbidden]
    · cases hl : env.PlaygroundList with
      | error err => simp [ListPlaygrounds, h, hl, StatusInternalServerError, StatusForbidden]
      | ok playgrounds => simp [ListPlaygrounds, h, hl, StatusOK, StatusForbidden]
  · unfold ValidateToken
    cases hauth : req.BasicAuth with
    | none => simp
    | some up =>
      obtain ⟨user, password⟩ := up
      by_cases hp : password = flags.AdminToken
      · simp [hp]
      · simp [hp]

/-- Witness for `admin_requires_token`: a request without credentials is
answered with 403 and no call is made. -/
theorem admin_requires_token_witness :
    (NewPlayground (sampleFlags "s3cret") samplePlaygroundEnv ⟨none, ""⟩).status = StatusForbidden ∧
    (NewPlayground (sampleFlags "s3cret") samplePlaygroundEnv ⟨none, ""⟩).calls = [] ∧
    (ListPlaygrounds (sampleFlags "s3cret") samplePlaygroundEnv ⟨none, ""⟩).status
      = StatusForbidden ∧
    (ListPlaygrounds (sampleFlags "s3cret") samplePlaygroundEnv ⟨none, ""⟩).calls = [] :=
  (admin_requires_token (sampleFlags "s3cret") samplePlaygroundEnv ⟨none, ""⟩).1 (by decide)

/-- Claim C29 fails on the code: with no admin token configured,
`ValidateToken` accepts every request that carries credentials with an empty
password, whatever the user name.  With no variable set and no flag given
`ParseFlags` leaves `AdminToken` empty, and a request with the credentials
`admin:` then lists the playgrounds. -/
theorem empty_token_accepts_empty_password (flags : Flags) (user body : String) :
    ValidateToken { flags with AdminToken := "" } ⟨some (user, ""), body⟩ = true ∧
    (ParseFlags noEnv noArgs).map (fun f => f.AdminToken) = some "" ∧
    (ParseFlags noEnv noArgs).map
      (fun f => ListPlaygrounds f samplePlaygroundEnv ⟨some ("admin", ""), ""⟩) =
      some ⟨StatusOK, some "application/json", PlaygroundBody.playgrounds [samplePlayground],
        [PlaygroundCall.PlaygroundList], []⟩ := by
  refine ⟨?_, by decide, by decide⟩
  simp [ValidateToken]

end handlers

namespace main

open types config

/-! ### Claim C24: Windows instances of the default playground -/

/-- Claim C24 fails on the code: `main` copies `config.NoWindows` into
`AllowWindowsInstances`, so the default playground allows Windows instances
exactly when Windows support is disabled.  With no variable set and no flag
given `NoWindows` is true and the playground allows Windows instances; with
`-windows-disable=false` it does not. -/
theorem default_playground_allows_windows (flags : Flags) (dindImage : String) (d : Int) :
    (playground flags dindImage d).AllowWindowsInstances = flags.NoWindows ∧
    (ParseFlags noEnv noArgs).map (fun f => f.NoWindows) = some true ∧
    (startupPlayground noEnv noArgs (fun _ => Except.ok 14400000000000)).map
      (fun p => p.AllowWindowsInstances) = some true ∧
    (startupPlayground noEnv
      (fun name => if name = "windows-disable" then some "false" else none)
      (fun _ => Except.ok 14400000000000)).map (fun p => p.AllowWindowsInstances)
      = some false := by
  refine ⟨rfl, by decide, by decide, by decide⟩

end main

namespace docker

/-! ### Claim C25: the published ports -/

theorem portLoop_eq (ports : List Port) : ∀ acc : List Nat,
    ports.foldl (fun openPorts p =>
      if p.PublicPort ≠ 0 then openPorts ++ [p.PublicPort] else openPorts) acc
      = acc ++ (ports.map (fun p => p.PublicPort)).filter (fun x => decide (x ≠ 0)) := by
  induction ports with
  | nil => intro acc; simp
  | cons p ports ih =>
    intro acc
    simp only [List.foldl_cons, ih, List.map_cons, List.filter_cons]
    by_cases hp : p.PublicPort = 0
    · simp [hp]
    · simp [hp]

theorem containerLoop_eq (containers : List Container) : ∀ acc : List Nat,
    containers.foldl (fun openPorts c =>
      c.Ports.foldl (fun openPorts p =>
        if p.PublicPort ≠ 0 then openPorts ++ [p.PublicPort] else openPorts) openPorts) acc
      = acc ++ ((containers.map (fun c => c.Ports.map (fun p => p.PublicPort))).flatten).filter
          (fun x => decide (x ≠ 0)) := by
  induction containers with
  | nil => intro acc; simp
  | cons c containers ih =>
    intro acc
    rw [List.foldl_cons, ih, portLoop_eq]
    simp only [List.map_cons, List.flatten_cons, List.filter_append, List.append_assoc]

/-- Claim C25: when the daemon lists the containers, `GetPorts` returns the
public ports of all listed containers that are not 0, containers in order
and ports in order within a container; the result never contains 0; and when
no port is published the result is the empty list and no error. -/
theorem get_ports (containers : List Container) :
    GetPorts (Except.ok containers) =
      Except.ok (((containers.map (fun c => c.Ports.map (fun p => p.PublicPort))).flatten).filter
        (fun x => decide (x ≠ 0))) ∧
    0 ∉ openPortsOf containers ∧
    ((∀ c ∈ containers, ∀ p ∈ c.Ports, p.PublicPort = 0) →
      GetPorts (Except.ok containers) = Except.ok []) := by
  have hopen : openPortsOf containers =
      ((containers.map (fun c => c.Ports.map (fun p => p.PublicPort))).flatten).filter
        (fun x => decide (x ≠ 0)) := by
    unfold openPortsOf
    rw [containerLoop_eq]
    rfl
  refine ⟨by simp only [GetPorts, hopen], ?_, ?_⟩
  · rw [hopen]
    intro h
    simpa using (List.mem_filter.1 h).2
  · intro hnone
    simp only [GetPorts, hopen]
    congr 1
    rw [List.filter_eq_nil_iff]
    intro x hx
    obtain ⟨l, hl, hxl⟩ := List.mem_flatten.1 hx
    obtain ⟨c, hc, rfl⟩ := List.mem_map.1 hl
    obtain ⟨p, hp, rfl⟩ := List.mem_map.1 hxl
    simp [hnone c hc p hp]

/-- Witness for `get_ports`: two containers of which no port is published. -/
theorem get_ports_witness :
    GetPorts (Except.ok [⟨"c0ffee", [], "franela/dind", [⟨"", 443, 0, "tcp"⟩]⟩,
      ⟨"decaf0", [], "franela/dind", []⟩]) = Except.ok [] :=
  (get_ports [⟨"c0ffee", [], "franela/dind", [⟨"", 443, 0, "tcp"⟩]⟩,
    ⟨"decaf0", [], "franela/dind", []⟩]).2.2 (by decide)

end docker

namespace docker

open config

/-! ### Claims C27 and C28: the first network and the pulls -/

/-- Claim C27 fails on the code: a create request whose `Networks` list is
empty makes `ContainerCreate` index `opts.Networks[0]` out of range, so the
call panics before any call on the daemon and returns nothing. -/
theorem create_without_network_panics (cfg : Config) (d : Daemon) (opts : CreateContainerOpts) :
    ContainerCreate cfg d { opts with Networks := [] } =
      ⟨[], Outcome.panicked "runtime error: index out of range [0] with length 0"⟩ ∧
    (ContainerCreate sampleConfig healthyDaemon { sampleOpts with Networks := [] }).outcome ≠
      Outcome.returned none := by
  refine ⟨rfl, by decide⟩

/-- The pulls of the image selection are at most two, and at most one when
the search did not fail. -/
theorem selectImage_pull_count (cfg : Config) (d : Daemon) (opts : CreateContainerOpts)
    (hist : List Call) :
    ∃ n, n ≤ 2 ∧
      pullsOf (selectImage cfg d opts hist).1 = pullsOf hist ++ List.replicate n opts.Image ∧
      ((d.ImageSearch (hist ++ [Call.ImageSearch opts.Image 5])).2 = none → n ≤ 1) := by
  have hq : pullsOf (hist ++ [Call.ImageSearch opts.Image 5]) = pullsOf hist := by
    simp [pullsOf, List.filterMap_append]
  simp only [selectImage]
  cases hs : (d.ImageSearch (hist ++ [Call.ImageSearch opts.Image 5])).2 with
  | some e =>
    simp only []
    have h1 := PullImage_pulls d opts.Image (hist ++ [Call.ImageSearch opts.Image 5])
    rw [hq] at h1
    split
    · rename_i hist2 e2 heq
      rw [heq] at h1
      exact ⟨1, by omega, by simpa using h1, by simp⟩
    · rename_i hist2 heq
      rw [heq] at h1
      have h2 : pullsOf hist2 = pullsOf hist ++ [opts.Image] := h1
      split
      · refine ⟨2, le_refl 2, ?_, by simp⟩
        rw [PullImage_pulls, h2]
        simp [List.replicate]
      · split
        · refine ⟨2, le_refl 2, ?_, by simp⟩
          rw [PullImage_pulls, h2]
          simp [List.replicate]
        · exact ⟨1, by omega, by simpa using h2, by simp⟩
  | none =>
    simp only []
    split
    · refine ⟨1, by omega, ?_, fun _ => le_refl 1⟩
      rw [PullImage_pulls, hq]
      simp
    · split
      · refine ⟨1, by omega, ?_, fun _ => le_refl 1⟩
        rw [PullImage_pulls, hq]
        simp
      · exact ⟨0, by omega, by simpa using hq, fun _ => by omega⟩

/-- Claim C28 fails on the code: when the registry search fails and returns no
result, `ContainerCreate` pulls the image for the failed search and, the pull
done, pulls it again for the empty result.  On a daemon whose search fails
and whose pulls succeed the image `franela/dind` is pulled twice and the
container is created.  The image selection never pulls more than twice, and
at most once when the search does not fail. -/
theorem failed_search_pulls_twice (cfg : Config) (d : Daemon) (opts : CreateContainerOpts)
    (hist : List Call) :
    (pullsOf (ContainerCreate sampleConfig
        { healthyDaemon with ImageSearch := fun _ => (0, some "registry unreachable") }
        sampleOpts).trace = ["franela/dind", "franela/dind"] ∧
      (ContainerCreate sampleConfig
        { healthyDaemon with ImageSearch := fun _ => (0, some "registry unreachable") }
        sampleOpts).outcome = Outcome.returned none) ∧
    ∃ n, n ≤ 2 ∧
      pullsOf (selectImage cfg d opts hist).1 = pullsOf hist ++ List.replicate n opts.Image ∧
      ((d.ImageSearch (hist ++ [Call.ImageSearch opts.Image 5])).2 = none → n ≤ 1) :=
  ⟨by decide, selectImage_pull_count cfg d opts hist⟩

end docker

namespace path

/-! ### The last element of a joined path -/

theorem cleanLoop_nil (rooted : Bool) (fuel : Nat) (out : List Char) (dotdot : Nat) :
    cleanLoop rooted fuel [] out dotdot = out := by
  cases fuel <;> rfl

theorem dropWhile_append_stop {p : Char → Bool} {y : Char} (hy : p y = false) (b : List Char) :
    ∀ t : List Char, (t ++ y :: b).dropWhile p = t.dropWhile p ++ y :: b := by
  intro t
  induction t with
  | nil => simp [List.dropWhile, hy]
  | cons x t ih =>
    by_cases hx : p x = true
    · simp [List.dropWhile, hx, ih]
    · simp [List.dropWhile, hx]

/-- One more unit of fuel than the length of the path left changes nothing:
the loop of `Clean` ends because the path is read, never for want of fuel. -/
theorem cleanLoop_fuel (rooted : Bool) : ∀ (fuel : Nat) (rest out : List Char) (dotdot : Nat),
    rest.length ≤ fuel →
    cleanLoop rooted (fuel + 1) rest out dotdot = cleanLoop rooted fuel rest out dotdot := by
  intro fuel
  induction fuel with
  | zero =>
    intro rest out dotdot h
    have : rest = [] := List.length_eq_zero.1 (by omega)
    subst this
    rfl
  | succ fuel ih =>
    intro rest out dotdot h
    cases rest with
    | nil => rfl
    | cons x t =>
      have hlen : t.length ≤ fuel := by simp at h; omega
      have htail : t.tail.length ≤ fuel := by
        rw [List.length_tail]
        omega
      by_cases h1 : x = '/'
      · simp only [cleanLoop, if_pos h1]
        exact ih t out dotdot hlen
      · by_cases h2 : x = '.' ∧ (t = [] ∨ t.head? = some '/')
        · simp only [cleanLoop, if_neg h1, if_pos h2]
          exact ih t out dotdot hlen
        · by_cases h3 : x = '.' ∧ t.head? = some '.' ∧ (t.tail = [] ∨ t.tail.head? = some '/')
          · simp only [cleanLoop, if_neg h1, if_neg h2, if_pos h3]
            split
            · exact ih _ _ _ htail
            · split
              · exact ih _ _ _ htail
              · exact ih _ _ _ htail
          · simp only [cleanLoop, if_neg h1, if_neg h2, if_neg h3]
            apply ih
            have hx : (x != '/') = true := by simpa using h1
            have h5 : ((x :: t).dropWhile (fun y => y != '/')).length ≤ t.length := by
              simp only [List.dropWhile, hx]
              exact (List.dropWhile_sublist _).length_le
            omega

/-- With at least the length of the path left as fuel, the loop of `Clean`
gives the same buffer whatever the fuel. -/
theorem cleanLoop_enough_fuel (rooted : Bool) (fuel : Nat) (rest out : List Char) (dotdot : Nat)
    (h : rest.length ≤ fuel) : ∀ k,
    cleanLoop rooted (fuel + k) rest out dotdot = cleanLoop rooted fuel rest out dotdot := by
  intro k
  induction k with
  | zero => rfl
  | succ k ih =>
    rw [← Nat.add_assoc, cleanLoop_fuel rooted (fuel + k) rest out dotdot (by omega), ih]

/-- The loop of `Clean` on the element `stack.yml` alone. -/
theorem cleanLoop_last (rooted : Bool) (fuel : Nat) (out : List Char) (dotdot : Nat) :
    ∃ out1, cleanLoop rooted (fuel + 1) ['s', 't', 'a', 'c', 'k', '.', 'y', 'm', 'l'] out dotdot
      = ['l', 'm', 'y', '.', 'k', 'c', 'a', 't', 's'] ++ out1 := by
  refine ⟨if (rooted && out.length != 1) || (!rooted && out.length != 0) then '/' :: out
    else out, ?_⟩
  rw [cleanLoop]
  rw [if_neg (by decide), if_neg (by decide), if_neg (by decide)]
  exact cleanLoop_nil _ _ _ _

/-- The loop of `Clean` on a path that ends with `/stack.yml`: the buffer ends
with `stack.yml`. -/
theorem cleanLoop_keeps_last (rooted : Bool) : ∀ (fuel : Nat) (w out : List Char) (dotdot : Nat),
    w.length + 2 ≤ fuel →
    ∃ out1, cleanLoop rooted fuel (w ++ '/' :: ['s', 't', 'a', 'c', 'k', '.', 'y', 'm', 'l'])
      out dotdot = ['l', 'm', 'y', '.', 'k', 'c', 'a', 't', 's'] ++ out1 := by
  intro fuel
  induction fuel with
  | zero => intro w out dotdot h; omega
  | succ fuel ih =>
    intro w out dotdot hfuel
    cases w with
    | nil =>
      obtain ⟨f, rfl⟩ : ∃ f, fuel = f + 1 := ⟨fuel - 1, by simp at hfuel; omega⟩
      rw [List.nil_append, cleanLoop, if_pos rfl]
      exact cleanLoop_last rooted f out dotdot
    | cons x t =>
      have hlen : t.length + 2 ≤ fuel := by simp at hfuel; omega
      rw [List.cons_append, cleanLoop]
      by_cases h1 : x = '/'
      · rw [if_pos h1]
        exact ih t out dotdot hlen
      · rw [if_neg h1]
        split
        · exact ih t out dotdot hlen
        · split
          · rename_i h3
            cases t with
            | nil => exact absurd h3.2.1 (by decide)
            | cons y t2 =>
              have hlen2 : t2.length + 2 ≤ fuel := by simp at hlen; omega
              simp only [List.cons_append, List.tail_cons]
              split
              · exact ih t2 _ dotdot hlen2
              · split
                · exact ih t2 _ _ hlen2
                · exact ih t2 out dotdot hlen2
          · have hx : (x != '/') = true := by simpa using h1
            dsimp only
            rw [← List.cons_append,
              dropWhile_append_stop (p := fun y => y != '/') (y := '/') (by decide)]
            apply ih
            have h5 : ((x :: t).dropWhile (fun y => y != '/')).length ≤ t.length := by
              simp only [List.dropWhile, hx]
              exact (List.dropWhile_sublist _).length_le
            omega

/-- A path that ends with `/stack.yml` is cleaned to a path that ends with
`stack.yml`. -/
theorem cleanChars_keeps_last (w : List Char) (hw : w ≠ []) :
    ∃ pre, cleanChars (w ++ '/' :: ['s', 't', 'a', 'c', 'k', '.', 'y', 'm', 'l'])
      = pre ++ ['s', 't', 'a', 'c', 'k', '.', 'y', 'm', 'l'] := by
  obtain ⟨x, t, rfl⟩ := List.exists_cons_of_ne_nil hw
  have hfin : ∀ out out1 : List Char, out = ['l', 'm', 'y', '.', 'k', 'c', 'a', 't', 's'] ++ out1 →
      ∃ pre, (if out.length = 0 then ['.'] else out.reverse)
        = pre ++ ['s', 't', 'a', 'c', 'k', '.', 'y', 'm', 'l'] := by
    intro out out1 h
    subst h
    exact ⟨out1.reverse, by simp⟩
  unfold cleanChars
  rw [if_neg (by simp)]
  by_cases hx : x = '/'
  · subst hx
    obtain ⟨out1, h1⟩ := cleanLoop_keeps_last true
      ('/' :: t ++ '/' :: ['s', 't', 'a', 'c', 'k', '.', 'y', 'm', 'l']).length t ['/'] 1
      (by simp)
    simp only [List.cons_append, List.head?_cons, if_true, List.tail_cons]
    exact hfin _ out1 h1
  · obtain ⟨out1, h1⟩ := cleanLoop_keeps_last false
      (x :: t ++ '/' :: ['s', 't', 'a', 'c', 'k', '.', 'y', 'm', 'l']).length (x :: t) [] 0
      (by simp)
    have hhead : ¬ (some x = some '/') := by simpa using hx
    simp only [List.cons_append, List.head?_cons, if_neg hhead]
    exact hfin _ out1 h1

/-- Joining a non-empty path and `stack.yml` gives a path that ends with
`stack.yml`. -/
theorem Join_stack_yml (s : String) (hs : s ≠ "") :
    ∃ pre, (Join [s, "stack.yml"]).toList
      = pre ++ ['s', 't', 'a', 'c', 'k', '.', 'y', 'm', 'l'] := by
  obtain ⟨cs⟩ := s
  have hne : cs ≠ [] := by
    intro h
    apply hs
    rw [h]
  have hbuf : joinChars [String.mk cs, "stack.yml"]
      = cs ++ '/' :: ['s', 't', 'a', 'c', 'k', '.', 'y', 'm', 'l'] := by
    have hpos : 0 < cs.length := List.length_pos.2 hne
    simp only [joinChars, List.foldl_cons, List.foldl_nil, List.length_nil, List.nil_append]
    simp [hs, hpos]
  have hsize : ¬ (([String.mk cs, "stack.yml"].map String.utf8ByteSize).sum = 0) := by
    have : (9 : Nat) ≤ ([String.mk cs, "stack.yml"].map String.utf8ByteSize).sum := by
      simp only [List.map_cons, List.map_nil, List.sum_cons, List.sum_nil]
      have : String.utf8ByteSize "stack.yml" = 9 := by decide
      omega
    omega
  unfold Join
  rw [if_neg hsize, hbuf]
  exact cleanChars_keeps_last _ hne

end path
namespace handlers

/-! ### Claim C30: the address of a stack -/

theorem hasSuffixStr_append (a b suffix : String) (h : hasSuffixStr b suffix = true) :
    hasSuffixStr (a ++ b) suffix = true := by
  unfold hasSuffixStr at h ⊢
  rw [List.isSuffixOf_iff_suffix] at h ⊢
  obtain ⟨pre, hpre⟩ := h
  refine ⟨a.toList ++ pre, ?_⟩
  show a.toList ++ pre ++ suffix.toList = (a ++ b).data
  rw [String.data_append, List.append_assoc, hpre]
  rfl

theorem hasSuffixStr_join (s : String) (hs : s ≠ "") :
    hasSuffixStr (path.Join [s, "stack.yml"]) ".yml" = true := by
  obtain ⟨pre, hpre⟩ := path.Join_stack_yml s hs
  unfold hasSuffixStr
  rw [List.isSuffixOf_iff_suffix, hpre]
  exact ⟨pre ++ ['s', 't', 'a', 'c', 'k'], by simp⟩

theorem hasLeadStr_base (stack : String) :
    hasLeadStr ("https://raw.githubusercontent.com/play-with-docker/stacks/master" ++ stack) "/"
      = false := by
  unfold hasLeadStr
  show List.isPrefixOf ['/']
    ("https://raw.githubusercontent.com/play-with-docker/stacks/master" ++ stack).data = false
  rw [String.data_append]
  rfl

/-- Claim C30: for every non-empty stack string `s`, `formatStack s` ends with
`.yml` and does not start with `/`, and `formatStack` applied to it gives it
back; for `s` that starts with `/` and ends with `.yml` the result is the
address of the stacks on `raw.githubusercontent.com` followed by `s`.
`env.pathJoin` is Go `path.Join`. -/
theorem formatStack_shape (env : Env) (s : String)
    (hjoin : ∀ a b, env.pathJoin a b = path.Join [a, b]) (hs : s ≠ "") :
    hasSuffixStr (formatStack env s) ".yml" = true ∧
    hasLeadStr (formatStack env s) "/" = false ∧
    formatStack env (formatStack env s) = formatStack env s ∧
    (hasLeadStr s "/" = true → hasSuffixStr s ".yml" = true →
      formatStack env s =
        "https://raw.githubusercontent.com/play-with-docker/stacks/master" ++ s) := by
  have hfix : ∀ r : String, hasSuffixStr r ".yml" = true → hasLeadStr r "/" = false →
      formatStack env r = r := by
    intro r h1 h2
    simp [formatStack, h1, h2]
  have hshape : ∀ stack1 : String, hasSuffixStr stack1 ".yml" = true →
      hasSuffixStr (if hasLeadStr stack1 "/" = true then
          "https://raw.githubusercontent.com/play-with-docker/stacks/master" ++ stack1
        else stack1) ".yml" = true ∧
      hasLeadStr (if hasLeadStr stack1 "/" = true then
          "https://raw.githubusercontent.com/play-with-docker/stacks/master" ++ stack1
        else stack1) "/" = false := by
    intro stack1 h1
    by_cases h2 : hasLeadStr stack1 "/" = true
    · rw [if_pos h2]
      exact ⟨hasSuffixStr_append _ _ _ h1, hasLeadStr_base _⟩
    · rw [if_neg h2]
      exact ⟨h1, by simpa using h2⟩
  have hboth : hasSuffixStr (formatStack env s) ".yml" = true ∧
      hasLeadStr (formatStack env s) "/" = false := by
    by_cases hyml : hasSuffixStr s ".yml" = true
    · have := hshape s hyml
      simpa [formatStack, hyml] using this
    · have := hshape (path.Join [s, "stack.yml"]) (hasSuffixStr_join s hs)
      simpa [formatStack, hyml, hjoin] using this
  refine ⟨hboth.1, hboth.2, hfix _ hboth.1 hboth.2, ?_⟩
  intro h1 h2
  simp [formatStack, h1, h2]

/-- Witness for `formatStack_shape`: the stack `/docker/voting` becomes the
address of `/docker/voting/stack.yml`. -/
theorem formatStack_shape_witness :
    formatStack { sampleEnv with pathJoin := fun a b => path.Join [a, b] } "/docker/voting" =
      "https://raw.githubusercontent.com/play-with-docker/stacks/master/docker/voting/stack.yml" ∧
    hasSuffixStr
      (formatStack { sampleEnv with pathJoin := fun a b => path.Join [a, b] } "/docker/voting")
      ".yml" = true :=
  ⟨by decide,
    (formatStack_shape { sampleEnv with pathJoin := fun a b => path.Join [a, b] }
      "/docker/voting" (fun _ _ => rfl) (by decide)).1⟩

end handlers

namespace docker

open config

/-! ### Claim C9: when the image is pulled -/

/-- `PullImage` asks the daemon to pull exactly when the reference of the
image parses. -/
theorem PullImage_creates (d : Daemon) (image : String) (hist : List Call) :
    imageCreatesOf (PullImage d image hist).1 =
      imageCreatesOf hist ++ (if d.referenceParse image = none then [image] else []) := by
  simp only [PullImage, imageCreatesOf]
  cases hp : d.referenceParse image with
  | some e => simp [List.filterMap_append]
  | none =>
    simp only []
    split <;> simp [List.filterMap_append]

/-- The pulls of the image selection: `PullImage` is invoked some number of
times for the requested image, at least once exactly when the search failed,
found nothing, or always-pull is set, and each invocation asks the daemon to
pull when the reference of the image parses, and none does when it does not. -/
theorem selectImage_creates (cfg : Config) (d : Daemon) (opts : CreateContainerOpts)
    (hist : List Call) :
    ∃ n, pullsOf (selectImage cfg d opts hist).1 = pullsOf hist ++ List.replicate n opts.Image ∧
      imageCreatesOf (selectImage cfg d opts hist).1 = imageCreatesOf hist ++
        (if d.referenceParse opts.Image = none then List.replicate n opts.Image else []) ∧
      (0 < n ↔ ((d.ImageSearch (hist ++ [Call.ImageSearch opts.Image 5])).2 ≠ none ∨
        (d.ImageSearch (hist ++ [Call.ImageSearch opts.Image 5])).1 = 0 ∨
        cfg.AlwaysPull = true)) := by
  have hq : pullsOf (hist ++ [Call.ImageSearch opts.Image 5]) = pullsOf hist := by
    simp [pullsOf, List.filterMap_append]
  have hqc : imageCreatesOf (hist ++ [Call.ImageSearch opts.Image 5]) = imageCreatesOf hist := by
    simp [imageCreatesOf, List.filterMap_append]
  simp only [selectImage]
  cases hs : (d.ImageSearch (hist ++ [Call.ImageSearch opts.Image 5])).2 with
  | some e =>
    simp only []
    have h1 := PullImage_pulls d opts.Image (hist ++ [Call.ImageSearch opts.Image 5])
    have c1 := PullImage_creates d opts.Image (hist ++ [Call.ImageSearch opts.Image 5])
    rw [hq] at h1
    rw [hqc] at c1
    split
    · rename_i hist2 e2 heq
      rw [heq] at h1 c1
      refine ⟨1, by simpa using h1, ?_, by simp⟩
      rw [c1]
      congr 1
    · rename_i hist2 heq
      rw [heq] at h1 c1
      have h2 : pullsOf hist2 = pullsOf hist ++ [opts.Image] := h1
      split
      · refine ⟨2, ?_, ?_, by simp⟩
        · rw [PullImage_pulls, h2]
          simp [List.replicate]
        · rw [PullImage_creates, c1, List.append_assoc]
          congr 1
          split <;> simp [List.replicate]
      · split
        · refine ⟨2, ?_, ?_, by simp⟩
          · rw [PullImage_pulls, h2]
            simp [List.replicate]
          · rw [PullImage_creates, c1, List.append_assoc]
            congr 1
            split <;> simp [List.replicate]
        · refine ⟨1, by simpa using h2, ?_, by simp⟩
          rw [c1]
          congr 1
  | none =>
    simp only []
    split
    · rename_i hzero
      refine ⟨1, ?_, ?_, by simp [hzero]⟩
      · rw [PullImage_pulls, hq]
        simp
      · rw [PullImage_creates, hqc]
        congr 1
    · rename_i hzero
      split
      · rename_i halways
        refine ⟨1, ?_, ?_, by simp [halways.2]⟩
        · rw [PullImage_pulls, hq]
          simp
        · rw [PullImage_creates, hqc]
          congr 1
      · rename_i halways
        refine ⟨0, by simpa using hq, ?_, ?_⟩
        · rw [hqc]
          split <;> simp
        · have hpos : 0 < (d.ImageSearch (hist ++ [Call.ImageSearch opts.Image 5])).1 :=
            Nat.pos_of_ne_zero hzero
          simp only [not_and] at halways
          simp [hzero, halways hpos]

/-- Claim C9, as stated, fails.  An image whose reference does not parse is
never pulled: the search for `Franela/DinD` returns no result, `PullImage` is
invoked and returns the error of `reference.Parse` before it asks the daemon,
and the create fails with that error.  And a create that does not reach the
image selection pulls nothing, whatever the configuration: with always-pull
set and a volume step that fails, the only call is the creation of the
volume. -/
theorem unparsable_image_not_pulled :
    (searchAnswer sampleConfig
        { healthyDaemon with
          ImageSearch := fun _ => (0, none)
          referenceParse := fun image =>
            if image = "Franela/DinD" then some "repository name must be lowercase" else none }
        { sampleOpts with Image := "Franela/DinD" } = (0, none) ∧
      ContainerCreate sampleConfig
        { healthyDaemon with
          ImageSearch := fun _ => (0, none)
          referenceParse := fun image =>
            if image = "Franela/DinD" then some "repository name must be lowercase" else none }
        { sampleOpts with Image := "Franela/DinD" } =
        ⟨[Call.ImageSearch "Franela/DinD" 5, Call.PullImage "Franela/DinD"],
          Outcome.returned (some "repository name must be lowercase")⟩) ∧
    ContainerCreate { sampleConfig with ExternalDindVolume := true, AlwaysPull := true }
      { healthyDaemon with VolumeCreate := fun _ => some "no space left on device" } sampleOpts =
      ⟨[Call.VolumeCreate "xfsvol" [("size", "5G")] "node1_abcdefgh"],
        Outcome.returned (some "no space left on device")⟩ := by
  decide

/-- Claim C9, amended: when `ContainerCreate` reaches the image selection
(there is a first network, and the volume step, if any, did not fail), it
invokes `PullImage` if and only if the search failed, or returned no result,
or always-pull is set; it asks the daemon to pull, with `ImageCreate`, if and
only if one of the three holds and the reference of the image parses; it
pulls no other image than the requested one; and when the search succeeds
with a result and always-pull is off it pulls nothing and creates the
container from the requested image. -/
theorem image_pulled_iff (cfg : Config) (d : Daemon) (opts : CreateContainerOpts)
    (hnet : opts.Networks ≠ [])
    (hvol : cfg.ExternalDindVolume = true → d.VolumeCreate (traceBeforeSearch cfg opts) = none) :
    (pullsOf (ContainerCreate cfg d opts).trace ≠ [] ↔
      ((searchAnswer cfg d opts).2 ≠ none ∨ (searchAnswer cfg d opts).1 = 0 ∨
        cfg.AlwaysPull = true)) ∧
    (imageCreatesOf (ContainerCreate cfg d opts).trace ≠ [] ↔
      (((searchAnswer cfg d opts).2 ≠ none ∨ (searchAnswer cfg d opts).1 = 0 ∨
        cfg.AlwaysPull = true) ∧ d.referenceParse opts.Image = none)) ∧
    (∀ image ∈ imageCreatesOf (ContainerCreate cfg d opts).trace, image = opts.Image) ∧
    ((searchAnswer cfg d opts).2 = none → 0 < (searchAnswer cfg d opts).1 →
      cfg.AlwaysPull = false →
      imageCreatesOf (ContainerCreate cfg d opts).trace = [] ∧
      pullsOf (ContainerCreate cfg d opts).trace = [] ∧
      (containerConfigsOf (ContainerCreate cfg d opts).trace).map (fun cf => cf.Image)
        = [opts.Image]) := by
  obtain ⟨hinv, _, hreuse⟩ := pull_iff cfg d opts hnet hvol
  obtain ⟨net0, rest, hnet0⟩ := List.exists_cons_of_ne_nil hnet
  have hrun := ContainerCreate_reaches_search cfg d opts net0 rest hnet0 hvol
  have hpre : imageCreatesOf (traceBeforeSearch cfg opts) = [] := by
    unfold traceBeforeSearch imageCreatesOf
    split <;> rfl
  have hcreates : imageCreatesOf (ContainerCreate cfg d opts).trace
      = imageCreatesOf (selectImage cfg d opts (traceBeforeSearch cfg opts)).1 := by
    rw [hrun]
    unfold imageCreatesOf
    split
    · rw [deferredVolumeRemove_filterMap _ opts (fun _ _ => rfl),
        createFrom_filterMap _ cfg d opts net0 _ (fun _ _ => rfl) (fun _ _ _ _ => rfl)
          (fun _ => rfl) (fun _ => rfl) (fun _ => rfl)]
      split <;> simp
    · rw [createFrom_filterMap _ cfg d opts net0 _ (fun _ _ => rfl) (fun _ _ _ _ => rfl)
          (fun _ => rfl) (fun _ => rfl) (fun _ => rfl)]
      split <;> simp
  obtain ⟨n, _, hn, hiff⟩ := selectImage_creates cfg d opts (traceBeforeSearch cfg opts)
  rw [hpre, List.nil_append] at hn
  have hcond : (0 < n ↔ ((searchAnswer cfg d opts).2 ≠ none ∨ (searchAnswer cfg d opts).1 = 0 ∨
      cfg.AlwaysPull = true)) := hiff
  refine ⟨hinv, ?_, ?_, ?_⟩
  · rw [hcreates, hn, ← hcond]
    by_cases hp : d.referenceParse opts.Image = none
    · cases n <;> simp [hp, List.replicate]
    · simp [hp]
  · intro image himage
    rw [hcreates, hn] at himage
    split at himage
    · exact List.eq_of_mem_replicate himage
    · cases himage
  · intro herr hpos halways
    obtain ⟨hnone, hcfg⟩ := hreuse herr hpos halways
    refine ⟨?_, hnone, hcfg⟩
    have hzero : n = 0 := by
      by_contra hne
      rcases hcond.1 (Nat.pos_of_ne_zero hne) with h1 | h1 | h1
      · exact h1 herr
      · omega
      · rw [halways] at h1; cases h1
    rw [hcreates, hn, hzero]
    split <;> rfl

/-- Witness for `image_pulled_iff`: the search for `franela/dind` returns no
result, so the daemon is asked to pull it. -/
theorem image_pulled_iff_witness :
    imageCreatesOf (ContainerCreate sampleConfig
      { healthyDaemon with ImageSearch := fun _ => (0, none) } sampleOpts).trace ≠ [] :=
  (image_pulled_iff sampleConfig { healthyDaemon with ImageSearch := fun _ => (0, none) }
    sampleOpts (by decide) (by decide)).2.1.2 ⟨Or.inr (Or.inl (by decide)), by decide⟩

end docker

namespace docker

open config

/-! ### The models on sample inputs -/

/-- The alias pattern on a host with a port. -/
theorem AliasFilter_sample :
    regexp.FindStringSubmatch config.AliasFilter "pwdnode1-abcdefgh-8080.localhost" =
      some ["pwdnode1-abcdefgh-8080.localhost", "node1", "abcdefgh", "8080"] := by
  decide

/-- The IP pattern on a host without a port, and on a host that does not
match. -/
theorem NameFilter_sample :
    regexp.FindStringSubmatch config.NameFilter "ip10-0-0-1.localhost" =
      some ["ip10-0-0-1.localhost", "10-0-0-1", ""] ∧
    regexp.FindStringSubmatch config.NameFilter "localhost" = none := by
  decide

/-- The pattern string of `AliasFilter`, assembled. -/
theorem AliasPortGroupRegex_sample :
    config.AliasPortGroupRegex =
      "^.*pwd([0-9|a-z|A-Z|-]*)-([0-9|a-z|A-Z]\x7b8\x7d)(?:-?([0-9]\x7b1,5\x7d))?\\..*$" := by
  decide

/-- A session of the default duration: the session is created, then its
default instance, and the browser is sent to the page of the session. -/
theorem NewSession_sample :
    handlers.NewSession handlers.sampleEnv (handlers.sampleRequest []) =
      ⟨⟨302, some "/p/abcdefgh", none⟩,
       [handlers.CoreCall.PlaygroundFindByDomain "localhost",
        handlers.CoreCall.SessionNew
          ⟨handlers.samplePlayground, "", 14400000000000, "", "", ""⟩,
        handlers.CoreCall.InstanceNew ⟨"abcdefgh"⟩
          (handlers.defaultInstanceConfig (handlers.sampleRequest []) "")],
       [handlers.LogLine.creatingDefaultInstance "abcdefgh",
        handlers.LogLine.defaultInstanceCreated "abcdefgh"]⟩ := by
  decide

/-- A create request on a daemon where all goes well. -/
theorem ContainerCreate_sample :
    ContainerCreate sampleConfig healthyDaemon sampleOpts =
      ⟨[Call.ImageSearch "franela/dind" 5,
        Call.ContainerCreate (containerConfig sampleOpts) (hostConfig sampleConfig sampleOpts)
          ⟨[("abcdefgh", ["node1"])]⟩ "node1_abcdefgh",
        Call.ContainerStart "c0ffee", Call.ContainerInspect "c0ffee"],
       Outcome.returned none⟩ := by
  decide

/-- A container that stays in the state `created`: the readiness loop gives
up at the deadline. -/
theorem ContainerCreate_timeout_sample :
    (ContainerCreate sampleConfig
      { healthyDaemon with ContainerInspect := fun _ => Except.ok ⟨false, "created", "", 0⟩ }
      sampleOpts).outcome =
      Outcome.returned (some "container not running after timeout, status: created") := by
  decide

/-- The flags of a start with no variable set and no flag given. -/
theorem ParseFlags_sample :
    config.ParseFlags config.noEnv config.noArgs = some (handlers.sampleFlags "") := by
  decide

/-- Getting the session `abcdefgh`: its instance is listed by name. -/
theorem GetSession_sample :
    handlers.GetSession handlers.sampleSessionEnv (handlers.sampleRouteRequest "abcdefgh") =
      ⟨⟨200, some "application/json", [],
          some ⟨⟨"abcdefgh"⟩, [("node1_abcdefgh", task.sampleInstance "franela/dind")]⟩⟩,
        [handlers.Effect.SessionGet "abcdefgh",
         handlers.Effect.InstanceFindBySession ⟨"abcdefgh"⟩]⟩ ∧
    (handlers.GetSession handlers.sampleSessionEnv
      (handlers.sampleRouteRequest "zzzzzzzz")).resp.status = 404 := by
  decide

/-- Closing the session `abcdefgh`: the calls, the removal and the cookies
reset. -/
theorem CloseSession_sample :
    handlers.CloseSession handlers.sampleSessionEnv (handlers.sampleRouteRequest "abcdefgh") =
      ⟨⟨200, none,
          [⟨"id", "", "localhost", "/", -1⟩, ⟨"id", "", ".localhost", "/", -1⟩,
           ⟨"id", "", "", "/", -1⟩], none⟩,
        [handlers.Effect.SessionGet "abcdefgh", handlers.Effect.SessionClose ⟨"abcdefgh"⟩,
         handlers.Effect.AbsUserVolumePath ⟨"abcdefgh"⟩,
         handlers.Effect.RemoveAll "/pwd/data/abcdefgh"]⟩ := by
  decide

/-- The published ports of the sample containers. -/
theorem GetPorts_sample : GetPorts (Except.ok sampleContainers) = Except.ok [32768, 32769] := by
  rfl

/-- The paths of the documentation of `path.Clean` and `path.Join`. -/
theorem Clean_sample :
    path.Clean "a/c" = "a/c" ∧ path.Clean "a//c" = "a/c" ∧ path.Clean "a/c/." = "a/c" ∧
    path.Clean "a/c/b/.." = "a/c" ∧ path.Clean "/../a/c" = "/a/c" ∧
    path.Clean "/../a/b/../././/c" = "/a/c" ∧ path.Clean "" = "." ∧
    path.Clean "abc/def/../../.." = ".." ∧ path.Clean "abc/./../def" = "def" ∧
    path.Join ["a", "b", "c"] = "a/b/c" ∧ path.Join ["a", "b/c"] = "a/b/c" ∧
    path.Join ["a/b", "../../../xyz"] = "../xyz" ∧ path.Join ["", ""] = "" ∧
    path.Join ["a", ""] = "a" ∧ path.Join ["", "a"] = "a" := by
  decide

/-- The white space that `strings.TrimSpace` removes. -/
theorem TrimSpace_sample :
    config.TrimSpace " \t 4h \r\n" = "4h" ∧ config.TrimSpace "a b" = "a b" ∧
    config.TrimSpace " \n " = "" := by
  decide

end docker

end pwd
